import Mathlib

/-! Selection and merge of environment configs in function-environment-configs.

A shallow embedding of `fn.go` and `input/v1beta1/composition_environment.go`.

* Go's `map[string]interface{}` documents are association lists (`Doc`); a
  list stands for a Go map when every key occurs once (`UniqueKeys`).
* Functions returning `(T, error)` return `Except Error T`.
* Slices that the Go code reorders in place are returned as new lists.
* The field path library (`fieldpath.Pave(obj).GetValue(path)`) is an argument
  of the functions that use it (`Pave`); `fieldpathPave` is a concrete accessor
  for dotted paths.
-/

namespace EnvConfigs

/-! ## Documents -/

/-- Go's signed integer types, as `reflect` tells them apart. -/
inductive IntKind where
  | int | int8 | int16 | int32 | int64
  deriving DecidableEq, Repr

/-- Go's unsigned integer types. -/
inductive UintKind where
  | uint | uint8 | uint16 | uint32 | uint64
  deriving DecidableEq, Repr

/-- A value of Go type `interface{}` as it occurs inside an unstructured
document. Floats are carried as their IEEE 754 bit patterns. -/
inductive Value where
  | null
  | bool (b : Bool)
  | str (s : String)
  | int (k : IntKind) (n : Int)
  | uint (k : UintKind) (n : Nat)
  | float32 (bits : Nat)
  | float64 (bits : Nat)
  | array (xs : List Value)
  | object (m : List (String × Value))

/-- A document: `map[string]interface{}`. -/
abbrev Doc := List (String × Value)

/-- The keys of a string-keyed map, in list order. -/
def keys {α : Type} (m : List (String × α)) : List String := m.map Prod.fst

/-- A list of entries stands for a Go map when no key occurs twice. -/
def UniqueKeys {α : Type} (m : List (String × α)) : Prop := (keys m).Nodup

instance {α : Type} (m : List (String × α)) : Decidable (UniqueKeys m) := by
  unfold UniqueKeys; infer_instance

/-- Map index expression `v, ok := m[key]` on a string-keyed map. -/
def mapLookup {α : Type} : List (String × α) → String → Option α
  | [], _ => none
  | (k, v) :: rest, key => if k = key then some v else mapLookup rest key

/-- Map assignment `m[key] = v` on a string-keyed map. -/
def mapStore {α : Type} : List (String × α) → String → α → List (String × α)
  | [], key, v => [(key, v)]
  | (k, w) :: rest, key, v =>
    if k = key then (key, v) :: rest else (k, w) :: mapStore rest key v

/-- Type assertion `v.(map[string]interface{})` succeeded. -/
def Value.isObject : Value → Bool
  | .object _ => true
  | _ => false

/-! ## Merge engine (`fn.go`, `mergeMaps`) -/

/-- First loop of `mergeMaps`: `for k, v := range a { out[k] = v }` on a fresh
map. -/
def copyMap (a : Doc) : Doc :=
  a.foldl (fun out kv => mapStore out kv.1 kv.2) []

mutual
/-- Second loop of `mergeMaps`: `for k, v := range b { ... }`, run on the
entries of `b` in list order with accumulator `out`. -/
def mergeInto (out : Doc) : List (String × Value) → Doc
  | [] => out
  | kv :: rest => mergeInto (mergeEntry out kv) rest
termination_by structural b => b
/-- One iteration of the second loop: `out[k]` receives either the recursive
merge or `v` itself. -/
def mergeEntry (out : Doc) : String × Value → Doc
  | (k, v) => mapStore out k (mergeValue (mapLookup out k) v)
termination_by structural kv => kv
/-- The value stored at `k`: `mergeMaps(bv, v)` when `v` is a map and `out[k]`
exists and is a map, `v` otherwise. -/
def mergeValue (bv : Option Value) : Value → Value
  | .object vm =>
    match bv with
    | some (.object bvm) => .object (mergeInto (copyMap bvm) vm)
    | _ => .object vm
  | v => v
termination_by structural v => v
end

/-- Go `mergeMaps(a, b)`: copy `a`, then overlay the entries of `b`. -/
def mergeMaps (a b : Doc) : Doc := mergeInto (copyMap a) b

/-! ## Input (`input/v1beta1/composition_environment.go`)

String-typed Go enumerations stay strings, so that unset (`""`) and
unrecognised values are representable. Pointer fields are `Option`s. -/

/-- Go `xpv1.ResolutionPolicyRequired`. -/
def ResolutionPolicyRequired : String := "Required"
/-- Go `xpv1.ResolutionPolicyOptional`. -/
def ResolutionPolicyOptional : String := "Optional"

/-- Go `Policy`: the resolution policy of the reference sources. -/
structure Policy where
  Resolution : Option String

/-- Go `(*Policy).IsResolutionPolicyOptional`, on a possibly nil receiver. -/
def IsResolutionPolicyOptional : Option Policy → Bool
  | none => false
  | some p =>
    match p.Resolution with
    | none => false
    | some r => decide (r = ResolutionPolicyOptional)

/-- Go `EnvironmentSourceTypeReference`. -/
def EnvironmentSourceTypeReference : String := "Reference"
/-- Go `EnvironmentSourceTypeSelector`. -/
def EnvironmentSourceTypeSelector : String := "Selector"

/-- Go `EnvironmentSourceReference`. -/
structure EnvironmentSourceReference where
  Name : String

/-- Go `EnvironmentSourceSelectorSingleMode`. -/
def EnvironmentSourceSelectorSingleMode : String := "Single"
/-- Go `EnvironmentSourceSelectorMultiMode`. -/
def EnvironmentSourceSelectorMultiMode : String := "Multiple"

/-- Go `EnvironmentSourceSelectorLabelMatcherTypeFromCompositeFieldPath`. -/
def EnvironmentSourceSelectorLabelMatcherTypeFromCompositeFieldPath : String :=
  "FromCompositeFieldPath"
/-- Go `EnvironmentSourceSelectorLabelMatcherTypeValue`. -/
def EnvironmentSourceSelectorLabelMatcherTypeValue : String := "Value"

/-- Go `FromFieldPathPolicyOptional`. -/
def FromFieldPathPolicyOptional : String := "Optional"
/-- Go `FromFieldPathPolicyRequired`. -/
def FromFieldPathPolicyRequired : String := "Required"

/-- Go `EnvironmentSourceSelectorLabelMatcher`; `MatcherType` is the field
`Type`. -/
structure EnvironmentSourceSelectorLabelMatcher where
  MatcherType : String
  Key : String
  ValueFromFieldPath : Option String
  FromFieldPathPolicy : Option String
  Value : Option String

/-- Go `(*EnvironmentSourceSelectorLabelMatcher).FromFieldPathIsOptional`. -/
def EnvironmentSourceSelectorLabelMatcher.FromFieldPathIsOptional
    (e : EnvironmentSourceSelectorLabelMatcher) : Bool :=
  match e.FromFieldPathPolicy with
  | none => false
  | some p => decide (p = FromFieldPathPolicyOptional)

/-- Go `(*EnvironmentSourceSelectorLabelMatcher).GetType`. -/
def EnvironmentSourceSelectorLabelMatcher.GetType
    (e : EnvironmentSourceSelectorLabelMatcher) : String :=
  if e.MatcherType = "" then
    EnvironmentSourceSelectorLabelMatcherTypeFromCompositeFieldPath
  else e.MatcherType

/-- Go `EnvironmentSourceSelector`; `MaxMatch` and `MinMatch` are `*uint64`. -/
structure EnvironmentSourceSelector where
  Mode : String
  MaxMatch : Option Nat
  MinMatch : Option Nat
  SortByFieldPath : String
  MatchLabels : List EnvironmentSourceSelectorLabelMatcher

/-- Go `(*EnvironmentSourceSelector).GetMode`, on a possibly nil receiver. -/
def GetMode : Option EnvironmentSourceSelector → String
  | none => EnvironmentSourceSelectorSingleMode
  | some e => if e.Mode = "" then EnvironmentSourceSelectorSingleMode else e.Mode

/-- Go `(*EnvironmentSourceSelector).GetSortByFieldPath`, on a possibly nil
receiver. -/
def GetSortByFieldPath : Option EnvironmentSourceSelector → String
  | none => "metadata.name"
  | some e => if e.SortByFieldPath = "" then "metadata.name" else e.SortByFieldPath

/-- Go `EnvironmentSource`; `SourceType` is the field `Type`. -/
structure EnvironmentSource where
  SourceType : String
  Ref : Option EnvironmentSourceReference
  Selector : Option EnvironmentSourceSelector

/-- Go `(*EnvironmentSource).GetType`. -/
def EnvironmentSource.GetType (e : EnvironmentSource) : String :=
  if e.SourceType = "" then EnvironmentSourceTypeReference else e.SourceType

/-- Go `InputSpec`. `DefaultData` holds each raw JSON value as the document
tree it encodes; a nil map or slice is `none`. -/
structure InputSpec where
  DefaultData : Option Doc
  EnvironmentConfigs : Option (List EnvironmentSource)
  Policy : Option Policy
  DataOverrides : Option (List (String × String))

/-- Go `Input`. -/
structure Input where
  Spec : InputSpec

/-! ## Field paths (`crossplane-runtime/pkg/fieldpath`)

The library resolves a path string inside a document. The functions of
`fn.go` receive it as the argument `pave`, standing for
`fieldpath.Pave(obj).GetValue(path)`. -/

/-- An error of the field path library: `fieldpath.IsNotFound` holds of the
first kind only. -/
inductive FieldPathError where
  | notFound (msg : String)
  | invalid (msg : String)
  deriving DecidableEq, Repr

/-- Go `fieldpath.IsNotFound(err)`. -/
def FieldPathError.IsNotFound : FieldPathError → Bool
  | .notFound _ => true
  | .invalid _ => false

/-- Go `fieldpath.Pave(obj).GetValue(path)`: the value at `path`, or an
error. -/
abbrev Pave := Doc → String → Except FieldPathError Value

/-- A segment of a parsed field path. -/
inductive Segment where
  | field (name : String)
  | index (n : Nat)
  deriving DecidableEq, Repr

/-- Lexer state of `parsePath`: inside a field name, inside brackets, or right
after a closing bracket. -/
inductive LexState where
  | field (cur : List Char)
  | bracket (cur : List Char)
  | closed

/-- The number written by a list of decimal digits, most significant first,
continuing from `acc`; `none` when a character is not a digit. -/
def digitsValue : List Char → Nat → Option Nat
  | [], acc => some acc
  | c :: rest, acc =>
    if c.isDigit then digitsValue rest (10 * acc + (c.toNat - '0'.toNat)) else none

/-- The segment written between brackets: an index when it is a number. -/
def bracketSegment (cur : List Char) : Segment :=
  match cur.reverse with
  | [] => .field ""
  | cs =>
    match digitsValue cs 0 with
    | some n => .index n
    | none => .field (String.mk cs)

/-- Lexer for dotted paths with bracketed indexes, such as `spec.items[0].name`. -/
def lexPath : List Char → LexState → Except FieldPathError (List Segment)
  | [], .field [] => .error (.invalid "unexpected end of path")
  | [], .field cur => .ok [.field (String.mk cur.reverse)]
  | [], .bracket _ => .error (.invalid "unterminated bracket")
  | [], .closed => .ok []
  | c :: rest, .field cur =>
    if c = '.' then
      match cur with
      | [] => .error (.invalid "unexpected period")
      | _ => (lexPath rest (.field [])).map (fun segs => .field (String.mk cur.reverse) :: segs)
    else if c = '[' then
      match cur with
      | [] => lexPath rest (.bracket [])
      | _ => (lexPath rest (.bracket [])).map (fun segs => .field (String.mk cur.reverse) :: segs)
    else lexPath rest (.field (c :: cur))
  | c :: rest, .bracket cur =>
    if c = ']' then (lexPath rest .closed).map (fun segs => bracketSegment cur :: segs)
    else lexPath rest (.bracket (c :: cur))
  | c :: rest, .closed =>
    if c = '.' then lexPath rest (.field [])
    else if c = '[' then lexPath rest (.bracket [])
    else .error (.invalid "unexpected character after bracket")

/-- Go `fieldpath.Parse`, for dotted paths with bracketed indexes. -/
def parsePath (path : String) : Except FieldPathError (List Segment) :=
  if path = "" then .ok [] else lexPath path.toList (.field [])

/-- One step of `getValueFromInterface`: the child of `it` named by a segment.
A missing field or element and a nil parent are not-found errors; a parent of
another type is not. -/
def getSegment (it : Value) : Segment → Except FieldPathError Value
  | .index n =>
    match it with
    | .array xs =>
      match xs.get? n with
      | some v => .ok v
      | none => .error (.notFound "no such element")
    | _ => .error (.invalid "not an array")
  | .field f =>
    match it with
    | .object m =>
      match mapLookup m f with
      | some v => .ok v
      | none => .error (.notFound "no such field")
    | .null => .error (.notFound "expected map, got nil")
    | _ => .error (.invalid "not an object")

/-- Go `getValueFromInterface`: walk the segments from `it`. -/
def getValueFromInterface : Value → List Segment → Except FieldPathError Value
  | _, [] => .ok .null
  | it, [seg] => getSegment it seg
  | it, seg :: rest =>
    match getSegment it seg with
    | .ok v => getValueFromInterface v rest
    | .error e => .error e

/-- A concrete `Pave`: parse the path, then walk the document. -/
def fieldpathPave : Pave := fun obj path =>
  match parsePath path with
  | .ok segs => getValueFromInterface (.object obj) segs
  | .error e => .error e

/-! ## Errors -/

/-- The dynamic type of a non-nil `interface{}` value, as `reflect.TypeOf`
reports it. -/
inductive GoType where
  | bool
  | string
  | int (k : IntKind)
  | uint (k : UintKind)
  | float32
  | float64
  | slice
  | map
  deriving DecidableEq, Repr

/-- Errors of `fn.go`, one constructor per `errors.Errorf`/`errors.New` call
site with its arguments. `wrap` is `errors.Wrapf`; `nilDereference` is the
runtime panic of dereferencing a nil pointer, which no caller handles. -/
inductive Error where
  /-- Message "cannot sort by empty field path". -/
  | emptyFieldPath
  /-- An error returned by the field path library. -/
  | fieldPath (e : FieldPathError)
  /-- Message "cannot sort values of different types %q and %q". -/
  | differentTypes (t vt : GoType)
  /-- Message "unsupported type %q for sorting". -/
  | unsupportedType (t : GoType)
  /-- Message "expected exactly one extra resource, got %d". -/
  | expectedExactlyOne (got : Nat)
  /-- Message "expected at least %d extra resources, got %d". -/
  | expectedAtLeast (min got : Nat)
  /-- Message "unknown selector mode %q". -/
  | unknownSelectorMode (mode : String)
  /-- Message "Required environment config %q not found". -/
  | requiredNotFound (name : String)
  /-- Message "expected exactly one extra resource %q, got %d". -/
  | expectedExactlyOneNamed (name : String) (got : Nat)
  /-- Message "cannot find expected extra resource %q". -/
  | missingExtraResource (name : String)
  /-- Message "cannot unmarshal value from JSON" (`GetValueInto`). -/
  | cannotUnmarshal
  /-- Message "cannot marshal value to JSON" (`GetValueInto`). -/
  | cannotMarshal
  /-- A failure reported by the function SDK while decoding the request. -/
  | sdk (msg : String)
  /-- Go `errors.Wrapf(cause, msg)`. -/
  | wrap (msg : String) (cause : Error)
  /-- Runtime panic: nil pointer dereference. -/
  | nilDereference
  deriving DecidableEq, Repr

/-- Go `errors.Wrapf(err, msg)` at a call site: a panic is not an error value
and is never wrapped. -/
def wrapf (msg : String) : Error → Error
  | .nilDereference => .nilDereference
  | e => .wrap msg e

/-- Go `fieldpath.Pave(obj).GetString(path)`: `GetValue` followed by the type
assertion to `string`. -/
def GetString (pave : Pave) (obj : Doc) (path : String) : Except FieldPathError String :=
  match pave obj path with
  | .error e => .error e
  | .ok (.str s) => .ok s
  | .ok _ => .error (.invalid "not a string")

/-! ### JSON round trip (`GetValueInto`)

`GetValueInto` marshals the value found to JSON and unmarshals the text with
`k8s.io/apimachinery/pkg/util/json`, which reads a number written without
fraction and exponent as an `int64` when it fits, and every other number as a
`float64`. -/

/-- The number of binary digits of `n`; `fuel` bounds the count. -/
def bitLength : Nat → Nat → Nat
  | 0, _ => 0
  | fuel + 1, n => if n = 0 then 0 else bitLength fuel (n / 2) + 1

/-- Go `strconv.ParseFloat(s, 64)` on a decimal number with the positive value
`num / den`: the bit pattern of the nearest `float64`, ties to even, with the
sign bit set when `neg`; `none` when the value rounds to an infinity. -/
def float64OfRatio (neg : Bool) (num den : Nat) : Option Nat :=
  let sign := if neg then 2 ^ 63 else 0
  let b : Int := (bitLength num num : Int) - (bitLength den den : Int)
  let fl : Int := if den * 2 ^ b.toNat ≤ num * 2 ^ (-b).toNat then b else b - 1
  let s : Int := if fl < -1022 then -1074 else fl - 52
  let n2 := num * 2 ^ (-s).toNat
  let d2 := den * 2 ^ s.toNat
  let q := n2 / d2
  let r := n2 % d2
  let q2 := if d2 < 2 * r ∨ (2 * r = d2 ∧ q % 2 = 1) then q + 1 else q
  let bits := if fl < -1022 then q2 else (fl + 1022).toNat * 2 ^ 52 + q2
  if 2047 * 2 ^ 52 ≤ bits then none else some (sign + bits)

/-- The round trip of an integer of any Go integer type: its digits are read
back as an `int64` when it fits (`strconv.ParseInt`), else as the nearest
`float64`, which exists for the integers of every Go integer type. -/
def jsonNumberOfInt (n : Int) : Option Value :=
  if -9223372036854775808 ≤ n ∧ n < 9223372036854775808 then some (.int .int64 n)
  else (float64OfRatio (decide (n < 0)) n.natAbs 1).map Value.float64

/-- The shortest decimal at the scale `10 ^ k` for a float with the value
`aC * 2 ^ t` and the rounding interval from `aL * 2 ^ t` to `aU * 2 ^ t`: the
multiple `d` of `10 ^ k` in the interval that is nearest to the value (ties to
even), `none` when the interval holds no multiple of `10 ^ k`. The bounds
belong to the interval when `inclusive`. -/
def decimalAt (aL aC aU : Nat) (t : Int) (inclusive : Bool) (k : Int) : Option Nat :=
  let den := 2 ^ (-t).toNat * 10 ^ k.toNat
  let scale := 2 ^ t.toNat * 10 ^ (-k).toNat
  let lo := if inclusive then (aL * scale + den - 1) / den else aL * scale / den + 1
  let hi := if inclusive then aU * scale / den else (aU * scale - 1) / den
  if lo ≤ hi then
    let c := aC * scale / den
    let r := aC * scale % den
    if c < lo then some lo
    else if c + 1 ≤ hi ∧ (den < 2 * r ∨ (2 * r = den ∧ c % 2 = 1)) then some (c + 1)
    else some c
  else none

/-- Search for the largest scale `10 ^ k` at which the interval holds a
multiple, from `k` downwards; `fuel` bounds the search. -/
def shortestDecimalFrom (aL aC aU : Nat) (t : Int) (inclusive : Bool) :
    Nat → Int → Nat × Int
  | 0, k => (0, k)
  | fuel + 1, k =>
    match decimalAt aL aC aU t inclusive k with
    | some d => (d, k)
    | none => shortestDecimalFrom aL aC aU t inclusive fuel (k - 1)

/-- Go `strconv.FormatFloat(f, fmt, -1, bitSize)`: the decimal `d * 10 ^ k`
with the fewest digits that is read back as the float, nearest to its value
among these. The search starts at a scale above the upper bound. -/
def shortestDecimal (aL aC aU : Nat) (t : Int) (inclusive : Bool) : Nat × Int :=
  let e2 : Int := (bitLength aU aU : Int) + t
  let k0 : Int :=
    if 0 ≤ e2 then ((e2.toNat * 30103 / 100000 : Nat) : Int) + 1
    else 1 - (((-e2).toNat * 30102 / 100000 : Nat) : Int)
  shortestDecimalFrom aL aC aU t inclusive 1200 k0

/-- The JSON decoder on the number `d * 10 ^ k`, negated when `neg`: a whole
number (no fraction digits, no exponent) that fits is read as an `int64`
(`strconv.ParseInt`), any other number as the nearest `float64`
(`strconv.ParseFloat`). -/
def jsonNumberOfDecimal (neg : Bool) (d : Nat) (k : Int) : Option Value :=
  let n : Nat := d * 10 ^ k.toNat
  if 0 ≤ k ∧ (n < 9223372036854775808 ∨ (neg = true ∧ n = 9223372036854775808)) then
    some (.int .int64 (if neg then -(n : Int) else (n : Int)))
  else (float64OfRatio neg n (10 ^ (-k).toNat)).map Value.float64

/-- The round trip of a float with `mantBits` mantissa bits and `expBits`
exponent bits, given by its bit pattern. `json.Marshal` fails on NaN and on the
infinities. Zero is written `0` or `-0` and read back as the `int64` 0. Every
other value is written with its shortest decimal and read back from it. The
bounds of the rounding interval are those of Go `computeBounds`. -/
def jsonNumberOfFloat (mantBits expBits bits : Nat) : Option Value :=
  let neg : Bool := decide ((bits / 2 ^ (mantBits + expBits)) % 2 = 1)
  let e := (bits / 2 ^ mantBits) % 2 ^ expBits
  let m := bits % 2 ^ mantBits
  if e = 2 ^ expBits - 1 then none
  else if e = 0 ∧ m = 0 then some (.int .int64 0)
  else
    let mant : Nat := if e = 0 then m else 2 ^ mantBits + m
    let exp : Int := ((if e = 0 then 1 else e : Nat) : Int)
      - ((2 ^ (expBits - 1) - 1 + mantBits : Nat) : Int)
    let regular : Bool := decide (m ≠ 0 ∨ e ≤ 1)
    let aL : Nat := if regular then 2 * mant - 1 else 4 * mant - 1
    let aC : Nat := if regular then 2 * mant else 4 * mant
    let aU : Nat := if regular then 2 * mant + 1 else 4 * mant + 2
    let t : Int := if regular then exp - 1 else exp - 2
    let dk := shortestDecimal aL aC aU t (decide (mant % 2 = 0))
    jsonNumberOfDecimal neg dk.1 dk.2

/-- The round trip of a `float64`, given by its bit pattern. -/
def jsonNumberOfFloat64 (bits : Nat) : Option Value := jsonNumberOfFloat 52 11 bits

/-- The round trip of a `float32`, given by its bit pattern. -/
def jsonNumberOfFloat32 (bits : Nat) : Option Value := jsonNumberOfFloat 23 8 bits

mutual
/-- The round trip of the entries of an object. -/
def jsonRoundTripEntries : List (String × Value) → Option (List (String × Value))
  | [] => some []
  | kv :: rest =>
    match jsonRoundTripEntry kv, jsonRoundTripEntries rest with
    | some kv2, some rest2 => some (kv2 :: rest2)
    | _, _ => none
termination_by structural m => m
/-- The round trip of one entry: the key with the round trip of the value. -/
def jsonRoundTripEntry : String × Value → Option (String × Value)
  | (k, v) =>
    match jsonRoundTrip v with
    | some v2 => some (k, v2)
    | none => none
termination_by structural kv => kv
/-- The round trip of the elements of an array. -/
def jsonRoundTripList : List Value → Option (List Value)
  | [] => some []
  | x :: rest =>
    match jsonRoundTrip x, jsonRoundTripList rest with
    | some x2, some rest2 => some (x2 :: rest2)
    | _, _ => none
termination_by structural xs => xs
/-- Go `json.Marshal(val)` followed by `json.Unmarshal` into an `interface{}`
(`k8s.io/apimachinery/pkg/util/json`): `none` when the value cannot be
marshalled. Strings, booleans and nil come back as they are, numbers as `int64`
or `float64`, arrays and objects with their elements read back. -/
def jsonRoundTrip : Value → Option Value
  | .null => some .null
  | .bool b => some (.bool b)
  | .str s => some (.str s)
  | .int _ n => jsonNumberOfInt n
  | .uint _ n => jsonNumberOfInt n
  | .float32 bits => jsonNumberOfFloat32 bits
  | .float64 bits => jsonNumberOfFloat64 bits
  | .array xs =>
    match jsonRoundTripList xs with
    | some ys => some (.array ys)
    | none => none
  | .object m =>
    match jsonRoundTripEntries m with
    | some m2 => some (.object m2)
    | none => none
termination_by structural v => v
end

mutual
/-- Every value of the entries is as the JSON decoder returns it. -/
def jsonNormalEntries : List (String × Value) → Bool
  | [] => true
  | kv :: rest => jsonNormalEntry kv && jsonNormalEntries rest
termination_by structural m => m
/-- The value of the entry is as the JSON decoder returns it. -/
def jsonNormalEntry : String × Value → Bool
  | (_, v) => jsonNormal v
termination_by structural kv => kv
/-- Every element is as the JSON decoder returns it. -/
def jsonNormalList : List Value → Bool
  | [] => true
  | x :: rest => jsonNormal x && jsonNormalList rest
termination_by structural xs => xs
/-- The value is as the JSON decoder of `GetValueInto` returns it: its numbers
are `int64` values, or `float64` values that the round trip returns as they
are. -/
def jsonNormal : Value → Bool
  | .null => true
  | .bool _ => true
  | .str _ => true
  | .int k n => decide (k = .int64 ∧ -9223372036854775808 ≤ n ∧ n < 9223372036854775808)
  | .uint _ _ => false
  | .float32 _ => false
  | .float64 bits =>
    match jsonNumberOfFloat64 bits with
    | some (.float64 b) => decide (b = bits)
    | _ => false
  | .array xs => jsonNormalList xs
  | .object m => jsonNormalEntries m
termination_by structural v => v
end

/-- Go `fieldpath.Pave(obj).GetValueInto(path, &data)` for
`data map[string]interface{}`: `GetValue`, then `json.Marshal` of the value
and `json.Unmarshal` of the text into the map. An object is decoded into the
map, `null` leaves the map without entries, any other value cannot be
unmarshalled into a map. -/
def GetValueInto (pave : Pave) (obj : Doc) (path : String) : Except Error Doc :=
  match pave obj path with
  | .error e => .error (.fieldPath e)
  | .ok val =>
    match jsonRoundTrip val with
    | none => .error .cannotMarshal
    | some (.object m) => .ok m
    | some .null => .ok []
    | some _ => .error .cannotUnmarshal


/-! ## Deterministic sorter (`fn.go`, `sortExtrasByFieldPath`) -/

/-- Go `resource.Extra`: a fetched candidate, identified with the object of its
`Resource`. -/
abbrev Extra := Doc

/-- Go `reflect.TypeOf(val)`; `none` when `val == nil`. -/
def Value.typeOf : Value → Option GoType
  | .null => none
  | .bool _ => some .bool
  | .str _ => some .string
  | .int k _ => some (.int k)
  | .uint k _ => some (.uint k)
  | .float32 _ => some .float32
  | .float64 _ => some .float64
  | .array _ => some .slice
  | .object _ => some .map

/-- Go `reflect.Zero(t).Interface()`. -/
def zeroValue : GoType → Value
  | .bool => .bool false
  | .string => .str ""
  | .int k => .int k 0
  | .uint k => .uint k 0
  | .float32 => .float32 0
  | .float64 => .float64 0
  | .slice => .array []
  | .map => .object []

/-- Go `<` on `float64`, on IEEE 754 binary64 bit patterns: false when either
side is a NaN, else the order of the signed magnitudes (so `-0 < +0` is false). -/
def float64Less (a b : Nat) : Bool :=
  let isNaN := fun (x : Nat) => decide ((x / 2 ^ 52) % 2 ^ 11 = 2047 ∧ x % 2 ^ 52 ≠ 0)
  let key := fun (x : Nat) =>
    if (x / 2 ^ 63) % 2 = 1 then -((x % 2 ^ 63 : Nat) : Int) else ((x % 2 ^ 63 : Nat) : Int)
  !isNaN a && !isNaN b && decide (key a < key b)

/-- Go `<` on `float32`, on IEEE 754 binary32 bit patterns. -/
def float32Less (a b : Nat) : Bool :=
  let isNaN := fun (x : Nat) => decide ((x / 2 ^ 23) % 2 ^ 8 = 255 ∧ x % 2 ^ 23 ≠ 0)
  let key := fun (x : Nat) =>
    if (x / 2 ^ 31) % 2 = 1 then -((x % 2 ^ 31 : Nat) : Int) else ((x % 2 ^ 31 : Nat) : Int)
  !isNaN a && !isNaN b && decide (key a < key b)

/-- Lexicographic `<` on lists of numbers. -/
def lexLess : List Nat → List Nat → Bool
  | _, [] => false
  | [], _ :: _ => true
  | a :: as, b :: bs =>
    if a < b then true else if b < a then false else lexLess as bs

/-- Go `<` on `string`: the bytewise order of the UTF-8 encodings, which is the
lexicographic order of the code points. -/
def stringLess (a b : String) : Bool :=
  lexLess (a.toList.map Char.toNat) (b.toList.map Char.toNat)

/-- The kinds that the comparator's `switch t.Kind()` handles. -/
def sortable : GoType → Bool
  | .float64 => true
  | .float32 => true
  | .int _ => true
  | .string => true
  | _ => false

/-- The comparator passed to `sort.Slice`, for a sortable `t`: a nil value is
replaced by the zero value of `t`, then the two values are compared as values
of type `t`. -/
def lessValue (t : GoType) (vali valj : Value) : Bool :=
  let vi := match vali with
    | .null => zeroValue t
    | v => v
  let vj := match valj with
    | .null => zeroValue t
    | v => v
  match t, vi, vj with
  | .float64, .float64 a, .float64 b => float64Less a b
  | .float32, .float32 a, .float32 b => float32Less a b
  | .int _, .int _ a, .int _ b => decide (a < b)
  | .string, .str a, .str b => stringLess a b
  | _, _, _ => false

/-- Inner loop of Go's `insertionSortLessFunc`: the new element moves left
while it is less than its left neighbour. The sorted prefix is given last
element first. -/
def insertLeft {α : Type} (less : α → α → Bool) (x : α) : List α → List α
  | [] => [x]
  | y :: ys => if less x y then y :: insertLeft less x ys else x :: y :: ys

/-- Go `sort.Slice(p, less)`, as the insertion sort it runs on short slices
(`insertionSortLessFunc`); on longer slices Go sorts with pattern-defeating
quicksort, whose result can differ in the order of elements that compare
equal. -/
def sortSlice {α : Type} (less : α → α → Bool) (p : List α) : List α :=
  (p.foldl (fun sorted x => insertLeft less x sorted) []).reverse

/-- First loop of `sortExtrasByFieldPath`: read the value at `path` in each
extra and settle the shared type `t`. Returns the pairs `(ec, val)` and `t`;
`val` is `null` (nil) when the path is not found. -/
def collectValues (pave : Pave) (path : String) :
    List Extra → Option GoType → Except Error (List (Extra × Value) × Option GoType)
  | [], t => .ok ([], t)
  | ec :: rest, t =>
    match pave ec path with
    | .error err =>
      if err.IsNotFound then
        (collectValues pave path rest t).map (fun r => ((ec, .null) :: r.1, r.2))
      else .error (.fieldPath err)
    | .ok val =>
      match val.typeOf with
      | none => (collectValues pave path rest t).map (fun r => ((ec, val) :: r.1, r.2))
      | some vt =>
        match t with
        | none =>
          (collectValues pave path rest (some vt)).map (fun r => ((ec, val) :: r.1, r.2))
        | some t0 =>
          if t0 = vt then
            (collectValues pave path rest t).map (fun r => ((ec, val) :: r.1, r.2))
          else .error (.differentTypes t0 vt)

/-- Go `sortExtrasByFieldPath(extras, path)`; the reordered slice is returned.
For a type outside the comparator's switch, the comparator sets `err` on its
first call, and `sort.Slice` calls it only when there are two elements. -/
def sortExtrasByFieldPath (pave : Pave) (extras : List Extra) (path : String) :
    Except Error (List Extra) :=
  if path = "" then .error .emptyFieldPath
  else
    match collectValues pave path extras none with
    | .error e => .error e
    | .ok (_, none) => .ok extras
    | .ok (p, some t) =>
      if sortable t then .ok ((sortSlice (fun x y => lessValue t x.2 y.2) p).map Prod.fst)
      else if p.length < 2 then .ok (p.map Prod.fst)
      else .error (.unsupportedType t)

/-! ## Source resolver (`fn.go`) -/

/-- Go `processSourceByReference(in, config, resources)`; `none` is the nil
result of an optional reference that was not found. -/
def processSourceByReference (inp : Input) (config : EnvironmentSource)
    (resources : List Extra) : Except Error (Option Doc) :=
  match config.Ref with
  | none => .error .nilDereference
  | some ref =>
    let envConfigName := ref.Name
    match resources with
    | [] =>
      if IsResolutionPolicyOptional inp.Spec.Policy then .ok none
      else .error (.requiredNotFound envConfigName)
    | [r] => .ok (some r)
    | _ => .error (.expectedExactlyOneNamed envConfigName resources.length)

/-- Go `processEnvironmentSource(config, resources)`. -/
def processEnvironmentSource (pave : Pave) (config : EnvironmentSource)
    (resources : List Extra) : Except Error (List Doc) :=
  let selector := config.Selector
  if GetMode selector = EnvironmentSourceSelectorSingleMode then
    match resources with
    | [r] => .ok [r]
    | _ => .error (.expectedExactlyOne resources.length)
  else if GetMode selector = EnvironmentSourceSelectorMultiMode then
    match selector with
    | none => .error .nilDereference
    | some sel =>
      let sortAndTruncate : Except Error (List Doc) :=
        match sortExtrasByFieldPath pave resources (GetSortByFieldPath selector) with
        | .error e => .error e
        | .ok sorted =>
          match sel.MaxMatch with
          | some m => if sorted.length > m then .ok (sorted.take m) else .ok sorted
          | none => .ok sorted
      match sel.MinMatch with
      | some m =>
        if resources.length < m then .error (.expectedAtLeast m resources.length)
        else sortAndTruncate
      | none => sortAndTruncate
  else
    match selector with
    | none => .error .nilDereference
    | some sel => .error (.unknownSelectorMode sel.Mode)

/-- Go `fmt.Sprintf("environment-config-%d", i)`. -/
def extraResName (i : Nat) : String := "environment-config-" ++ toString i

/-- Loop of `getSelectedEnvConfigs` from index `i` on, with the configs
gathered so far. A source whose type is neither `Reference` nor `Selector`
matches no case of the switch. -/
def getSelectedEnvConfigsFrom (pave : Pave) (inp : Input)
    (extraResources : List (String × List Extra)) :
    Nat → List EnvironmentSource → List Doc → Except Error (List Doc)
  | _, [], envConfigs => .ok envConfigs
  | i, config :: rest, envConfigs =>
    match mapLookup extraResources (extraResName i) with
    | none => .error (.missingExtraResource (extraResName i))
    | some resources =>
      if config.GetType = EnvironmentSourceTypeReference then
        match processSourceByReference inp config resources with
        | .error e =>
          .error (wrapf "cannot process environment config %q by reference, %q" e)
        | .ok none => getSelectedEnvConfigsFrom pave inp extraResources (i + 1) rest envConfigs
        | .ok (some out) =>
          getSelectedEnvConfigsFrom pave inp extraResources (i + 1) rest (envConfigs ++ [out])
      else if config.GetType = EnvironmentSourceTypeSelector then
        match processEnvironmentSource pave config resources with
        | .error e =>
          .error (wrapf "cannot process environment config %q by selector" e)
        | .ok out =>
          getSelectedEnvConfigsFrom pave inp extraResources (i + 1) rest (envConfigs ++ out)
      else getSelectedEnvConfigsFrom pave inp extraResources (i + 1) rest envConfigs

/-- Go `getSelectedEnvConfigs(in, extraResources)`. -/
def getSelectedEnvConfigs (pave : Pave) (inp : Input)
    (extraResources : List (String × List Extra)) : Except Error (List Doc) :=
  getSelectedEnvConfigsFrom pave inp extraResources 0
    (inp.Spec.EnvironmentConfigs.getD []) []


/-! ## Requirement builder (`fn.go`, `buildRequirements`) -/

/-- Go `fnv1.ResourceSelector.Match`: by name or by labels. -/
inductive Match where
  | MatchName (name : String)
  | MatchLabels (labels : List (String × String))
  deriving DecidableEq, Repr

/-- Go `fnv1.ResourceSelector`. -/
structure ResourceSelector where
  ApiVersion : String
  Kind : String
  Match : Match
  deriving DecidableEq, Repr

/-- Go `fnv1.Requirements`. -/
structure Requirements where
  ExtraResources : List (String × ResourceSelector)
  deriving DecidableEq, Repr

/-- Inner loop of `buildRequirements`: resolve the label matchers of one
selector into `matchLabels`. -/
def resolveMatchLabels (pave : Pave) (xr : Doc) :
    List EnvironmentSourceSelectorLabelMatcher → List (String × String) →
    Except Error (List (String × String))
  | [], matchLabels => .ok matchLabels
  | selector :: rest, matchLabels =>
    if selector.GetType = EnvironmentSourceSelectorLabelMatcherTypeValue then
      match selector.Value with
      | none => .error .nilDereference
      | some v => resolveMatchLabels pave xr rest (mapStore matchLabels selector.Key v)
    else if selector.GetType =
        EnvironmentSourceSelectorLabelMatcherTypeFromCompositeFieldPath then
      match selector.ValueFromFieldPath with
      | none => .error .nilDereference
      | some path =>
        match GetString pave xr path with
        | .error err =>
          if !selector.FromFieldPathIsOptional then
            .error (.wrap "cannot get value from field path %q" (.fieldPath err))
          else resolveMatchLabels pave xr rest matchLabels
        | .ok value => resolveMatchLabels pave xr rest (mapStore matchLabels selector.Key value)
    else resolveMatchLabels pave xr rest matchLabels

/-- Outer loop of `buildRequirements` from index `i` on, with the requirements
emitted so far. -/
def buildRequirementsFrom (pave : Pave) (xr : Doc) :
    Nat → List EnvironmentSource → List (String × ResourceSelector) →
    Except Error (List (String × ResourceSelector))
  | _, [], extraResources => .ok extraResources
  | i, config :: rest, extraResources =>
    if config.SourceType = EnvironmentSourceTypeReference ∨ config.SourceType = "" then
      match config.Ref with
      | none => .error .nilDereference
      | some ref =>
        buildRequirementsFrom pave xr (i + 1) rest
          (mapStore extraResources (extraResName i)
            ⟨"apiextensions.crossplane.io/v1beta1", "EnvironmentConfig", .MatchName ref.Name⟩)
    else if config.SourceType = EnvironmentSourceTypeSelector then
      match config.Selector with
      | none => .error .nilDereference
      | some sel =>
        match resolveMatchLabels pave xr sel.MatchLabels [] with
        | .error e => .error e
        | .ok matchLabels =>
          if matchLabels.length = 0 then
            buildRequirementsFrom pave xr (i + 1) rest extraResources
          else
            buildRequirementsFrom pave xr (i + 1) rest
              (mapStore extraResources (extraResName i)
                ⟨"apiextensions.crossplane.io/v1beta1", "EnvironmentConfig",
                  .MatchLabels matchLabels⟩)
    else buildRequirementsFrom pave xr (i + 1) rest extraResources

/-- Go `buildRequirements(in, xr)`; `xr` is the object of the observed
composite resource. -/
def buildRequirements (pave : Pave) (inp : Input) (xr : Doc) : Except Error Requirements :=
  (buildRequirementsFrom pave xr 0 (inp.Spec.EnvironmentConfigs.getD []) []).map
    (fun extraResources => ⟨extraResources⟩)

/-! ## Merge of the selected configs and output assembly (`fn.go`) -/

/-- Loop of `mergeEnvConfigsData` with the accumulator `merged`. -/
def mergeEnvConfigsDataFrom (pave : Pave) : List Doc → Doc → Except Error Doc
  | [], merged => .ok merged
  | c :: rest, merged =>
    match GetValueInto pave c "data" with
    | .error e => .error (wrapf "cannot get data from environment config %q" e)
    | .ok data => mergeEnvConfigsDataFrom pave rest (mergeMaps merged data)

/-- Go `mergeEnvConfigsData(configs)`. -/
def mergeEnvConfigsData (pave : Pave) (configs : List Doc) : Except Error Doc :=
  mergeEnvConfigsDataFrom pave configs []

/-- Go `unmarshalData(data)`: the JSON round trip of the raw values, each of
which is held as the tree it encodes. -/
def unmarshalData (data : Doc) : Except Error Doc := .ok data

/-- Go `(*Unstructured).GetAPIVersion`: the string at `apiVersion`, else `""`. -/
def GetAPIVersion (obj : Doc) : String :=
  match mapLookup obj "apiVersion" with
  | some (.str s) => s
  | _ => ""

/-- Go `(*Unstructured).GetKind`: the string at `kind`, else `""`. -/
def GetKind (obj : Doc) : String :=
  match mapLookup obj "kind" with
  | some (.str s) => s
  | _ => ""

/-- Go `schema.ParseGroupVersion`: group and version, `none` on error. -/
def ParseGroupVersion (gv : String) : Option (String × String) :=
  if gv = "" ∨ gv = "/" then some ("", "")
  else
    match gv.toList.count '/' with
    | 0 => some ("", gv)
    | 1 =>
      some (String.mk (gv.toList.takeWhile (fun c => c != '/')),
        String.mk ((gv.toList.dropWhile (fun c => c != '/')).drop 1))
    | _ => none

/-- Go `out.GroupVersionKind().Empty()`: a group version that does not parse
yields the empty group version kind. -/
def GroupVersionKindEmpty (obj : Doc) : Bool :=
  match ParseGroupVersion (GetAPIVersion obj) with
  | none => true
  | some (g, v) => decide (g = "" ∧ v = "" ∧ GetKind obj = "")

/-- Go `out.SetGroupVersionKind` with group `internal.crossplane.io`, version
`v1alpha1` and kind `Environment`. -/
def SetGroupVersionKind (obj : Doc) : Doc :=
  mapStore (mapStore obj "apiVersion" (.str "internal.crossplane.io/v1alpha1"))
    "kind" (.str "Environment")

/-- Go `FunctionContextKeyEnvironment`. -/
def FunctionContextKeyEnvironment : String := "apiextensions.crossplane.io/environment"

/-- Go `fnv1.RunFunctionRequest`, as the function SDK's accessors present it.
`Input` is the result of `request.GetInput`, `ObservedComposite` the object
returned by `request.GetObservedCompositeResource`, `ExtraResources` is `none`
when `req.ExtraResources == nil` and else the result of
`request.GetExtraResources`, `Context` holds the fields of the context, and
`ContextEnvironment` is the result of `resource.AsObject` on the context's
environment entry (consulted only when the entry exists). -/
structure RunFunctionRequest where
  Input : Except Error Input
  ObservedComposite : Except Error Doc
  ExtraResources : Option (Except Error (List (String × List Extra)))
  Context : Doc
  ContextEnvironment : Except Error Doc

/-- Go `fnv1.Result`: every result that `fn.go` adds is fatal. -/
structure Result where
  Fatal : Bool
  Message : Error

/-- Go `fnv1.RunFunctionResponse`: results, requirements and context. -/
structure RunFunctionResponse where
  Results : List Result
  Requirements : Option Requirements
  Context : Doc

/-- Go `response.To(req, ttl)`: the response starts from the request's
context. -/
def responseTo (req : RunFunctionRequest) : RunFunctionResponse :=
  ⟨[], none, req.Context⟩

/-- Go `response.Fatal(rsp, errors.Wrapf(err, msg)); return rsp, nil`. A panic
is not caught: it ends the call without a response. -/
def returnFatal (rsp : RunFunctionResponse) (msg : String) (err : Error) :
    Except Error RunFunctionResponse :=
  match err with
  | .nilDereference => .error .nilDereference
  | e => .ok { rsp with Results := rsp.Results ++ [⟨true, .wrap msg e⟩] }

/-- Go `response.SetContextKey(rsp, key, v)`. -/
def SetContextKey (rsp : RunFunctionResponse) (key : String) (v : Value) :
    RunFunctionResponse :=
  { rsp with Context := mapStore rsp.Context key v }

/-- Go `RunFunction`, lines 77 to 85: the input environment is loaded from the
request context when the key is present; `none` is the nil `inputEnv`. -/
def loadInputEnv (req : RunFunctionRequest) : Except Error (Option Doc) :=
  match mapLookup req.Context FunctionContextKeyEnvironment with
  | none => .ok none
  | some _ => req.ContextEnvironment.map some

/-- Go `RunFunction`, lines 105 to 108:
`if inputEnv != nil { mergedData = mergeMaps(inputEnv.Object, mergedData) }`. -/
def mergeInputEnv (inputEnv : Option Doc) (mergedData : Doc) : Doc :=
  match inputEnv with
  | some env => mergeMaps env mergedData
  | none => mergedData

/-- Go `RunFunction`, lines 110 to 118: when default data is declared,
`mergedData = mergeMaps(defaultData, mergedData)`. -/
def mergeDefaultData (inp : Input) (mergedData : Doc) : Except Error Doc :=
  match inp.Spec.DefaultData with
  | some d =>
    match unmarshalData d with
    | .error e => .error e
    | .ok defaultData => .ok (mergeMaps defaultData mergedData)
  | none => .ok mergedData

/-- Go `RunFunction`, lines 121 to 124: the default type identity is set when
the group version kind of the merged data is empty. -/
def stampEnvironment (mergedData : Doc) : Doc :=
  if GroupVersionKindEmpty mergedData then SetGroupVersionKind mergedData else mergedData

/-- Go `(*Function).RunFunction`. The result is `.error` only for a panic.
`resource.AsStruct` encodes the environment as a protobuf struct, which is held
as the document itself. -/
def RunFunction (pave : Pave) (req : RunFunctionRequest) : Except Error RunFunctionResponse :=
  let rsp := responseTo req
  match req.Input with
  | .error err => returnFatal rsp "cannot get Function input from %T" err
  | .ok inp =>
    match inp.Spec.EnvironmentConfigs with
    | none => .ok rsp
    | some _ =>
      match req.ObservedComposite with
      | .error err => returnFatal rsp "cannot get observed composite resource" err
      | .ok oxr =>
        match buildRequirements pave inp oxr with
        | .error err => returnFatal rsp "cannot build requirements" err
        | .ok requirements =>
          let rsp := { rsp with Requirements := some requirements }
          match req.ExtraResources with
          | none => .ok rsp
          | some extra =>
            match loadInputEnv req with
            | .error err =>
              returnFatal rsp "cannot get Composition environment from %T context key %q" err
            | .ok inputEnv =>
              match extra with
              | .error err => returnFatal rsp "cannot get Function input from %T" err
              | .ok extraResources =>
                match getSelectedEnvConfigs pave inp extraResources with
                | .error err => returnFatal rsp "cannot get selected environment configs" err
                | .ok envConfigs =>
                  match mergeEnvConfigsData pave envConfigs with
                  | .error err => returnFatal rsp "cannot merge environment data" err
                  | .ok mergedData =>
                    match mergeDefaultData inp (mergeInputEnv inputEnv mergedData) with
                    | .error err => returnFatal rsp "cannot unmarshal default data" err
                    | .ok mergedData =>
                      .ok (SetContextKey rsp FunctionContextKeyEnvironment
                        (.object (stampEnvironment mergedData)))

/-! ## Example requests -/

/-- An input environment that sets `a` and `e`; its `apiVersion` is not a
group version. -/
def exampleBaseEnv : Doc :=
  [("apiVersion", .str "a/b/c"), ("kind", .str "Environment"),
   ("a", .str "input"), ("e", .str "input-e")]

/-- Default data that sets `b` and `e`, and an `apiVersion`. -/
def exampleDefaultData : Doc :=
  [("apiVersion", .str "v1"), ("b", .str "default"), ("e", .str "def-e")]

/-- An environment config whose data sets `c` only. -/
def exampleEnvConfig : Doc :=
  [("apiVersion", .str "apiextensions.crossplane.io/v1alpha1"),
   ("kind", .str "EnvironmentConfig"),
   ("metadata", .object [("name", .str "my-env-config")]),
   ("data", .object [("c", .str "s0")])]

/-- A request with one reference source, its candidate, default data and an
input environment in the context. -/
def exampleRequest : RunFunctionRequest where
  Input := .ok ⟨⟨some exampleDefaultData,
    some [⟨"Reference", some ⟨"my-env-config"⟩, none⟩], none, none⟩⟩
  ObservedComposite := .ok [("apiVersion", .str "test.crossplane.io/v1alpha1"),
    ("kind", .str "XR"), ("metadata", .object [("name", .str "my-xr")])]
  ExtraResources := some (.ok [("environment-config-0", [exampleEnvConfig])])
  Context := [(FunctionContextKeyEnvironment, .object exampleBaseEnv)]
  ContextEnvironment := .ok exampleBaseEnv

/-- An environment config whose data has a key `kind` that is not a string. -/
def untypedKindEnvConfig : Doc :=
  [("apiVersion", .str "apiextensions.crossplane.io/v1alpha1"),
   ("kind", .str "EnvironmentConfig"),
   ("metadata", .object [("name", .str "my-env-config")]),
   ("data", .object [("kind", .bool true), ("c", .str "s0")])]

/-- A request with one reference source and its candidate, without default
data and without an input environment. -/
def untypedKindRequest : RunFunctionRequest where
  Input := .ok ⟨⟨none, some [⟨"Reference", some ⟨"my-env-config"⟩, none⟩], none, none⟩⟩
  ObservedComposite := .ok [("apiVersion", .str "test.crossplane.io/v1alpha1"),
    ("kind", .str "XR"), ("metadata", .object [("name", .str "my-xr")])]
  ExtraResources := some (.ok [("environment-config-0", [untypedKindEnvConfig])])
  Context := []
  ContextEnvironment := .error (.sdk "no environment in the context")

/-! ## Sort keys -/

/-- The value that `sortExtrasByFieldPath` records for a candidate: the value
at the path, nil when the lookup fails. -/
def valueAt (pave : Pave) (path : String) (c : Extra) : Value :=
  match pave c path with
  | .ok v => v
  | .error _ => .null

/-- The string at the path of a candidate, the empty string when there is no
string there. -/
def stringAt (pave : Pave) (path : String) (c : Extra) : String :=
  match pave c path with
  | .ok (.str s) => s
  | _ => ""

/-- The signed integer at the path of a candidate, zero when there is no
signed integer there. -/
def intAt (pave : Pave) (path : String) (c : Extra) : Int :=
  match pave c path with
  | .ok (.int _ n) => n
  | _ => 0

/-- Two candidates: one with the string `a` at `metadata.name`, one whose
`metadata` is a string, so that `metadata.name` cannot be resolved in it. -/
def exampleCandidatesWithScalarParent : List Extra :=
  [[("metadata", .object [("name", .str "a")])], [("metadata", .str "oops")]]

/-- Three candidates, the second without `metadata.name`. -/
def exampleNamedCandidates : List Extra :=
  [[("metadata", .object [("name", .str "c")])],
   [("metadata", .object [("invalid", .str "a")])],
   [("metadata", .object [("name", .str "b")])]]

/-- Three candidates with an `int` at `data.someInt`. -/
def exampleNumberedCandidates : List Extra :=
  [[("data", .object [("someInt", .int .int 3)])],
   [("data", .object [("someInt", .int .int (-1))])],
   [("data", .object [("someInt", .int .int 2)])]]

/-! ## Example configs with numbers in their data -/

/-- A config whose data holds the `float64` 2 under `f`. -/
def exampleFloatDataConfig : Doc :=
  [("metadata", .object [("name", .str "my-env-config")]),
   ("data", .object [("f", .float64 4611686018427387904)])]

/-- A config whose data holds a `float64` NaN under `f`. -/
def exampleNaNDataConfig : Doc :=
  [("metadata", .object [("name", .str "my-env-config")]),
   ("data", .object [("f", .float64 9221120237041090560)])]

/-! ## Example candidates of differing types -/

/-- Three candidates: `metadata` is a string in the first, `metadata.name` is a
string in the second and an `int` in the third. -/
def exampleMixedCandidatesAfterScalarParent : List Extra :=
  [[("metadata", .str "oops")],
   [("metadata", .object [("name", .str "a")])],
   [("metadata", .object [("name", .int .int 1)])]]

/-- Three candidates with `data.someInt` an `int`, an `int` and a string. -/
def exampleMixedCandidates : List Extra :=
  [[("data", .object [("someInt", .int .int 3)])],
   [("data", .object [("someInt", .int .int 1)])],
   [("data", .object [("someInt", .str "2")])]]

/-! ## Multiple mode -/

/-- Go `processEnvironmentSource`, lines 180 to 185 of `fn.go`: the sort by the
selector's path, then the truncation to `maxMatch`. -/
def sortAndTruncate (pave : Pave) (selector : Option EnvironmentSourceSelector)
    (maxMatch : Option Nat) (resources : List Extra) : Except Error (List Doc) :=
  match sortExtrasByFieldPath pave resources (GetSortByFieldPath selector) with
  | .error e => .error e
  | .ok sorted =>
    match maxMatch with
    | some m => if sorted.length > m then .ok (sorted.take m) else .ok sorted
    | none => .ok sorted

/-- A selector source in Multiple mode with `minMatch` 3 and `maxMatch` 1. -/
def exampleMinAboveMaxSource : EnvironmentSource :=
  ⟨"Selector", none, some ⟨"Multiple", some 1, some 3, "", []⟩⟩

/-- A selector source in Multiple mode with `minMatch` 2 and `maxMatch` 2. -/
def exampleMultipleSource : EnvironmentSource :=
  ⟨"Selector", none, some ⟨"Multiple", some 2, some 2, "", []⟩⟩

/-! ## Requirements, source by source -/

/-- The label that one matcher contributes to the label set of its selector,
`none` when it contributes nothing: a `Value` matcher contributes its key with
its literal value, a `FromCompositeFieldPath` matcher whose path resolves to a
string in the base document contributes its key with that string. -/
def matcherLabel (pave : Pave) (xr : Doc) (m : EnvironmentSourceSelectorLabelMatcher) :
    Option (String × String) :=
  if m.GetType = EnvironmentSourceSelectorLabelMatcherTypeValue then
    m.Value.map (fun v => (m.Key, v))
  else if m.GetType = EnvironmentSourceSelectorLabelMatcherTypeFromCompositeFieldPath then
    match m.ValueFromFieldPath with
    | some path =>
      match GetString pave xr path with
      | .ok s => some (m.Key, s)
      | .error _ => none
    | none => none
  else none

/-- One iteration of the loop of `buildRequirements`: the requirement emitted
for a source, `none` when nothing is emitted for it. -/
def requirementOf (pave : Pave) (xr : Doc) (config : EnvironmentSource) :
    Except Error (Option ResourceSelector) :=
  if config.SourceType = EnvironmentSourceTypeReference ∨ config.SourceType = "" then
    match config.Ref with
    | none => .error .nilDereference
    | some ref =>
      .ok (some ⟨"apiextensions.crossplane.io/v1beta1", "EnvironmentConfig",
        .MatchName ref.Name⟩)
  else if config.SourceType = EnvironmentSourceTypeSelector then
    match config.Selector with
    | none => .error .nilDereference
    | some sel =>
      match resolveMatchLabels pave xr sel.MatchLabels [] with
      | .error e => .error e
      | .ok matchLabels =>
        if matchLabels.length = 0 then .ok none
        else .ok (some ⟨"apiextensions.crossplane.io/v1beta1", "EnvironmentConfig",
          .MatchLabels matchLabels⟩)
  else .ok none

/-- The observed composite resource of the test `RequestEnvironmentConfigs`. -/
def exampleComposite : Doc :=
  [("apiVersion", .str "test.crossplane.io/v1alpha1"), ("kind", .str "XR"),
   ("metadata", .object [("name", .str "my-xr")]),
   ("spec", .object [("existingEnvSelectorLabel", .str "someMoreBar")])]

/-- The five sources of the test `RequestEnvironmentConfigs`: two references,
a selector with a literal label, a selector whose only label is optional and
absent, a selector whose label is read from the composite resource. -/
def exampleSources : List EnvironmentSource :=
  [⟨"Reference", some ⟨"my-env-config"⟩, none⟩,
   ⟨"Reference", some ⟨"my-second-env-config"⟩, none⟩,
   ⟨"Selector", none, some ⟨"Multiple", none, none, "",
     [⟨"Value", "foo", none, none, some "bar"⟩]⟩⟩,
   ⟨"Selector", none, some ⟨"Single", none, none, "",
     [⟨"", "someMoreFoo", some "spec.missingEnvSelectorLabel", some "Optional", none⟩]⟩⟩,
   ⟨"Selector", none, some ⟨"Single", none, none, "",
     [⟨"", "someMoreFoo", some "spec.existingEnvSelectorLabel", some "Required", none⟩]⟩⟩]

/-- The input of the test `RequestEnvironmentConfigs`. -/
def exampleInput : Input := ⟨⟨none, some exampleSources, none, none⟩⟩

/-- An input with one selector source whose two `Value` matchers share the key
`foo`. -/
def exampleRepeatedKeyInput : Input :=
  ⟨⟨none, some [⟨"Selector", none, some ⟨"Multiple", none, none, "",
    [⟨"Value", "foo", none, none, some "bar"⟩,
     ⟨"Value", "foo", none, none, some "baz"⟩]⟩⟩], none, none⟩⟩

/-- The manifest that `buildRequirements` yields for `exampleInput` and
`exampleComposite`: the fourth source has no entry. -/
def exampleManifest : Requirements :=
  ⟨[("environment-config-0", ⟨"apiextensions.crossplane.io/v1beta1",
      "EnvironmentConfig", .MatchName "my-env-config"⟩),
    ("environment-config-1", ⟨"apiextensions.crossplane.io/v1beta1",
      "EnvironmentConfig", .MatchName "my-second-env-config"⟩),
    ("environment-config-2", ⟨"apiextensions.crossplane.io/v1beta1",
      "EnvironmentConfig", .MatchLabels [("foo", "bar")]⟩),
    ("environment-config-4", ⟨"apiextensions.crossplane.io/v1beta1",
      "EnvironmentConfig", .MatchLabels [("someMoreFoo", "someMoreBar")]⟩)]⟩

/-- The fourth source of `exampleSources`: its only matcher is optional and its
path is absent from `exampleComposite`. -/
def exampleOptionalSource : EnvironmentSource :=
  ⟨"Selector", none, some ⟨"Single", none, none, "",
    [⟨"", "someMoreFoo", some "spec.missingEnvSelectorLabel", some "Optional", none⟩]⟩⟩

/-- The fifth source of `exampleSources`: its matcher reads
`spec.existingEnvSelectorLabel`. -/
def exampleFieldPathSource : EnvironmentSource :=
  ⟨"Selector", none, some ⟨"Single", none, none, "",
    [⟨"", "someMoreFoo", some "spec.existingEnvSelectorLabel", some "Required", none⟩]⟩⟩

/-- The input `exampleInput` with the optional matcher of its fourth source
removed. -/
def exampleInputWithoutOptionalMatcher : Input :=
  ⟨⟨none, some
    [⟨"Reference", some ⟨"my-env-config"⟩, none⟩,
     ⟨"Reference", some ⟨"my-second-env-config"⟩, none⟩,
     ⟨"Selector", none, some ⟨"Multiple", none, none, "",
       [⟨"Value", "foo", none, none, some "bar"⟩]⟩⟩,
     ⟨"Selector", none, some ⟨"Single", none, none, "", []⟩⟩,
     ⟨"Selector", none, some ⟨"Single", none, none, "",
       [⟨"", "someMoreFoo", some "spec.existingEnvSelectorLabel", some "Required", none⟩]⟩⟩],
    none, none⟩⟩

/-! ## Example candidates of a type outside the comparator's switch -/

/-- One candidate with a boolean at `data.enabled`. -/
def exampleFlagCandidate : List Extra :=
  [[("data", .object [("enabled", .bool true)])]]

/-- Two candidates with a boolean at `data.enabled`. -/
def exampleFlagCandidates : List Extra :=
  [[("data", .object [("enabled", .bool true)])],
   [("data", .object [("enabled", .bool false)])]]

/-! ## Example inputs for lookups that fail on the shape of the document -/

/-- An input with one selector source and two optional matchers: the path of
the first runs through the string at `metadata.name` of `exampleComposite`, the
path of the second leads to the object at `metadata`. -/
def exampleShapeErrorInput : Input :=
  ⟨⟨none, some [⟨"Selector", none, some ⟨"Single", none, none, "",
    [⟨"", "first", some "metadata.name.first", some "Optional", none⟩,
     ⟨"", "meta", some "metadata", some "Optional", none⟩]⟩⟩], none, none⟩⟩

/-- The source of `exampleShapeErrorInput`. -/
def exampleShapeErrorSource : EnvironmentSource :=
  ⟨"Selector", none, some ⟨"Single", none, none, "",
    [⟨"", "first", some "metadata.name.first", some "Optional", none⟩,
     ⟨"", "meta", some "metadata", some "Optional", none⟩]⟩⟩

/-- The input `exampleShapeErrorInput` with the first matcher removed. -/
def exampleShapeErrorInputWithoutFirst : Input :=
  ⟨⟨none, some [⟨"Selector", none, some ⟨"Single", none, none, "",
    [⟨"", "meta", some "metadata", some "Optional", none⟩]⟩⟩], none, none⟩⟩

/-! ## Example inputs with a source of another type -/

/-- A source whose type is neither `Reference` nor `Selector`. -/
def exampleUnknownSource : EnvironmentSource :=
  ⟨"Label", some ⟨"my-env-config"⟩, none⟩

/-- An input whose only source is `exampleUnknownSource`. -/
def exampleUnknownInput : Input := ⟨⟨none, some [exampleUnknownSource], none, none⟩⟩

/-- An environment config named `my-second-env-config` whose data sets `d`. -/
def exampleSecondEnvConfig : Doc :=
  [("apiVersion", .str "apiextensions.crossplane.io/v1alpha1"),
   ("kind", .str "EnvironmentConfig"),
   ("metadata", .object [("name", .str "my-second-env-config")]),
   ("data", .object [("d", .str "s1")])]

/-- An input with `exampleUnknownSource` between two reference sources. -/
def exampleUnknownBetweenInput : Input :=
  ⟨⟨none, some [⟨"Reference", some ⟨"my-env-config"⟩, none⟩, exampleUnknownSource,
    ⟨"Reference", some ⟨"my-second-env-config"⟩, none⟩], none, none⟩⟩

/-- Candidates for three sources, one candidate under each index. -/
def exampleThreeCandidates : List (String × List Extra) :=
  [("environment-config-0", [exampleEnvConfig]),
   ("environment-config-1", [exampleEnvConfig]),
   ("environment-config-2", [exampleSecondEnvConfig])]

/-! ## Selection, source by source -/

/-- One iteration of the loop of `getSelectedEnvConfigs`: the configs that a
source adds to `envConfigs`, given the candidates found under its name. -/
def selectedOf (pave : Pave) (inp : Input) (config : EnvironmentSource)
    (resources : List Extra) : Except Error (List Doc) :=
  if config.GetType = EnvironmentSourceTypeReference then
    match processSourceByReference inp config resources with
    | .error e => .error (wrapf "cannot process environment config %q by reference, %q" e)
    | .ok none => .ok []
    | .ok (some out) => .ok [out]
  else if config.GetType = EnvironmentSourceTypeSelector then
    match processEnvironmentSource pave config resources with
    | .error e => .error (wrapf "cannot process environment config %q by selector" e)
    | .ok out => .ok out
  else .ok []

/-! ## Example requests of the first and of a failing round -/

/-- The request of the test `RequestEnvironmentConfigs`: no candidates yet and
no environment in the context. -/
def exampleFirstRequest : RunFunctionRequest where
  Input := .ok exampleInput
  ObservedComposite := .ok exampleComposite
  ExtraResources := none
  Context := []
  ContextEnvironment := .error (.sdk "no environment in the context")

/-- The request of the test `RequestEnvironmentConfigsNotFoundRequired`: one
reference source, and no candidate under its index. -/
def exampleNotFoundRequest : RunFunctionRequest where
  Input := .ok ⟨⟨none, some [⟨"Reference", some ⟨"my-env-config"⟩, none⟩], none, none⟩⟩
  ObservedComposite := .ok [("apiVersion", .str "test.crossplane.io/v1alpha1"),
    ("kind", .str "XR"), ("metadata", .object [("name", .str "my-xr")])]
  ExtraResources := some (.ok [("environment-config-0", [])])
  Context := []
  ContextEnvironment := .error (.sdk "no environment in the context")

/-! ## Example requests for the type identity of the environment -/

/-- A request with one reference source and its candidate `exampleEnvConfig`,
without default data and without an input environment. -/
def exampleFoundRequest : RunFunctionRequest where
  Input := .ok ⟨⟨none, some [⟨"Reference", some ⟨"my-env-config"⟩, none⟩], none, none⟩⟩
  ObservedComposite := .ok [("apiVersion", .str "test.crossplane.io/v1alpha1"),
    ("kind", .str "XR"), ("metadata", .object [("name", .str "my-xr")])]
  ExtraResources := some (.ok [("environment-config-0", [exampleEnvConfig])])
  Context := []
  ContextEnvironment := .error (.sdk "no environment in the context")

/-- Data with an object under the key `kind`. -/
def exampleNestedKindData : Doc :=
  [("kind", .object [("name", .str "prod")]), ("c", .str "s0")]

/-- An environment config whose data is `exampleNestedKindData`. -/
def exampleNestedKindEnvConfig : Doc :=
  [("apiVersion", .str "apiextensions.crossplane.io/v1alpha1"),
   ("kind", .str "EnvironmentConfig"),
   ("metadata", .object [("name", .str "my-env-config")]),
   ("data", .object exampleNestedKindData)]

/-- A request with one reference source and its candidate
`exampleNestedKindEnvConfig`, without default data and without an input
environment. -/
def exampleNestedKindRequest : RunFunctionRequest where
  Input := .ok ⟨⟨none, some [⟨"Reference", some ⟨"my-env-config"⟩, none⟩], none, none⟩⟩
  ObservedComposite := .ok [("apiVersion", .str "test.crossplane.io/v1alpha1"),
    ("kind", .str "XR"), ("metadata", .object [("name", .str "my-xr")])]
  ExtraResources := some (.ok [("environment-config-0", [exampleNestedKindEnvConfig])])
  Context := []
  ContextEnvironment := .error (.sdk "no environment in the context")

/-! ## Example candidates for a selector in Single mode -/

/-- A selector source in Single mode with the default sort path. -/
def exampleSingleSource : EnvironmentSource :=
  ⟨"Selector", none, some ⟨"Single", none, none, "",
    [⟨"Value", "foo", none, none, some "bar"⟩]⟩⟩

/-- Two candidates named `b` and `a`, in this order. -/
def exampleTwoCandidates : List Extra :=
  [[("metadata", .object [("name", .str "b")])],
   [("metadata", .object [("name", .str "a")])]]

/-! ## Example candidates keyed as the manifest -/

/-- Candidates for `exampleInput` under the names of `exampleManifest`: none
under `environment-config-3`, for which the manifest has no requirement. -/
def exampleManifestCandidates : List (String × List Extra) :=
  [("environment-config-0", [exampleEnvConfig]),
   ("environment-config-1", [exampleSecondEnvConfig]),
   ("environment-config-2", [exampleEnvConfig]),
   ("environment-config-4", [exampleSecondEnvConfig])]

/-! ## Documents whose nested objects are Go maps -/

mutual
/-- Every object among the values of the entries has unique keys, and so has
every object nested in such an object. -/
def deepUniqueEntries : List (String × Value) → Bool
  | [] => true
  | kv :: rest => deepUniqueEntry kv && deepUniqueEntries rest
termination_by structural m => m
/-- The value of the entry is no object, or an object with unique keys at every
level. -/
def deepUniqueEntry : String × Value → Bool
  | (_, v) => deepUniqueValue v
termination_by structural kv => kv
/-- The value is no object, or an object with unique keys at every level. -/
def deepUniqueValue : Value → Bool
  | .object m => decide (UniqueKeys m) && deepUniqueEntries m
  | _ => true
termination_by structural v => v
end

/-- A list of entries stands for a Go map whose nested maps are Go maps: no key
occurs twice, at any level of object nesting. -/
def DeepUniqueKeys (m : Doc) : Prop := deepUniqueValue (.object m) = true

instance (m : Doc) : Decidable (DeepUniqueKeys m) := by
  unfold DeepUniqueKeys; infer_instance

/-! ## Example documents for the algebra of `mergeMaps` -/

/-- A base with an object under `k` and a string under `s`. -/
def exampleNestedBase : Doc :=
  [("k", .object [("x", .int .int64 1)]), ("s", .str "a")]

/-- An overlay with objects under `k` and `t`, the second with a nested
object. -/
def exampleNestedOverlay : Doc :=
  [("k", .object [("y", .int .int64 3)]),
   ("t", .object [("u", .object [("v", .str "w")])])]

/-- The document `k: (x: 1)`. -/
def exampleObjectAtK : Doc := [("k", .object [("x", .int .int64 1)])]

/-- The document `k: 2`. -/
def exampleScalarAtK : Doc := [("k", .int .int64 2)]

/-- The document `k: (y: 3)`. -/
def exampleOtherObjectAtK : Doc := [("k", .object [("y", .int .int64 3)])]

/-- An environment config whose data is `exampleOtherObjectAtK`. -/
def exampleObjectAtKEnvConfig : Doc :=
  [("apiVersion", .str "apiextensions.crossplane.io/v1alpha1"),
   ("kind", .str "EnvironmentConfig"),
   ("metadata", .object [("name", .str "my-env-config")]),
   ("data", .object exampleOtherObjectAtK)]

/-- A request with the three layers: default data `exampleObjectAtK`, input
environment `exampleScalarAtK`, and one reference source whose candidate has
the data `exampleOtherObjectAtK`. -/
def exampleLayersRequest : RunFunctionRequest where
  Input := .ok ⟨⟨some exampleObjectAtK,
    some [⟨"Reference", some ⟨"my-env-config"⟩, none⟩], none, none⟩⟩
  ObservedComposite := .ok [("apiVersion", .str "test.crossplane.io/v1alpha1"),
    ("kind", .str "XR"), ("metadata", .object [("name", .str "my-xr")])]
  ExtraResources := some (.ok [("environment-config-0", [exampleObjectAtKEnvConfig])])
  Context := [(FunctionContextKeyEnvironment, .object exampleScalarAtK)]
  ContextEnvironment := .ok exampleScalarAtK

/-- An environment config without a `data` field. -/
def exampleDatalessEnvConfig : Doc :=
  [("apiVersion", .str "apiextensions.crossplane.io/v1alpha1"),
   ("kind", .str "EnvironmentConfig"),
   ("metadata", .object [("name", .str "my-empty-env-config")])]

/-! # Properties -/

/-! ## Lemmas on string-keyed maps -/

theorem mapLookup_mapStore {α : Type} (m : List (String × α)) (k k2 : String) (v : α) :
    mapLookup (mapStore m k v) k2 = if k = k2 then some v else mapLookup m k2 := by
  induction m with
  | nil => simp [mapStore, mapLookup]
  | cons e rest ih =>
    obtain ⟨k0, w⟩ := e
    by_cases h0 : k0 = k
    · subst h0
      by_cases h2 : k0 = k2 <;> simp [mapStore, mapLookup, h2]
    · by_cases h2 : k = k2
      · subst h2
        simp [mapStore, mapLookup, h0, ih]
      · by_cases h3 : k0 = k2
        · subst h3
          simp [mapStore, mapLookup, h0, h2]
        · simp [mapStore, mapLookup, h0, h2, h3, ih]

theorem mapLookup_eq_none_iff {α : Type} (m : List (String × α)) (k : String) :
    mapLookup m k = none ↔ k ∉ keys m := by
  induction m with
  | nil => simp [mapLookup, keys]
  | cons e rest ih =>
    obtain ⟨k0, w⟩ := e
    by_cases h : k0 = k
    · simp [mapLookup, keys, h]
    · have h2 : ¬ k = k0 := fun e => h e.symm
      simpa [mapLookup, keys, h, h2] using ih

theorem mem_keys_iff_lookup {α : Type} (m : List (String × α)) (k : String) :
    k ∈ keys m ↔ ∃ v, mapLookup m k = some v := by
  have h := mapLookup_eq_none_iff m k
  constructor
  · intro hk
    cases hl : mapLookup m k with
    | none => exact absurd hk (h.mp hl)
    | some v => exact ⟨v, rfl⟩
  · rintro ⟨v, hv⟩
    by_contra hk
    rw [h.mpr hk] at hv
    cases hv

theorem mapStore_of_not_mem {α : Type} (m : List (String × α)) (k : String) (v : α)
    (h : k ∉ keys m) : mapStore m k v = m ++ [(k, v)] := by
  induction m with
  | nil => rfl
  | cons e rest ih =>
    obtain ⟨k0, w⟩ := e
    have h0 : ¬ k0 = k := fun e => h (by simp [keys, e])
    have hr : k ∉ keys rest := fun hm => h (by simp [keys] at hm ⊢; exact Or.inr hm)
    simp [mapStore, h0, ih hr]

theorem foldl_mapStore_eq (a acc : Doc) (ha : UniqueKeys a)
    (hd : ∀ k, k ∈ keys a → k ∉ keys acc) :
    a.foldl (fun out kv => mapStore out kv.1 kv.2) acc = acc ++ a := by
  induction a generalizing acc with
  | nil => simp
  | cons e rest ih =>
    obtain ⟨k0, w⟩ := e
    have hnd : k0 ∉ keys rest ∧ UniqueKeys rest := by
      simpa [UniqueKeys, keys] using ha
    have h0 : k0 ∉ keys acc := hd k0 (by simp [keys])
    simp only [List.foldl_cons]
    rw [mapStore_of_not_mem acc k0 w h0, ih (acc ++ [(k0, w)]) hnd.2]
    · simp
    · intro k hk hmem
      have : k ∈ keys acc ∨ k = k0 := by simpa [keys] using hmem
      rcases this with h | h
      · exact hd k (by simp [keys] at hk ⊢; exact Or.inr hk) h
      · subst h; exact hnd.1 hk

/-- Copying a map with unique keys yields the same entries. -/
theorem copyMap_eq (a : Doc) (ha : UniqueKeys a) : copyMap a = a := by
  have h := foldl_mapStore_eq a [] ha (by intro k _; simp [keys])
  simpa [copyMap] using h

/-! ## Lemmas on `mergeMaps` -/

theorem mergeValue_object (bvm vm : Doc) :
    mergeValue (some (.object bvm)) (.object vm) = .object (mergeMaps bvm vm) := by
  simp [mergeValue, mergeMaps]

theorem mergeValue_of_not_both (bv : Option Value) (v : Value)
    (h : v.isObject = false ∨ bv = none ∨ ∃ w, bv = some w ∧ w.isObject = false) :
    mergeValue bv v = v := by
  cases v <;> try (simp [mergeValue]; done)
  rename_i vm
  rcases h with h | h | ⟨w, hw, hwo⟩
  · simp [Value.isObject] at h
  · subst h; simp [mergeValue]
  · subst hw
    cases w <;> first | (simp [mergeValue]; done) | simp [Value.isObject] at hwo

theorem mapLookup_mergeInto_of_absent (out b : Doc) (k : String)
    (hk : mapLookup b k = none) :
    mapLookup (mergeInto out b) k = mapLookup out k := by
  induction b generalizing out with
  | nil => simp [mergeInto]
  | cons e rest ih =>
    obtain ⟨k0, w⟩ := e
    have h0 : ¬ k0 = k := by
      intro e; simp [mapLookup, e] at hk
    have hr : mapLookup rest k = none := by simpa [mapLookup, h0] using hk
    rw [mergeInto, ih _ hr, mergeEntry, mapLookup_mapStore]
    simp [h0]

theorem mapLookup_mergeInto_of_present (out b : Doc) (k : String) (v : Value)
    (hb : UniqueKeys b) (hk : mapLookup b k = some v) :
    mapLookup (mergeInto out b) k = some (mergeValue (mapLookup out k) v) := by
  induction b generalizing out with
  | nil => simp [mapLookup] at hk
  | cons e rest ih =>
    obtain ⟨k0, w⟩ := e
    have hnd : k0 ∉ keys rest ∧ UniqueKeys rest := by
      simpa [UniqueKeys, keys] using hb
    by_cases h0 : k0 = k
    · subst h0
      have hv : w = v := by simpa [mapLookup] using hk
      subst hv
      have hr : mapLookup rest k0 = none := (mapLookup_eq_none_iff rest k0).mpr hnd.1
      rw [mergeInto, mapLookup_mergeInto_of_absent _ _ _ hr, mergeEntry, mapLookup_mapStore]
      simp
    · have hr : mapLookup rest k = some v := by simpa [mapLookup, h0] using hk
      rw [mergeInto, ih _ hnd.2 hr, mergeEntry, mapLookup_mapStore]
      simp [h0]

theorem keys_mapStore {α : Type} (m : List (String × α)) (k : String) (v : α) :
    keys (mapStore m k v) = if k ∈ keys m then keys m else keys m ++ [k] := by
  induction m with
  | nil => simp [mapStore, keys]
  | cons e rest ih =>
    obtain ⟨k0, w⟩ := e
    by_cases h0 : k0 = k
    · subst h0; simp [mapStore, keys]
    · have h1 : ¬ k = k0 := fun e => h0 e.symm
      have ih2 : List.map Prod.fst (mapStore rest k v)
          = if k ∈ List.map Prod.fst rest then List.map Prod.fst rest
            else List.map Prod.fst rest ++ [k] := ih
      by_cases hm : k ∈ List.map Prod.fst rest
      · simp only [mapStore, h0, keys, if_false, List.map_cons, ih2, hm, if_true,
          List.mem_cons, or_true]
      · simp only [mapStore, h0, keys, if_false, List.map_cons, ih2, hm, List.mem_cons, h1,
          or_self, List.cons_append]

theorem uniqueKeys_mapStore {α : Type} (m : List (String × α)) (k : String) (v : α)
    (h : UniqueKeys m) : UniqueKeys (mapStore m k v) := by
  unfold UniqueKeys at *
  rw [keys_mapStore]
  by_cases hm : k ∈ keys m
  · simpa [hm] using h
  · simp only [hm, if_false]
    exact List.Nodup.append h (by simp) (by simpa using hm)

theorem uniqueKeys_mergeInto (out b : Doc) (h : UniqueKeys out) :
    UniqueKeys (mergeInto out b) := by
  induction b generalizing out with
  | nil => simpa [mergeInto] using h
  | cons e rest ih =>
    obtain ⟨k0, w⟩ := e
    rw [mergeInto]
    exact ih _ (by rw [mergeEntry]; exact uniqueKeys_mapStore _ _ _ h)

theorem uniqueKeys_copyMap (a : Doc) : UniqueKeys (copyMap a) := by
  have h : ∀ (acc : Doc), UniqueKeys acc →
      UniqueKeys (a.foldl (fun out kv => mapStore out kv.1 kv.2) acc) := by
    induction a with
    | nil => intro acc hacc; simpa using hacc
    | cons e rest ih =>
      intro acc hacc
      simp only [List.foldl_cons]
      exact ih _ (uniqueKeys_mapStore _ _ _ hacc)
  exact h [] (by simp [UniqueKeys, keys])

/-- The result of `mergeMaps` never repeats a key. -/
theorem uniqueKeys_mergeMaps (a b : Doc) : UniqueKeys (mergeMaps a b) :=
  uniqueKeys_mergeInto _ _ (uniqueKeys_copyMap a)

theorem mapLookup_mergeMaps_of_absent (a b : Doc) (k : String) (ha : UniqueKeys a)
    (hk : mapLookup b k = none) : mapLookup (mergeMaps a b) k = mapLookup a k := by
  rw [mergeMaps, copyMap_eq a ha, mapLookup_mergeInto_of_absent _ _ _ hk]

theorem mapLookup_mergeMaps_of_present (a b : Doc) (k : String) (v : Value)
    (ha : UniqueKeys a) (hb : UniqueKeys b) (hk : mapLookup b k = some v) :
    mapLookup (mergeMaps a b) k = some (mergeValue (mapLookup a k) v) := by
  rw [mergeMaps, copyMap_eq a ha, mapLookup_mergeInto_of_present _ _ _ _ hb hk]

theorem mapLookup_mergeMaps_of_scalar (a b : Doc) (k : String) (v : Value)
    (ha : UniqueKeys a) (hb : UniqueKeys b) (hk : mapLookup b k = some v)
    (hv : v.isObject = false) : mapLookup (mergeMaps a b) k = some v := by
  rw [mapLookup_mergeMaps_of_present a b k v ha hb hk,
    mergeValue_of_not_both _ _ (Or.inl hv)]

/-! ## Claims on the merge engine -/

/-- C1: for documents `a` and `b` (maps, so without repeated keys) and a key
`k` of `b` with value `v`: when `a[k]` and `v` are both nested objects, the
merged value at `k` is `mergeMaps(a[k], v)`; in every other case (`k` missing
from `a`, or `a[k]` or `v` not a nested object) it is `v` itself. -/
theorem mergeMaps_overlay_key (a b : Doc) (k : String) (v : Value)
    (ha : UniqueKeys a) (hb : UniqueKeys b) (hk : mapLookup b k = some v) :
    (∀ am bm, mapLookup a k = some (.object am) → v = .object bm →
        mapLookup (mergeMaps a b) k = some (.object (mergeMaps am bm))) ∧
    ((mapLookup a k = none ∨ (∃ w, mapLookup a k = some w ∧ w.isObject = false) ∨
        v.isObject = false) →
        mapLookup (mergeMaps a b) k = some v) := by
  have hm := mapLookup_mergeMaps_of_present a b k v ha hb hk
  constructor
  · intro am bm ham hbm
    rw [hm, ham, hbm, mergeValue_object]
  · intro h
    rw [hm]
    congr 1
    apply mergeValue_of_not_both
    rcases h with h | h | h
    · exact Or.inr (Or.inl h)
    · exact Or.inr (Or.inr h)
    · exact Or.inl h

/-- Witness of C1: a key nested on both sides is merged, an array replaces an
array. -/
theorem mergeMaps_overlay_key_witness :
    mapLookup
      (mergeMaps [("k", .object [("x", .int .int 1)]), ("l", .array [.str "p", .str "q"])]
        [("l", .array [.str "r"]), ("k", .object [("y", .int .int 2)])]) "k"
      = some (.object (mergeMaps [("x", .int .int 1)] [("y", .int .int 2)])) ∧
    mapLookup
      (mergeMaps [("k", .object [("x", .int .int 1)]), ("l", .array [.str "p", .str "q"])]
        [("l", .array [.str "r"]), ("k", .object [("y", .int .int 2)])]) "l"
      = some (.array [.str "r"]) :=
  ⟨(mergeMaps_overlay_key
      [("k", .object [("x", .int .int 1)]), ("l", .array [.str "p", .str "q"])]
      [("l", .array [.str "r"]), ("k", .object [("y", .int .int 2)])]
      "k" (.object [("y", .int .int 2)]) (by decide) (by decide) rfl).1 _ _ rfl rfl,
   (mergeMaps_overlay_key
      [("k", .object [("x", .int .int 1)]), ("l", .array [.str "p", .str "q"])]
      [("l", .array [.str "r"]), ("k", .object [("y", .int .int 2)])]
      "l" (.array [.str "r"]) (by decide) (by decide) rfl).2 (Or.inr (Or.inr rfl))⟩

/-- C5: a key present in the base `a` and absent from the overlay `b` keeps its
value in `mergeMaps(a, b)`, and every key of `mergeMaps(a, b)` is a key of `a`
or of `b`. -/
theorem mergeMaps_base_key_retained (a b : Doc) (ha : UniqueKeys a) :
    (∀ k v, mapLookup a k = some v → mapLookup b k = none →
        mapLookup (mergeMaps a b) k = some v) ∧
    (∀ k, k ∈ keys (mergeMaps a b) → k ∈ keys a ∨ k ∈ keys b) := by
  constructor
  · intro k v hav hbk
    rw [mapLookup_mergeMaps_of_absent a b k ha hbk, hav]
  · intro k hk
    by_cases hb : k ∈ keys b
    · exact Or.inr hb
    · left
      have hbn := (mapLookup_eq_none_iff b k).mpr hb
      obtain ⟨v, hv⟩ := (mem_keys_iff_lookup _ k).mp hk
      rw [mapLookup_mergeMaps_of_absent a b k ha hbn] at hv
      exact (mem_keys_iff_lookup a k).mpr ⟨v, hv⟩

/-- Witness of C5: the base-only key `s` survives the merge. -/
theorem mergeMaps_base_key_retained_witness :
    mapLookup (mergeMaps [("s", .str "kept"), ("t", .bool true)] [("t", .bool false)]) "s"
      = some (.str "kept") :=
  (mergeMaps_base_key_retained [("s", .str "kept"), ("t", .bool true)] [("t", .bool false)]
    (by decide)).1 "s" (.str "kept") rfl rfl

/-! ## Merge of the selected configs -/

theorem mergeEnvConfigsDataFrom_eq_foldl (pave : Pave) (configs datas : List Doc)
    (h : List.Forall₂ (fun c d => GetValueInto pave c "data" = .ok d) configs datas)
    (acc : Doc) :
    mergeEnvConfigsDataFrom pave configs acc = .ok (datas.foldl mergeMaps acc) := by
  induction h generalizing acc with
  | nil => rfl
  | cons hcd _ ih => simp [mergeEnvConfigsDataFrom, hcd, ih]

/-! ### The JSON round trip of `GetValueInto` -/

theorem jsonRoundTripEntries_cons (k : String) (v : Value) (rest : List (String × Value)) :
    jsonRoundTripEntries ((k, v) :: rest) =
      match jsonRoundTrip v, jsonRoundTripEntries rest with
      | some v2, some rest2 => some ((k, v2) :: rest2)
      | _, _ => none := by
  rw [jsonRoundTripEntries, jsonRoundTripEntry]
  cases jsonRoundTrip v <;> cases jsonRoundTripEntries rest <;> rfl

theorem jsonRoundTripList_cons (x : Value) (rest : List Value) :
    jsonRoundTripList (x :: rest) =
      match jsonRoundTrip x, jsonRoundTripList rest with
      | some x2, some rest2 => some (x2 :: rest2)
      | _, _ => none := by
  rw [jsonRoundTripList]

/-- The round trip keeps the keys of an object, in their order. -/
theorem keys_jsonRoundTripEntries (r d : Doc) (h : jsonRoundTripEntries r = some d) :
    keys d = keys r := by
  induction r generalizing d with
  | nil =>
    rw [jsonRoundTripEntries] at h
    rw [← Option.some.inj h]
  | cons e rest ih =>
    obtain ⟨k, v⟩ := e
    rw [jsonRoundTripEntries_cons] at h
    cases hv : jsonRoundTrip v with
    | none => rw [hv] at h; cases h
    | some v2 =>
      cases hr : jsonRoundTripEntries rest with
      | none => rw [hv, hr] at h; cases h
      | some rest2 =>
        rw [hv, hr] at h
        rw [← Option.some.inj h]
        simp only [keys, List.map_cons] at ih ⊢
        rw [ih rest2 hr]

/-- The entry of the round trip of an object at a key is the round trip of the
entry of the object. -/
theorem mapLookup_jsonRoundTripEntries (r d : Doc) (k : String)
    (h : jsonRoundTripEntries r = some d) :
    mapLookup d k = (mapLookup r k).bind jsonRoundTrip := by
  induction r generalizing d with
  | nil =>
    rw [jsonRoundTripEntries] at h
    rw [← Option.some.inj h]
    rfl
  | cons e rest ih =>
    obtain ⟨k0, v⟩ := e
    rw [jsonRoundTripEntries_cons] at h
    cases hv : jsonRoundTrip v with
    | none => rw [hv] at h; cases h
    | some v2 =>
      cases hr : jsonRoundTripEntries rest with
      | none => rw [hv, hr] at h; cases h
      | some rest2 =>
        rw [hv, hr] at h
        rw [← Option.some.inj h]
        by_cases h0 : k0 = k
        · simp [mapLookup, h0, hv]
        · simp [mapLookup, h0, ih rest2 hr]

theorem isObject_jsonNumberOfInt (n : Int) (v : Value) (h : jsonNumberOfInt n = some v) :
    v.isObject = false := by
  unfold jsonNumberOfInt at h
  split at h
  · rw [← Option.some.inj h]; rfl
  · cases hf : float64OfRatio (decide (n < 0)) n.natAbs 1 with
    | none => rw [hf] at h; cases h
    | some b =>
      rw [hf] at h
      rw [← Option.some.inj h]
      rfl

theorem isObject_jsonNumberOfDecimal (neg : Bool) (d : Nat) (k : Int) (v : Value)
    (h : jsonNumberOfDecimal neg d k = some v) : v.isObject = false := by
  unfold jsonNumberOfDecimal at h
  simp only at h
  split at h
  · rw [← Option.some.inj h]; rfl
  · cases hf : float64OfRatio neg (d * 10 ^ k.toNat) (10 ^ (-k).toNat) with
    | none => rw [hf] at h; cases h
    | some b =>
      rw [hf] at h
      rw [← Option.some.inj h]
      rfl

theorem isObject_jsonNumberOfFloat (mantBits expBits bits : Nat) (v : Value)
    (h : jsonNumberOfFloat mantBits expBits bits = some v) : v.isObject = false := by
  unfold jsonNumberOfFloat at h
  simp only at h
  split at h
  · cases h
  · split at h
    · rw [← Option.some.inj h]; rfl
    · exact isObject_jsonNumberOfDecimal _ _ _ v h

theorem isObject_jsonNumberOfFloat64 (bits : Nat) (v : Value)
    (h : jsonNumberOfFloat64 bits = some v) : v.isObject = false :=
  isObject_jsonNumberOfFloat 52 11 bits v h

theorem isObject_jsonNumberOfFloat32 (bits : Nat) (v : Value)
    (h : jsonNumberOfFloat32 bits = some v) : v.isObject = false :=
  isObject_jsonNumberOfFloat 23 8 bits v h

/-- The round trip of a value is an object exactly when the value is one. -/
theorem isObject_jsonRoundTrip (w v : Value) (h : jsonRoundTrip w = some v) :
    v.isObject = w.isObject := by
  cases w with
  | null => rw [jsonRoundTrip] at h; rw [← Option.some.inj h]
  | bool b => rw [jsonRoundTrip] at h; rw [← Option.some.inj h]
  | str s => rw [jsonRoundTrip] at h; rw [← Option.some.inj h]
  | int k n => rw [jsonRoundTrip] at h; exact isObject_jsonNumberOfInt _ _ h
  | uint k n => rw [jsonRoundTrip] at h; exact isObject_jsonNumberOfInt _ _ h
  | float32 bits => rw [jsonRoundTrip] at h; exact isObject_jsonNumberOfFloat32 _ _ h
  | float64 bits => rw [jsonRoundTrip] at h; exact isObject_jsonNumberOfFloat64 _ _ h
  | array xs =>
    rw [jsonRoundTrip] at h
    cases hx : jsonRoundTripList xs with
    | none => rw [hx] at h; cases h
    | some ys => rw [hx] at h; rw [← Option.some.inj h]; rfl
  | object m =>
    rw [jsonRoundTrip] at h
    cases hx : jsonRoundTripEntries m with
    | none => rw [hx] at h; cases h
    | some m2 => rw [hx] at h; rw [← Option.some.inj h]; rfl

theorem jsonRoundTripEntries_of_fixed (m : List (String × Value))
    (h : ∀ k v, (k, v) ∈ m → jsonRoundTrip v = some v) : jsonRoundTripEntries m = some m := by
  induction m with
  | nil => rw [jsonRoundTripEntries]
  | cons e rest ih =>
    obtain ⟨k, v⟩ := e
    rw [jsonRoundTripEntries_cons, h k v (List.mem_cons_self _ _),
      ih (fun k2 v2 h2 => h k2 v2 (List.mem_cons_of_mem _ h2))]

theorem jsonRoundTripList_of_fixed (xs : List Value)
    (h : ∀ x, x ∈ xs → jsonRoundTrip x = some x) : jsonRoundTripList xs = some xs := by
  induction xs with
  | nil => rw [jsonRoundTripList]
  | cons x rest ih =>
    rw [jsonRoundTripList_cons, h x (List.mem_cons_self _ _),
      ih (fun x2 h2 => h x2 (List.mem_cons_of_mem _ h2))]

theorem jsonNormal_of_mem_entries (m : List (String × Value)) (k : String) (v : Value)
    (hm : jsonNormalEntries m = true) (h : (k, v) ∈ m) : jsonNormal v = true := by
  induction m with
  | nil => cases h
  | cons e rest ih =>
    rw [jsonNormalEntries, Bool.and_eq_true] at hm
    rcases List.mem_cons.mp h with h1 | h1
    · subst h1
      have := hm.1
      rwa [jsonNormalEntry] at this
    · exact ih hm.2 h1

theorem jsonNormal_of_mem_list (xs : List Value) (x : Value)
    (hm : jsonNormalList xs = true) (h : x ∈ xs) : jsonNormal x = true := by
  induction xs with
  | nil => cases h
  | cons e rest ih =>
    rw [jsonNormalList, Bool.and_eq_true] at hm
    rcases List.mem_cons.mp h with h1 | h1
    · subst h1
      exact hm.1
    · exact ih hm.2 h1

/-- A value that is as the JSON decoder returns it comes back from the round
trip as it is. -/
theorem jsonRoundTrip_of_normal_of_size (n : Nat) :
    ∀ v : Value, sizeOf v < n → jsonNormal v = true → jsonRoundTrip v = some v := by
  induction n with
  | zero => intro v hv; omega
  | succ n ih =>
    intro v hsize hnorm
    cases v with
    | null => rw [jsonRoundTrip]
    | bool b => rw [jsonRoundTrip]
    | str s => rw [jsonRoundTrip]
    | int k i =>
      rw [jsonNormal, decide_eq_true_eq] at hnorm
      rw [jsonRoundTrip, jsonNumberOfInt, if_pos hnorm.2, hnorm.1]
    | uint k i => rw [jsonNormal] at hnorm; cases hnorm
    | float32 bits => rw [jsonNormal] at hnorm; cases hnorm
    | float64 bits =>
      rw [jsonNormal] at hnorm
      rw [jsonRoundTrip]
      cases hf : jsonNumberOfFloat64 bits with
      | none => rw [hf] at hnorm; cases hnorm
      | some w =>
        rw [hf] at hnorm
        cases w with
        | float64 b =>
          simp only [decide_eq_true_eq] at hnorm
          rw [hnorm]
        | _ => cases hnorm
    | array xs =>
      rw [jsonNormal] at hnorm
      rw [jsonRoundTrip, jsonRoundTripList_of_fixed xs]
      intro x hx
      apply ih x _ (jsonNormal_of_mem_list xs x hnorm hx)
      have h1 := List.sizeOf_lt_of_mem hx
      simp only [Value.array.sizeOf_spec] at hsize
      omega
    | object m =>
      rw [jsonNormal] at hnorm
      rw [jsonRoundTrip, jsonRoundTripEntries_of_fixed m]
      intro k x hx
      apply ih x _ (jsonNormal_of_mem_entries m k x hnorm hx)
      have h1 := List.sizeOf_lt_of_mem hx
      simp only [Prod.mk.sizeOf_spec] at h1
      simp only [Value.object.sizeOf_spec] at hsize
      omega

theorem jsonRoundTrip_of_normal (v : Value) (h : jsonNormal v = true) :
    jsonRoundTrip v = some v :=
  jsonRoundTrip_of_normal_of_size (sizeOf v + 1) v (by omega) h

theorem jsonRoundTripEntries_of_normal (m : Doc) (h : jsonNormalEntries m = true) :
    jsonRoundTripEntries m = some m :=
  jsonRoundTripEntries_of_fixed m
    (fun k v hm => jsonRoundTrip_of_normal v (jsonNormal_of_mem_entries m k v h hm))

/-- The data of a config whose `data` is an object that can be marshalled: the
round trip of the object. -/
theorem getValueInto_of_object (pave : Pave) (c r d : Doc)
    (h : pave c "data" = .ok (.object r)) (hj : jsonRoundTripEntries r = some d) :
    GetValueInto pave c "data" = .ok d := by
  simp [GetValueInto, h, jsonRoundTrip, hj]

/-- The data of a config whose `data` is an object that cannot be marshalled. -/
theorem getValueInto_of_unmarshallable (pave : Pave) (c r : Doc)
    (h : pave c "data" = .ok (.object r)) (hj : jsonRoundTripEntries r = none) :
    GetValueInto pave c "data" = .error .cannotMarshal := by
  simp [GetValueInto, h, jsonRoundTrip, hj]

/-- The data objects that `GetValueInto` returns for configs whose `data` are
objects that can be marshalled. -/
theorem getValueInto_forall₂ (pave : Pave) (configs raws datas : List Doc)
    (hraw : List.Forall₂ (fun c r => pave c "data" = .ok (.object r)) configs raws)
    (hjson : List.Forall₂ (fun r d => jsonRoundTripEntries r = some d) raws datas) :
    List.Forall₂ (fun c d => GetValueInto pave c "data" = .ok d) configs datas := by
  induction hraw generalizing datas with
  | nil => cases hjson; exact List.Forall₂.nil
  | cons hcr _ ih =>
    cases hjson with
    | cons hrd hrest =>
      exact List.Forall₂.cons (getValueInto_of_object pave _ _ _ hcr hrd) (ih _ hrest)

/-- The round trips of a list of objects that can be marshalled. -/
theorem jsonRoundTripEntries_forall₂ (raws : List Doc)
    (hjson : ∀ r ∈ raws, (jsonRoundTripEntries r).isSome = true) :
    List.Forall₂ (fun r d => jsonRoundTripEntries r = some d) raws
      (raws.map (fun r => (jsonRoundTripEntries r).getD [])) := by
  induction raws with
  | nil => exact List.Forall₂.nil
  | cons r rest ih =>
    refine List.Forall₂.cons ?_ (ih (fun r2 h2 => hjson r2 (List.mem_cons_of_mem _ h2)))
    have h := hjson r (List.mem_cons_self _ _)
    show jsonRoundTripEntries r = some ((jsonRoundTripEntries r).getD [])
    cases hr : jsonRoundTripEntries r with
    | none => rw [hr] at h; cases h
    | some d => rfl

theorem uniqueKeys_foldl_mergeMaps (datas : List Doc) (acc : Doc) (hacc : UniqueKeys acc) :
    UniqueKeys (datas.foldl mergeMaps acc) := by
  induction datas generalizing acc with
  | nil => simpa using hacc
  | cons d rest ih => exact ih _ (uniqueKeys_mergeMaps acc d)

theorem mapLookup_foldl_mergeMaps_of_absent (datas : List Doc) (acc : Doc) (k : String)
    (hacc : UniqueKeys acc) (hk : ∀ d ∈ datas, mapLookup d k = none) :
    mapLookup (datas.foldl mergeMaps acc) k = mapLookup acc k := by
  induction datas generalizing acc with
  | nil => rfl
  | cons d rest ih =>
    simp only [List.foldl_cons]
    rw [ih _ (uniqueKeys_mergeMaps acc d) (fun e he => hk e (List.mem_cons_of_mem _ he)),
      mapLookup_mergeMaps_of_absent acc d k hacc (hk d (List.mem_cons_self _ _))]

theorem mapLookup_foldl_mergeMaps_of_last (datas : List Doc) (acc : Doc) (k : String)
    (j : Nat) (dj : Doc) (v : Value) (hacc : UniqueKeys acc)
    (huniq : ∀ d ∈ datas, UniqueKeys d)
    (hj : datas[j]? = some dj) (hv : mapLookup dj k = some v) (hobj : v.isObject = false)
    (hlast : ∀ i d, j < i → datas[i]? = some d → mapLookup d k = none) :
    mapLookup (datas.foldl mergeMaps acc) k = some v := by
  induction datas generalizing acc j with
  | nil => simp at hj
  | cons d rest ih =>
    simp only [List.foldl_cons]
    cases j with
    | zero =>
      have hd : d = dj := by simpa using hj
      subst hd
      have hrest : ∀ e ∈ rest, mapLookup e k = none := by
        intro e he
        obtain ⟨i, hi, hie⟩ := List.getElem_of_mem he
        exact hlast (i + 1) e (Nat.succ_pos i) (by simp [List.getElem?_eq_getElem hi, hie])
      rw [mapLookup_foldl_mergeMaps_of_absent rest _ k (uniqueKeys_mergeMaps acc d) hrest]
      exact mapLookup_mergeMaps_of_scalar acc d k v hacc
        (huniq d (List.mem_cons_self _ _)) hv hobj
    | succ j =>
      apply ih (mergeMaps acc d) j (uniqueKeys_mergeMaps acc d)
        (fun e he => huniq e (List.mem_cons_of_mem _ he))
      · simpa using hj
      · intro i e hi hie
        exact hlast (i + 1) e (Nat.succ_lt_succ hi) (by simpa using hie)

/-- Numbers through the round trip: the `float64` 2.5 comes back as it is, the
`float64` values 2 and -0 as the `int64` values 2 and 0, the `float64` `2 ^ 60`
as the `int64` of its shortest decimal, `1152921504606847000`, the `float32`
nearest to 0.1 as the `float64` nearest to 0.1, the largest `uint64` as the
`float64` `2 ^ 64`, and the `float64` `10 ^ 19` as it is; an infinity cannot be
marshalled. -/
theorem jsonRoundTrip_numbers :
    jsonRoundTrip (.float64 4612811918334230528) = some (.float64 4612811918334230528) ∧
    jsonRoundTrip (.float64 4611686018427387904) = some (.int .int64 2) ∧
    jsonRoundTrip (.float64 9223372036854775808) = some (.int .int64 0) ∧
    jsonRoundTrip (.float64 4877398396442247168) = some (.int .int64 1152921504606847000) ∧
    jsonRoundTrip (.float32 1036831949) = some (.float64 4591870180066957722) ∧
    jsonRoundTrip (.uint .uint64 18446744073709551615) = some (.float64 4895412794951729152) ∧
    jsonRoundTrip (.float64 4891288408196988160) = some (.float64 4891288408196988160) ∧
    jsonRoundTrip (.float64 9218868437227405312) = none :=
  ⟨rfl, rfl, rfl, rfl, rfl, rfl, rfl, rfl⟩

/-- C2, counterexample: the only config holds the `float64` 2 under `f` in its
data; `mergeEnvConfigsData` returns the `int64` 2 under `f`, which is not the
value of the config. With a NaN under `f`, `mergeEnvConfigsData` fails although
the `data` field is an object. -/
theorem mergeEnvConfigsData_larger_index_wins_counterexample :
    fieldpathPave exampleFloatDataConfig "data"
      = .ok (.object [("f", .float64 4611686018427387904)]) ∧
    mergeEnvConfigsData fieldpathPave [exampleFloatDataConfig]
      = .ok [("f", .int .int64 2)] ∧
    Value.int .int64 2 ≠ Value.float64 4611686018427387904 ∧
    fieldpathPave exampleNaNDataConfig "data"
      = .ok (.object [("f", .float64 9221120237041090560)]) ∧
    mergeEnvConfigsData fieldpathPave [exampleNaNDataConfig]
      = .error (.wrap "cannot get data from environment config %q" .cannotMarshal) :=
  ⟨rfl, rfl, by simp, rfl, rfl⟩

/-- C2, amended: when every selected config carries an object-valued `data`
field (each a map, so without repeated keys) that can be marshalled to JSON,
and `j` is the largest position whose data contains `k`, with a value `w` that
is not a nested object, then `mergeEnvConfigsData` succeeds and its result
holds at `k` the JSON round trip of `w`: the config with the larger index wins.
The round trip of `w` is `w` itself when `w` is as the JSON decoder returns it
(strings, booleans, nil, `int64` numbers, `float64` numbers that are not
written as a whole number that fits `int64`, arrays and objects of these). -/
theorem mergeEnvConfigsData_larger_index_wins (pave : Pave) (configs raws : List Doc)
    (hraw : List.Forall₂ (fun c r => pave c "data" = .ok (.object r)) configs raws)
    (hjson : ∀ r ∈ raws, (jsonRoundTripEntries r).isSome = true)
    (huniq : ∀ r ∈ raws, UniqueKeys r)
    (k : String) (j : Nat) (rj : Doc) (w : Value)
    (hj : raws[j]? = some rj) (hw : mapLookup rj k = some w) (hobj : w.isObject = false)
    (hlast : ∀ i r, j < i → raws[i]? = some r → mapLookup r k = none) :
    ∃ merged v, mergeEnvConfigsData pave configs = .ok merged ∧
      jsonRoundTrip w = some v ∧ mapLookup merged k = some v ∧
      (jsonNormal w = true → mapLookup merged k = some w) := by
  have hf2 := jsonRoundTripEntries_forall₂ raws hjson
  have hget : ∀ r ∈ raws,
      jsonRoundTripEntries r = some ((jsonRoundTripEntries r).getD []) := by
    intro r hr
    have h := hjson r hr
    cases hr2 : jsonRoundTripEntries r with
    | none => rw [hr2] at h; cases h
    | some d => rfl
  have hrj : rj ∈ raws := List.getElem?_mem hj
  have hdj := hget rj hrj
  have hlk := mapLookup_jsonRoundTripEntries rj _ k hdj
  rw [hw, Option.some_bind] at hlk
  cases hv : jsonRoundTrip w with
  | none =>
    rw [hv] at hlk
    have hk : k ∈ keys ((jsonRoundTripEntries rj).getD []) := by
      rw [keys_jsonRoundTripEntries rj _ hdj]
      exact (mem_keys_iff_lookup rj k).mpr ⟨w, hw⟩
    obtain ⟨x, hx⟩ := (mem_keys_iff_lookup _ k).mp hk
    rw [hlk] at hx
    cases hx
  | some v =>
    rw [hv] at hlk
    have hmerged : mapLookup
        ((raws.map (fun r => (jsonRoundTripEntries r).getD [])).foldl mergeMaps []) k
        = some v := by
      apply mapLookup_foldl_mergeMaps_of_last _ [] k j _ v (by simp [UniqueKeys, keys])
      · intro d hd
        obtain ⟨r, hr, hrd⟩ := List.mem_map.mp hd
        subst hrd
        unfold UniqueKeys
        rw [keys_jsonRoundTripEntries r _ (hget r hr)]
        exact huniq r hr
      · rw [List.getElem?_map, hj]
        rfl
      · exact hlk
      · rw [isObject_jsonRoundTrip w v hv]
        exact hobj
      · intro i d hi hid
        rw [List.getElem?_map] at hid
        cases hri : raws[i]? with
        | none => rw [hri] at hid; cases hid
        | some r =>
          rw [hri] at hid
          have hd : (jsonRoundTripEntries r).getD [] = d := Option.some.inj hid
          subst hd
          rw [mapLookup_jsonRoundTripEntries r _ k (hget r (List.getElem?_mem hri)),
            hlast i r hi hri]
          rfl
    refine ⟨_, v, ?_, rfl, hmerged, ?_⟩
    · exact mergeEnvConfigsDataFrom_eq_foldl pave configs _
        (getValueInto_forall₂ pave configs raws _ hraw hf2) []
    · intro hn
      rw [jsonRoundTrip_of_normal w hn] at hv
      rw [hmerged, ← Option.some.inj hv]

/-- Witness of C2 (amended): three configs, the key `h` set by the first two;
the second one wins. -/
theorem mergeEnvConfigsData_larger_index_wins_witness :
    ∃ merged,
      mergeEnvConfigsData fieldpathPave
        [[("data", .object [("c", .str "s0"), ("h", .str "s0-h")])],
         [("data", .object [("h", .str "s1-h")])],
         [("data", .object [("d", .str "s2")])]] = .ok merged ∧
      mapLookup merged "h" = some (.str "s1-h") := by
  obtain ⟨merged, v, h1, _, _, h4⟩ := mergeEnvConfigsData_larger_index_wins fieldpathPave
    [[("data", .object [("c", .str "s0"), ("h", .str "s0-h")])],
     [("data", .object [("h", .str "s1-h")])],
     [("data", .object [("d", .str "s2")])]]
    [[("c", .str "s0"), ("h", .str "s0-h")], [("h", .str "s1-h")], [("d", .str "s2")]]
    (List.Forall₂.cons rfl (List.Forall₂.cons rfl (List.Forall₂.cons rfl List.Forall₂.nil)))
    (by
      intro r hr
      simp only [List.mem_cons, List.mem_singleton, List.not_mem_nil, or_false] at hr
      rcases hr with h | h | h <;> subst h <;> rfl)
    (by decide) "h" 1 [("h", .str "s1-h")] (.str "s1-h") rfl rfl rfl
    (by
      intro i d hi hd
      match i, hi, hd with
      | 2, _, hd => cases hd; rfl
      | n + 3, _, hd => simp at hd)
  exact ⟨merged, h1, h4 rfl⟩

/-! ## Layers of the final environment -/

theorem returnFatal_results (rsp r : RunFunctionResponse) (msg : String) (err : Error)
    (h : returnFatal rsp msg err = .ok r) : r.Results ≠ [] := by
  cases err <;> simp [returnFatal] at h <;> subst h <;> simp

theorem mergeDefaultData_eq (inp : Input) (m : Doc) :
    mergeDefaultData inp m = .ok
      (match inp.Spec.DefaultData with
       | some dd => mergeMaps dd m
       | none => m) := by
  unfold mergeDefaultData
  cases inp.Spec.DefaultData <;> simp [unmarshalData]

/-- A run that was given candidates and reports no fatal result has stored the
stamped merge of the three layers under the environment key. -/
theorem RunFunction_environment (pave : Pave) (req : RunFunctionRequest) (inp : Input)
    (cfgs : List EnvironmentSource) (extra : List (String × List Extra))
    (rsp : RunFunctionResponse)
    (hin : req.Input = .ok inp) (hcfg : inp.Spec.EnvironmentConfigs = some cfgs)
    (hextra : req.ExtraResources = some (.ok extra))
    (hrun : RunFunction pave req = .ok rsp) (hok : rsp.Results = []) :
    ∃ inputEnv envConfigs mergedData,
      loadInputEnv req = .ok inputEnv ∧
      getSelectedEnvConfigs pave inp extra = .ok envConfigs ∧
      mergeEnvConfigsData pave envConfigs = .ok mergedData ∧
      mapLookup rsp.Context FunctionContextKeyEnvironment = some (.object (stampEnvironment
        (match inp.Spec.DefaultData with
         | some dd => mergeMaps dd (mergeInputEnv inputEnv mergedData)
         | none => mergeInputEnv inputEnv mergedData))) := by
  unfold RunFunction at hrun
  simp only [hin, hcfg, hextra] at hrun
  cases hoxr : req.ObservedComposite with
  | error e => simp only [hoxr] at hrun; exact absurd hok (returnFatal_results _ _ _ _ hrun)
  | ok oxr =>
    simp only [hoxr] at hrun
    cases hreq : buildRequirements pave inp oxr with
    | error e => simp only [hreq] at hrun; exact absurd hok (returnFatal_results _ _ _ _ hrun)
    | ok requirements =>
      simp only [hreq] at hrun
      cases henv : loadInputEnv req with
      | error e => simp only [henv] at hrun; exact absurd hok (returnFatal_results _ _ _ _ hrun)
      | ok inputEnv =>
        simp only [henv] at hrun
        cases hsel : getSelectedEnvConfigs pave inp extra with
        | error e =>
          simp only [hsel] at hrun; exact absurd hok (returnFatal_results _ _ _ _ hrun)
        | ok envConfigs =>
          simp only [hsel] at hrun
          cases hmerge : mergeEnvConfigsData pave envConfigs with
          | error e =>
            simp only [hmerge] at hrun; exact absurd hok (returnFatal_results _ _ _ _ hrun)
          | ok mergedData =>
            simp only [hmerge, mergeDefaultData_eq] at hrun
            refine ⟨inputEnv, envConfigs, mergedData, rfl, rfl, hmerge, ?_⟩
            have hr := Except.ok.inj hrun
            rw [← hr]
            simp [SetContextKey, mapLookup_mapStore]

theorem mapLookup_stampEnvironment (m : Doc) (k : String) (h1 : k ≠ "apiVersion")
    (h2 : k ≠ "kind") : mapLookup (stampEnvironment m) k = mapLookup m k := by
  unfold stampEnvironment
  split
  · simp [SetGroupVersionKind, mapLookup_mapStore, Ne.symm h1, Ne.symm h2]
  · rfl

theorem uniqueKeys_nil : UniqueKeys ([] : Doc) := by simp [UniqueKeys, keys]

theorem uniqueKeys_mergeInputEnv (inputEnv : Option Doc) (m : Doc) (hm : UniqueKeys m) :
    UniqueKeys (mergeInputEnv inputEnv m) := by
  cases inputEnv with
  | none => exact hm
  | some e => exact uniqueKeys_mergeMaps e m

/-- Lookup in the merge of the three layers when the merged source data holds a
non-object value at `k`. -/
theorem mapLookup_layers_of_source (inp : Input) (inputEnv : Option Doc) (m : Doc)
    (k : String) (v : Value) (hm : UniqueKeys m)
    (hue : ∀ e, inputEnv = some e → UniqueKeys e)
    (hudd : ∀ dd, inp.Spec.DefaultData = some dd → UniqueKeys dd)
    (hv : mapLookup m k = some v) (hobj : v.isObject = false) :
    mapLookup (match inp.Spec.DefaultData with
       | some dd => mergeMaps dd (mergeInputEnv inputEnv m)
       | none => mergeInputEnv inputEnv m) k = some v := by
  have h1 : mapLookup (mergeInputEnv inputEnv m) k = some v := by
    cases inputEnv with
    | none => exact hv
    | some e => exact mapLookup_mergeMaps_of_scalar e m k v (hue e rfl) hm hv hobj
  cases hdd : inp.Spec.DefaultData with
  | none => exact h1
  | some dd =>
    exact mapLookup_mergeMaps_of_scalar dd _ k v (hudd dd hdd)
      (uniqueKeys_mergeInputEnv inputEnv m hm) h1 hobj

/-- Lookup in the merge of the three layers when the merged source data has no
`k` and the input environment holds a non-object value at `k`. -/
theorem mapLookup_layers_of_inputEnv (inp : Input) (e m : Doc)
    (k : String) (v : Value) (hm : UniqueKeys m) (he : UniqueKeys e)
    (hudd : ∀ dd, inp.Spec.DefaultData = some dd → UniqueKeys dd)
    (hmk : mapLookup m k = none) (hv : mapLookup e k = some v) (hobj : v.isObject = false) :
    mapLookup (match inp.Spec.DefaultData with
       | some dd => mergeMaps dd (mergeInputEnv (some e) m)
       | none => mergeInputEnv (some e) m) k = some v := by
  have h1 : mapLookup (mergeInputEnv (some e) m) k = some v := by
    show mapLookup (mergeMaps e m) k = some v
    rw [mapLookup_mergeMaps_of_absent e m k he hmk, hv]
  cases hdd : inp.Spec.DefaultData with
  | none => exact h1
  | some dd =>
    exact mapLookup_mergeMaps_of_scalar dd _ k v (hudd dd hdd)
      (uniqueKeys_mergeInputEnv (some e) m hm) h1 hobj

/-- Lookup in the merge of the three layers when neither the merged source data
nor the input environment has `k`. -/
theorem mapLookup_layers_of_default (inp : Input) (inputEnv : Option Doc) (dd m : Doc)
    (k : String) (hdd : inp.Spec.DefaultData = some dd) (hudd : UniqueKeys dd)
    (hue : ∀ e, inputEnv = some e → UniqueKeys e)
    (hmk : mapLookup m k = none) (hek : ∀ e, inputEnv = some e → mapLookup e k = none) :
    mapLookup (match inp.Spec.DefaultData with
       | some dd => mergeMaps dd (mergeInputEnv inputEnv m)
       | none => mergeInputEnv inputEnv m) k = mapLookup dd k := by
  have h1 : mapLookup (mergeInputEnv inputEnv m) k = none := by
    cases inputEnv with
    | none => exact hmk
    | some e =>
      show mapLookup (mergeMaps e m) k = none
      rw [mapLookup_mergeMaps_of_absent e m k (hue e rfl) hmk, hek e rfl]
  rw [hdd]
  exact mapLookup_mergeMaps_of_absent dd _ k hudd h1

/-! ## Claims on the layer precedence of `RunFunction` -/

/-- C3, failing input: in `exampleRequest` the key `e` is absent from the
source data and holds the strings `input-e` in the input environment and `def-e`
in the default data. The comments at lines 105 and 110 of `fn.go` rank the
default data above the input environment; the final environment holds
`input-e`, not the default data's value; and the key `apiVersion`, held by both
layers, ends as the stamped default identity. -/
theorem RunFunction_default_over_base_counterexample :
    ∃ rsp env, RunFunction fieldpathPave exampleRequest = .ok rsp ∧ rsp.Results = [] ∧
      mapLookup rsp.Context FunctionContextKeyEnvironment = some (.object env) ∧
      GetValueInto fieldpathPave exampleEnvConfig "data" = .ok [("c", .str "s0")] ∧
      mapLookup exampleBaseEnv "e" = some (.str "input-e") ∧
      mapLookup exampleDefaultData "e" = some (.str "def-e") ∧
      mapLookup env "e" = some (.str "input-e") ∧
      mapLookup env "e" ≠ mapLookup exampleDefaultData "e" ∧
      mapLookup exampleBaseEnv "apiVersion" = some (.str "a/b/c") ∧
      mapLookup exampleDefaultData "apiVersion" = some (.str "v1") ∧
      mapLookup env "apiVersion" = some (.str "internal.crossplane.io/v1alpha1") :=
  ⟨_, _, rfl, rfl, rfl, rfl, rfl, rfl, rfl,
    (show some (Value.str "input-e") ≠ some (Value.str "def-e") by simp), rfl, rfl, rfl⟩

/-- C3, what the code computes: in a run with candidates and no fatal result,
the environment stored in the context is the stamped `mergeMaps(defaultData,
mergeMaps(inputEnv, merged source data))`, so the precedence is, lowest to
highest: default data, input environment, source data, where the comments at
lines 105 and 110 of `fn.go` put the default data above the input environment.
For a key `k` other than `apiVersion` and `kind` that no source data contains
and that holds non-object values in the input environment and in the default
data, the final value is the input environment's. -/
theorem RunFunction_base_over_default (pave : Pave) (req : RunFunctionRequest) (inp : Input)
    (cfgs : List EnvironmentSource) (extra : List (String × List Extra))
    (rsp : RunFunctionResponse) (envConfigs datas : List Doc) (e dd : Doc)
    (hin : req.Input = .ok inp) (hcfg : inp.Spec.EnvironmentConfigs = some cfgs)
    (hextra : req.ExtraResources = some (.ok extra))
    (hrun : RunFunction pave req = .ok rsp) (hok : rsp.Results = [])
    (hsel : getSelectedEnvConfigs pave inp extra = .ok envConfigs)
    (hdata : List.Forall₂ (fun c d => GetValueInto pave c "data" = .ok d) envConfigs datas)
    (henv : loadInputEnv req = .ok (some e)) (hdd : inp.Spec.DefaultData = some dd)
    (hue : UniqueKeys e) (hudd : UniqueKeys dd) :
    mapLookup rsp.Context FunctionContextKeyEnvironment = some (.object (stampEnvironment
      (mergeMaps dd (mergeMaps e (datas.foldl mergeMaps []))))) ∧
    ∀ k ve vd, k ≠ "apiVersion" → k ≠ "kind" →
      (∀ d ∈ datas, mapLookup d k = none) →
      mapLookup e k = some ve → ve.isObject = false →
      mapLookup dd k = some vd → vd.isObject = false →
      mapLookup (stampEnvironment (mergeMaps dd (mergeMaps e (datas.foldl mergeMaps [])))) k
        = some ve := by
  obtain ⟨inputEnv, envConfigs2, mergedData, h1, h2, h3, h4⟩ :=
    RunFunction_environment pave req inp cfgs extra rsp hin hcfg hextra hrun hok
  rw [henv] at h1
  rw [hsel] at h2
  have hi : inputEnv = some e := (Except.ok.inj h1).symm
  have hc : envConfigs2 = envConfigs := (Except.ok.inj h2).symm
  subst hi hc
  have hm : mergedData = datas.foldl mergeMaps [] := by
    have := mergeEnvConfigsDataFrom_eq_foldl pave envConfigs2 datas hdata []
    rw [mergeEnvConfigsData, this] at h3
    exact (Except.ok.inj h3).symm
  subst hm
  rw [hdd] at h4
  refine ⟨h4, ?_⟩
  intro k ve vd hk1 hk2 hsrc hve hveo _ _
  rw [mapLookup_stampEnvironment _ k hk1 hk2]
  have hmk : mapLookup (datas.foldl mergeMaps []) k = none := by
    rw [mapLookup_foldl_mergeMaps_of_absent datas [] k uniqueKeys_nil hsrc]; rfl
  have := mapLookup_layers_of_inputEnv inp e (datas.foldl mergeMaps []) k ve
    (uniqueKeys_foldl_mergeMaps datas [] uniqueKeys_nil) hue
    (fun dd2 h => by rw [hdd] at h; cases h; exact hudd) hmk hve hveo
  rw [hdd] at this
  exact this

/-- Witness of C3 on `exampleRequest`: the key `e` ends with the input
environment's value. -/
theorem RunFunction_base_over_default_witness :
    mapLookup (stampEnvironment (mergeMaps exampleDefaultData
      (mergeMaps exampleBaseEnv ([[("c", Value.str "s0")]].foldl mergeMaps [])))) "e"
      = some (.str "input-e") :=
  (RunFunction_base_over_default fieldpathPave exampleRequest
    ⟨⟨some exampleDefaultData, some [⟨"Reference", some ⟨"my-env-config"⟩, none⟩], none, none⟩⟩
    [⟨"Reference", some ⟨"my-env-config"⟩, none⟩]
    [("environment-config-0", [exampleEnvConfig])] _ [exampleEnvConfig] [[("c", .str "s0")]]
    exampleBaseEnv exampleDefaultData rfl rfl rfl rfl rfl rfl
    (List.Forall₂.cons rfl List.Forall₂.nil) rfl rfl (by decide) (by decide)).2
    "e" (.str "input-e") (.str "def-e") (by decide) (by decide) (by simp [mapLookup])
    rfl rfl rfl rfl

/-- C4, counterexample: in `untypedKindRequest` the only layer that contains the
key `kind` is the data of the resolved source, where it is the boolean `true`;
the run succeeds and the environment holds `"Environment"` at `kind`. -/
theorem RunFunction_precedence_counterexample :
    ∃ rsp env, RunFunction fieldpathPave untypedKindRequest = .ok rsp ∧ rsp.Results = [] ∧
      mapLookup rsp.Context FunctionContextKeyEnvironment = some (.object env) ∧
      GetValueInto fieldpathPave untypedKindEnvConfig "data"
        = .ok [("kind", .bool true), ("c", .str "s0")] ∧
      mapLookup [("kind", Value.bool true), ("c", Value.str "s0")] "kind"
        = some (.bool true) ∧
      mapLookup env "kind" = some (.str "Environment") ∧
      mapLookup env "kind" ≠ some (.bool true) :=
  ⟨_, _, rfl, rfl, rfl, rfl, rfl, rfl,
    (show some (Value.str "Environment") ≠ some (Value.bool true) by simp)⟩

/-- C4, amended: in a run with candidates and no fatal result, for every
top-level key `k` other than `apiVersion` and `kind`, the environment's value at
`k` is the non-object value of the highest-index resolved source whose data
contains `k`; else the non-object value of the input environment, if it
contains `k`; else the value of the default data. -/
theorem RunFunction_precedence (pave : Pave) (req : RunFunctionRequest) (inp : Input)
    (cfgs : List EnvironmentSource) (extra : List (String × List Extra))
    (rsp : RunFunctionResponse) (envConfigs datas : List Doc) (inputEnv : Option Doc)
    (hin : req.Input = .ok inp) (hcfg : inp.Spec.EnvironmentConfigs = some cfgs)
    (hextra : req.ExtraResources = some (.ok extra))
    (hrun : RunFunction pave req = .ok rsp) (hok : rsp.Results = [])
    (hsel : getSelectedEnvConfigs pave inp extra = .ok envConfigs)
    (hdata : List.Forall₂ (fun c d => GetValueInto pave c "data" = .ok d) envConfigs datas)
    (henv : loadInputEnv req = .ok inputEnv)
    (hud : ∀ d ∈ datas, UniqueKeys d) (hue : ∀ e, inputEnv = some e → UniqueKeys e)
    (hudd : ∀ dd, inp.Spec.DefaultData = some dd → UniqueKeys dd)
    (k : String) (hk1 : k ≠ "apiVersion") (hk2 : k ≠ "kind") :
    ∃ env, mapLookup rsp.Context FunctionContextKeyEnvironment = some (.object env) ∧
      (∀ (j : Nat) dj v, datas[j]? = some dj → mapLookup dj k = some v → v.isObject = false →
        (∀ (i : Nat) d, j < i → datas[i]? = some d → mapLookup d k = none) →
        mapLookup env k = some v) ∧
      ((∀ d ∈ datas, mapLookup d k = none) →
        ∀ e v, inputEnv = some e → mapLookup e k = some v → v.isObject = false →
        mapLookup env k = some v) ∧
      ((∀ d ∈ datas, mapLookup d k = none) →
        (∀ e, inputEnv = some e → mapLookup e k = none) →
        ∀ dd v, inp.Spec.DefaultData = some dd → mapLookup dd k = some v →
        mapLookup env k = some v) := by
  obtain ⟨inputEnv2, envConfigs2, mergedData, h1, h2, h3, h4⟩ :=
    RunFunction_environment pave req inp cfgs extra rsp hin hcfg hextra hrun hok
  rw [henv] at h1
  rw [hsel] at h2
  have hi : inputEnv2 = inputEnv := (Except.ok.inj h1).symm
  have hc : envConfigs2 = envConfigs := (Except.ok.inj h2).symm
  subst hi hc
  have hm : mergedData = datas.foldl mergeMaps [] := by
    have := mergeEnvConfigsDataFrom_eq_foldl pave envConfigs2 datas hdata []
    rw [mergeEnvConfigsData, this] at h3
    exact (Except.ok.inj h3).symm
  subst hm
  have hum := uniqueKeys_foldl_mergeMaps datas [] uniqueKeys_nil
  refine ⟨_, h4, ?_, ?_, ?_⟩
  · intro j dj v hj hv hobj hlast
    rw [mapLookup_stampEnvironment _ k hk1 hk2]
    exact mapLookup_layers_of_source inp inputEnv2 _ k v hum hue hudd
      (mapLookup_foldl_mergeMaps_of_last datas [] k j dj v uniqueKeys_nil hud hj hv hobj hlast)
      hobj
  · intro hsrc e v he hv hobj
    subst he
    rw [mapLookup_stampEnvironment _ k hk1 hk2]
    have hmk : mapLookup (datas.foldl mergeMaps []) k = none := by
      rw [mapLookup_foldl_mergeMaps_of_absent datas [] k uniqueKeys_nil hsrc]; rfl
    exact mapLookup_layers_of_inputEnv inp e _ k v hum (hue e rfl) hudd hmk hv hobj
  · intro hsrc hek dd v hdd hv
    rw [mapLookup_stampEnvironment _ k hk1 hk2]
    have hmk : mapLookup (datas.foldl mergeMaps []) k = none := by
      rw [mapLookup_foldl_mergeMaps_of_absent datas [] k uniqueKeys_nil hsrc]; rfl
    rw [mapLookup_layers_of_default inp inputEnv2 dd _ k hdd (hudd dd hdd) hue hmk hek, hv]

/-- Witness of C4 (amended) on `exampleRequest`: the key `e` comes from the
input environment, as no source data contains it. -/
theorem RunFunction_precedence_witness :
    ∃ rsp env, RunFunction fieldpathPave exampleRequest = .ok rsp ∧
      mapLookup rsp.Context FunctionContextKeyEnvironment = some (.object env) ∧
      mapLookup env "e" = some (.str "input-e") := by
  have h := RunFunction_precedence fieldpathPave exampleRequest
    ⟨⟨some exampleDefaultData, some [⟨"Reference", some ⟨"my-env-config"⟩, none⟩], none, none⟩⟩
    [⟨"Reference", some ⟨"my-env-config"⟩, none⟩]
    [("environment-config-0", [exampleEnvConfig])] _
    [exampleEnvConfig] [[("c", .str "s0")]] (some exampleBaseEnv)
    rfl rfl rfl rfl rfl rfl (List.Forall₂.cons rfl List.Forall₂.nil) rfl
    (by decide) (by intro e he; cases he; decide) (by intro dd hdd; cases hdd; decide)
    "e" (by decide) (by decide)
  obtain ⟨env, h1, _, hB, _⟩ := h
  exact ⟨_, env, rfl, h1,
    hB (by simp [mapLookup]) exampleBaseEnv (.str "input-e") rfl rfl rfl⟩

/-! ## Lemmas on `sort.Slice` -/

theorem insertLeft_perm {α : Type} (less : α → α → Bool) (x : α) (l : List α) :
    (insertLeft less x l).Perm (x :: l) := by
  induction l with
  | nil => exact List.Perm.refl _
  | cons y ys ih =>
    unfold insertLeft
    split
    · exact (List.Perm.cons y ih).trans (List.Perm.swap x y ys)
    · exact List.Perm.refl _

theorem foldl_insertLeft_perm {α : Type} (less : α → α → Bool) (p acc : List α) :
    (p.foldl (fun sorted x => insertLeft less x sorted) acc).Perm (p ++ acc) := by
  induction p generalizing acc with
  | nil => exact List.Perm.refl _
  | cons x rest ih =>
    simp only [List.foldl_cons, List.cons_append]
    refine (ih _).trans ?_
    refine (List.Perm.append_left rest (insertLeft_perm less x acc)).trans ?_
    exact List.perm_middle

/-- The sort only reorders. -/
theorem sortSlice_perm {α : Type} (less : α → α → Bool) (p : List α) :
    (sortSlice less p).Perm p := by
  unfold sortSlice
  refine (List.reverse_perm _).trans ?_
  simpa using foldl_insertLeft_perm less p []

theorem insertLeft_descending {α β : Type} [LinearOrder β] (key : α → β)
    (less : α → α → Bool) (x : α) (l : List α)
    (hless : ∀ y ∈ l, (less x y = true ↔ key x < key y))
    (hl : l.Pairwise (fun a b => key b ≤ key a)) :
    (insertLeft less x l).Pairwise (fun a b => key b ≤ key a) := by
  induction l with
  | nil => simp [insertLeft]
  | cons y ys ih =>
    have hy := hless y (List.mem_cons_self _ _)
    have hys : ∀ z ∈ ys, (less x z = true ↔ key x < key z) :=
      fun z hz => hless z (List.mem_cons_of_mem _ hz)
    rw [List.pairwise_cons] at hl
    unfold insertLeft
    by_cases hxy : less x y = true
    · rw [if_pos hxy, List.pairwise_cons]
      refine ⟨?_, ih hys hl.2⟩
      intro z hz
      rcases List.mem_cons.mp ((List.Perm.mem_iff (insertLeft_perm less x ys)).mp hz)
        with h | h
      · subst h; exact le_of_lt (hy.mp hxy)
      · exact hl.1 z h
    · have hle : key y ≤ key x := not_lt.mp (fun h => hxy (hy.mpr h))
      rw [if_neg hxy, List.pairwise_cons]
      refine ⟨?_, List.pairwise_cons.mpr hl⟩
      intro z hz
      rcases List.mem_cons.mp hz with h | h
      · subst h; exact hle
      · exact le_trans (hl.1 z h) hle

theorem foldl_insertLeft_descending {α β : Type} [LinearOrder β] (key : α → β)
    (less : α → α → Bool) (p acc : List α)
    (hless : ∀ x ∈ p ++ acc, ∀ y ∈ p ++ acc, (less x y = true ↔ key x < key y))
    (hacc : acc.Pairwise (fun a b => key b ≤ key a)) :
    (p.foldl (fun sorted x => insertLeft less x sorted) acc).Pairwise
      (fun a b => key b ≤ key a) := by
  induction p generalizing acc with
  | nil => exact hacc
  | cons x rest ih =>
    simp only [List.foldl_cons]
    apply ih
    · intro a ha b hb
      have hmem : ∀ c, c ∈ rest ++ insertLeft less x acc → c ∈ x :: rest ++ acc := by
        intro c hc
        rcases List.mem_append.mp hc with h | h
        · simp [h]
        · rcases List.mem_cons.mp ((List.Perm.mem_iff (insertLeft_perm less x acc)).mp h)
            with h2 | h2
          · simp [h2]
          · simp [h2]
      exact hless a (hmem a ha) b (hmem b hb)
    · apply insertLeft_descending key less x acc _ hacc
      intro y hy
      exact hless x (by simp) y (by simp [hy])

/-- With a comparator that is the strict order of a key, the sort leaves the
slice in non-decreasing order of the key. -/
theorem sortSlice_sorted {α β : Type} [LinearOrder β] (key : α → β)
    (less : α → α → Bool) (p : List α)
    (hless : ∀ x ∈ p, ∀ y ∈ p, (less x y = true ↔ key x < key y)) :
    (sortSlice less p).Pairwise (fun a b => key a ≤ key b) := by
  unfold sortSlice
  rw [List.pairwise_reverse]
  exact foldl_insertLeft_descending key less p [] (by simpa using hless) List.Pairwise.nil

/-! ## Lemmas on the comparators -/

theorem lexLess_iff_lex (l1 l2 : List Char) :
    lexLess (l1.map Char.toNat) (l2.map Char.toNat) = true ↔
      List.Lex (fun a b : Char => a < b) l1 l2 := by
  induction l1 generalizing l2 with
  | nil =>
    cases l2 with
    | nil => simp [lexLess, List.Lex.not_nil_right]
    | cons b bs => simp [lexLess, List.Lex.nil]
  | cons a as ih =>
    cases l2 with
    | nil => simp [lexLess, List.Lex.not_nil_right]
    | cons b bs =>
      simp only [List.map_cons, lexLess]
      by_cases hab : a.toNat < b.toNat
      · simp only [hab, if_true, true_iff]
        exact List.Lex.rel hab
      · by_cases hba : b.toNat < a.toNat
        · simp only [hab, hba, if_false, if_true, Bool.false_eq_true, false_iff]
          intro h
          cases h with
          | cons h => exact absurd hba (Nat.lt_irrefl _)
          | rel h => exact hab h
        · have heq : a = b := by
            have h : a.toNat = b.toNat := Nat.le_antisymm (Nat.not_lt.mp hba) (Nat.not_lt.mp hab)
            rw [← Char.ofNat_toNat a, ← Char.ofNat_toNat b, h]
          subst heq
          simp only [hab, if_false]
          rw [ih bs]
          exact List.Lex.cons_iff.symm

/-- The comparator on strings is the strict order of `String`. -/
theorem stringLess_iff_lt (a b : String) : stringLess a b = true ↔ a < b := by
  rw [String.lt_iff_toList_lt]
  exact lexLess_iff_lex a.toList b.toList

/-! ## Lemmas on `sortExtrasByFieldPath` -/

theorem except_map_eq_ok {ε α β : Type} (f : α → β) (x : Except ε α) (b : β)
    (h : x.map f = .ok b) : ∃ a, x = .ok a ∧ f a = b := by
  cases x with
  | error e => cases h
  | ok a => exact ⟨a, rfl, Except.ok.inj h⟩

theorem collectValues_map_fst (pave : Pave) (path : String) (extras : List Extra)
    (t t2 : Option GoType) (p : List (Extra × Value))
    (h : collectValues pave path extras t = .ok (p, t2)) : p.map Prod.fst = extras := by
  induction extras generalizing t p with
  | nil =>
    simp only [collectValues] at h
    cases h; rfl
  | cons e rest ih =>
    have step : ∀ (v : Value) (t1 : Option GoType),
        (collectValues pave path rest t1).map (fun r => ((e, v) :: r.1, r.2)) = .ok (p, t2) →
        p.map Prod.fst = e :: rest := by
      intro v t1 hm
      obtain ⟨r, hr, hf⟩ := except_map_eq_ok _ _ _ hm
      obtain ⟨r1, r2⟩ := r
      simp only [Prod.mk.injEq] at hf
      obtain ⟨hp, ht⟩ := hf
      subst hp ht
      simp [ih _ _ hr]
    unfold collectValues at h
    cases hp : pave e path with
    | error err =>
      simp only [hp] at h
      by_cases hnf : err.IsNotFound = true
      · rw [if_pos hnf] at h; exact step _ _ h
      · rw [if_neg hnf] at h; cases h
    | ok val =>
      simp only [hp] at h
      cases hty : val.typeOf with
      | none => simp only [hty] at h; exact step _ _ h
      | some vt =>
        simp only [hty] at h
        cases t with
        | none => exact step _ _ h
        | some t0 =>
          simp only at h
          by_cases heq : t0 = vt
          · rw [if_pos heq] at h; exact step _ _ h
          · rw [if_neg heq] at h; cases h

/-- When every lookup finds a value or reports not-found, and every value found
is nil or of type `T`, the first loop records `valueAt` for each candidate and
settles on `T` exactly when some value is present. -/
theorem collectValues_uniform (pave : Pave) (path : String) (T : GoType)
    (extras : List Extra) (t : Option GoType) (ht : t = none ∨ t = some T)
    (hfound : ∀ e ∈ extras, ∀ err, pave e path = .error err → err.IsNotFound = true)
    (htype : ∀ e ∈ extras, (valueAt pave path e).typeOf = none ∨
      (valueAt pave path e).typeOf = some T) :
    ∃ t2, collectValues pave path extras t
        = .ok (extras.map (fun e => (e, valueAt pave path e)), t2) ∧
      (t2 = none ∨ t2 = some T) ∧ (t = some T → t2 = some T) ∧
      ((∃ e ∈ extras, (valueAt pave path e).typeOf = some T) → t2 = some T) ∧
      ((∀ e ∈ extras, (valueAt pave path e).typeOf = none) → t2 = t) := by
  induction extras generalizing t with
  | nil =>
    refine ⟨t, rfl, ht, fun h => h, ?_, fun _ => rfl⟩
    rintro ⟨e, he, _⟩
    cases he
  | cons e rest ih =>
    have hfr : ∀ e2 ∈ rest, ∀ err, pave e2 path = .error err → err.IsNotFound = true :=
      fun e2 h2 => hfound e2 (List.mem_cons_of_mem _ h2)
    have htr : ∀ e2 ∈ rest, (valueAt pave path e2).typeOf = none ∨
        (valueAt pave path e2).typeOf = some T :=
      fun e2 h2 => htype e2 (List.mem_cons_of_mem _ h2)
    have hte := htype e (List.mem_cons_self _ _)
    -- the element is recorded and the loop goes on with type `t1`
    have step : ∀ (t1 : Option GoType), (t1 = none ∨ t1 = some T) →
        (t = some T → t1 = some T) →
        ((valueAt pave path e).typeOf = some T → t1 = some T) →
        ((valueAt pave path e).typeOf = none → t1 = t) →
        collectValues pave path (e :: rest) t
          = (collectValues pave path rest t1).map
              (fun r => ((e, valueAt pave path e) :: r.1, r.2)) →
        ∃ t2, collectValues pave path (e :: rest) t
            = .ok ((e :: rest).map (fun e => (e, valueAt pave path e)), t2) ∧
          (t2 = none ∨ t2 = some T) ∧ (t = some T → t2 = some T) ∧
          ((∃ e2 ∈ e :: rest, (valueAt pave path e2).typeOf = some T) → t2 = some T) ∧
          ((∀ e2 ∈ e :: rest, (valueAt pave path e2).typeOf = none) → t2 = t) := by
      intro t1 ht1 htt1 hvt1 hnt1 heq
      obtain ⟨t2, h1, h2, h3, h4, h5⟩ := ih t1 ht1 hfr htr
      refine ⟨t2, ?_, h2, fun h => h3 (htt1 h), ?_, ?_⟩
      · rw [heq, h1]; rfl
      · rintro ⟨e2, he2, hty⟩
        rcases List.mem_cons.mp he2 with h | h
        · subst h; exact h3 (hvt1 hty)
        · exact h4 ⟨e2, h, hty⟩
      · intro hall
        rw [h5 (fun e2 h2 => hall e2 (List.mem_cons_of_mem _ h2))]
        exact hnt1 (hall e (List.mem_cons_self _ _))
    cases hp : pave e path with
    | error err =>
      have hnf := hfound e (List.mem_cons_self _ _) err hp
      have hval : valueAt pave path e = .null := by simp [valueAt, hp]
      apply step t ht (fun h => h) (by rw [hval]; intro h; cases h) (fun _ => rfl)
      rw [hval]
      conv => lhs; unfold collectValues
      simp only [hp, hnf, if_true]
    | ok val =>
      have hval : valueAt pave path e = val := by simp [valueAt, hp]
      rw [hval] at hte
      cases hty : val.typeOf with
      | none =>
        apply step t ht (fun h => h) (by rw [hval, hty]; intro h; cases h) (fun _ => rfl)
        rw [hval]
        conv => lhs; unfold collectValues
        simp only [hp, hty]
      | some vt =>
        have hvt : vt = T := by
          rw [hty] at hte
          rcases hte with h | h
          · cases h
          · exact Option.some.inj h
        subst hvt
        rcases ht with h | h
        · subst h
          apply step (some vt) (Or.inr rfl) (fun _ => rfl) (fun _ => rfl)
            (by rw [hval, hty]; intro h; cases h)
          rw [hval]
          conv => lhs; unfold collectValues
          simp only [hp, hty]
        · subst h
          apply step (some vt) (Or.inr rfl) (fun _ => rfl) (fun _ => rfl) (fun _ => rfl)
          rw [hval]
          conv => lhs; unfold collectValues
          simp only [hp, hty, if_true]

/-! ## Claims on the deterministic sorter -/

theorem lessValue_string_iff (pave : Pave) (path : String) (x y : Extra)
    (hx : ∀ v, pave x path = .ok v → v = .null ∨ ∃ s, v = .str s)
    (hy : ∀ v, pave y path = .ok v → v = .null ∨ ∃ s, v = .str s) :
    lessValue .string (valueAt pave path x) (valueAt pave path y) = true ↔
      stringAt pave path x < stringAt pave path y := by
  have key : ∀ (c : Extra), (∀ v, pave c path = .ok v → v = .null ∨ ∃ s, v = .str s) →
      (valueAt pave path c = .null ∧ stringAt pave path c = "") ∨
      (valueAt pave path c = .str (stringAt pave path c)) := by
    intro c hc
    cases hp : pave c path with
    | error e => left; simp [valueAt, stringAt, hp]
    | ok v =>
      rcases hc v hp with h | ⟨s, h⟩
      · subst h; left; simp [valueAt, stringAt, hp]
      · subst h; right; simp [valueAt, stringAt, hp]
  rw [← stringLess_iff_lt]
  rcases key x hx with ⟨h1, h2⟩ | h1 <;> rcases key y hy with ⟨h3, h4⟩ | h3
  · rw [h1, h3, h2, h4]; simp [lessValue, zeroValue]
  · rw [h1, h3, h2]; simp [lessValue, zeroValue]
  · rw [h1, h3, h4]; simp [lessValue, zeroValue]
  · rw [h1, h3]; simp [lessValue]

theorem lessValue_int_iff (pave : Pave) (path : String) (w : IntKind) (x y : Extra)
    (hx : ∀ v, pave x path = .ok v → v = .null ∨ ∃ n, v = .int w n)
    (hy : ∀ v, pave y path = .ok v → v = .null ∨ ∃ n, v = .int w n) :
    lessValue (.int w) (valueAt pave path x) (valueAt pave path y) = true ↔
      intAt pave path x < intAt pave path y := by
  have key : ∀ (c : Extra), (∀ v, pave c path = .ok v → v = .null ∨ ∃ n, v = .int w n) →
      (valueAt pave path c = .null ∧ intAt pave path c = 0) ∨
      (valueAt pave path c = .int w (intAt pave path c)) := by
    intro c hc
    cases hp : pave c path with
    | error e => left; simp [valueAt, intAt, hp]
    | ok v =>
      rcases hc v hp with h | ⟨n, h⟩
      · subst h; left; simp [valueAt, intAt, hp]
      · subst h; right; simp [valueAt, intAt, hp]
  rcases key x hx with ⟨h1, h2⟩ | h1 <;> rcases key y hy with ⟨h3, h4⟩ | h3
  · rw [h1, h3, h2, h4]; simp [lessValue, zeroValue]
  · rw [h1, h3, h2]; simp [lessValue, zeroValue]
  · rw [h1, h3, h4]; simp [lessValue, zeroValue]
  · rw [h1, h3]; simp [lessValue]

/-- The sorter on a candidate list whose recorded values are nil or of one
sortable type `T`, some value being present: it succeeds with the candidates
sorted by the recorded values. -/
theorem sortExtrasByFieldPath_uniform (pave : Pave) (extras : List Extra) (path : String)
    (T : GoType) (hpath : path ≠ "") (hT : sortable T = true)
    (hfound : ∀ e ∈ extras, ∀ err, pave e path = .error err → err.IsNotFound = true)
    (htype : ∀ e ∈ extras, (valueAt pave path e).typeOf = none ∨
      (valueAt pave path e).typeOf = some T)
    (hsome : ∃ e ∈ extras, (valueAt pave path e).typeOf = some T) :
    sortExtrasByFieldPath pave extras path = .ok
      ((sortSlice (fun x y => lessValue T x.2 y.2)
        (extras.map (fun e => (e, valueAt pave path e)))).map Prod.fst) := by
  obtain ⟨t2, h1, _, _, h4, _⟩ :=
    collectValues_uniform pave path T extras none (Or.inl rfl) hfound htype
  have ht2 := h4 hsome
  subst ht2
  unfold sortExtrasByFieldPath
  rw [if_neg hpath, h1]
  simp only [hT, if_true]

/-- C6, counterexample: of the two candidates, one has the string `a` at
`metadata.name` and every value present at the path is a string, yet the sorter
fails, because the lookup in the other candidate fails with an error that is not
a not-found error. -/
theorem sortExtrasByFieldPath_sorted_counterexample :
    (∃ e ∈ exampleCandidatesWithScalarParent,
      ∃ s, fieldpathPave e "metadata.name" = .ok (.str s)) ∧
    (∀ e ∈ exampleCandidatesWithScalarParent,
      ∀ v, fieldpathPave e "metadata.name" = .ok v → ∃ s, v = .str s) ∧
    sortExtrasByFieldPath fieldpathPave exampleCandidatesWithScalarParent "metadata.name"
      = .error (.fieldPath (.invalid "not an object")) := by
  refine ⟨⟨_, List.mem_cons_self _ _, "a", rfl⟩, ?_, rfl⟩
  intro e he v hv
  simp only [exampleCandidatesWithScalarParent, List.mem_cons, List.mem_singleton,
    List.not_mem_nil, or_false] at he
  rcases he with h | h
  · subst h
    have h2 : fieldpathPave [("metadata", .object [("name", .str "a")])] "metadata.name"
        = .ok (.str "a") := rfl
    rw [h2] at hv
    exact ⟨"a", (Except.ok.inj hv).symm⟩
  · subst h
    have h2 : fieldpathPave [("metadata", .str "oops")] "metadata.name"
        = .error (.invalid "not an object") := rfl
    rw [h2] at hv
    cases hv

/-- C6, amended: for a non-empty path such that every lookup either finds a
value or reports not-found: when at least one candidate has a string at the
path and every value found is nil or a string, the sorter succeeds and leaves
the candidates in non-decreasing lexicographic order of `stringAt`; when at
least one candidate has a signed integer of width `w` at the path and every
value found is nil or such an integer, it succeeds and leaves them in
non-decreasing order of `intAt`. A candidate without a value counts as the empty
string, respectively zero. -/
theorem sortExtrasByFieldPath_sorted (pave : Pave) (extras : List Extra) (path : String)
    (hpath : path ≠ "")
    (hfound : ∀ e ∈ extras, ∀ err, pave e path = .error err → err.IsNotFound = true) :
    ((∃ e ∈ extras, ∃ s, pave e path = .ok (.str s)) →
      (∀ e ∈ extras, ∀ v, pave e path = .ok v → v = .null ∨ ∃ s, v = .str s) →
      ∃ out, sortExtrasByFieldPath pave extras path = .ok out ∧
        out.Pairwise (fun a b => stringAt pave path a ≤ stringAt pave path b)) ∧
    (∀ w, (∃ e ∈ extras, ∃ n, pave e path = .ok (.int w n)) →
      (∀ e ∈ extras, ∀ v, pave e path = .ok v → v = .null ∨ ∃ n, v = .int w n) →
      ∃ out, sortExtrasByFieldPath pave extras path = .ok out ∧
        out.Pairwise (fun a b => intAt pave path a ≤ intAt pave path b)) := by
  constructor
  · rintro ⟨e0, he0, s0, hs0⟩ hall
    have htype : ∀ e ∈ extras, (valueAt pave path e).typeOf = none ∨
        (valueAt pave path e).typeOf = some .string := by
      intro e he
      cases hp : pave e path with
      | error err => left; simp [valueAt, hp, Value.typeOf]
      | ok v =>
        rcases hall e he v hp with h | ⟨s, h⟩
        · subst h; left; simp [valueAt, hp, Value.typeOf]
        · subst h; right; simp [valueAt, hp, Value.typeOf]
    have hsome : ∃ e ∈ extras, (valueAt pave path e).typeOf = some .string :=
      ⟨e0, he0, by simp [valueAt, hs0, Value.typeOf]⟩
    refine ⟨_, sortExtrasByFieldPath_uniform pave extras path .string hpath rfl hfound
      htype hsome, ?_⟩
    rw [List.pairwise_map]
    apply sortSlice_sorted (fun x : Extra × Value => stringAt pave path x.1)
    intro x hx y hy
    obtain ⟨ex, hex, rfl⟩ := List.mem_map.mp hx
    obtain ⟨ey, hey, rfl⟩ := List.mem_map.mp hy
    exact lessValue_string_iff pave path ex ey (hall ex hex) (hall ey hey)
  · rintro w ⟨e0, he0, n0, hn0⟩ hall
    have htype : ∀ e ∈ extras, (valueAt pave path e).typeOf = none ∨
        (valueAt pave path e).typeOf = some (.int w) := by
      intro e he
      cases hp : pave e path with
      | error err => left; simp [valueAt, hp, Value.typeOf]
      | ok v =>
        rcases hall e he v hp with h | ⟨n, h⟩
        · subst h; left; simp [valueAt, hp, Value.typeOf]
        · subst h; right; simp [valueAt, hp, Value.typeOf]
    have hsome : ∃ e ∈ extras, (valueAt pave path e).typeOf = some (.int w) :=
      ⟨e0, he0, by simp [valueAt, hn0, Value.typeOf]⟩
    refine ⟨_, sortExtrasByFieldPath_uniform pave extras path (.int w) hpath rfl hfound
      htype hsome, ?_⟩
    rw [List.pairwise_map]
    apply sortSlice_sorted (fun x : Extra × Value => intAt pave path x.1)
    intro x hx y hy
    obtain ⟨ex, hex, rfl⟩ := List.mem_map.mp hx
    obtain ⟨ey, hey, rfl⟩ := List.mem_map.mp hy
    exact lessValue_int_iff pave path w ex ey (hall ex hex) (hall ey hey)

/-- C7: whenever the sorter succeeds, the resulting list is a permutation of
the input list: the same candidates with the same multiplicities, unaltered. -/
theorem sortExtrasByFieldPath_perm (pave : Pave) (extras out : List Extra) (path : String)
    (h : sortExtrasByFieldPath pave extras path = .ok out) : out.Perm extras := by
  unfold sortExtrasByFieldPath at h
  by_cases hpath : path = ""
  · rw [if_pos hpath] at h; cases h
  · rw [if_neg hpath] at h
    cases hc : collectValues pave path extras none with
    | error e => rw [hc] at h; cases h
    | ok r =>
      obtain ⟨p, t⟩ := r
      have hfst := collectValues_map_fst pave path extras none t p hc
      rw [hc] at h
      cases t with
      | none =>
        simp only at h
        rw [← Except.ok.inj h]
      | some t =>
        simp only at h
        by_cases hs : sortable t = true
        · rw [if_pos hs] at h
          rw [← Except.ok.inj h, ← hfst]
          exact (sortSlice_perm _ p).map Prod.fst
        · rw [if_neg hs] at h
          by_cases hlen : p.length < 2
          · rw [if_pos hlen] at h
            rw [← Except.ok.inj h, hfst]
          · rw [if_neg hlen] at h; cases h

/-- Witness of C6 (amended): the candidates named `c`, none, `b` are sorted by
name, and the candidates numbered 3, -1, 2 by number. -/
theorem sortExtrasByFieldPath_sorted_witness :
    (∃ out, sortExtrasByFieldPath fieldpathPave exampleNamedCandidates "metadata.name"
        = .ok out ∧
      out.Pairwise (fun a b => stringAt fieldpathPave "metadata.name" a
        ≤ stringAt fieldpathPave "metadata.name" b)) ∧
    (∃ out, sortExtrasByFieldPath fieldpathPave exampleNumberedCandidates "data.someInt"
        = .ok out ∧
      out.Pairwise (fun a b => intAt fieldpathPave "data.someInt" a
        ≤ intAt fieldpathPave "data.someInt" b)) := by
  constructor
  · refine (sortExtrasByFieldPath_sorted fieldpathPave exampleNamedCandidates "metadata.name"
      (by decide) ?_).1 ⟨_, List.mem_cons_self _ _, "c", rfl⟩ ?_
    · intro e he err herr
      simp only [exampleNamedCandidates, List.mem_cons, List.mem_singleton,
        List.not_mem_nil, or_false] at he
      rcases he with h | h | h <;> subst h
      · cases herr
      · cases herr; rfl
      · cases herr
    · intro e he v hv
      simp only [exampleNamedCandidates, List.mem_cons, List.mem_singleton,
        List.not_mem_nil, or_false] at he
      rcases he with h | h | h <;> subst h
      · cases hv; exact Or.inr ⟨_, rfl⟩
      · cases hv
      · cases hv; exact Or.inr ⟨_, rfl⟩
  · refine (sortExtrasByFieldPath_sorted fieldpathPave exampleNumberedCandidates
      "data.someInt" (by decide) ?_).2 .int ⟨_, List.mem_cons_self _ _, 3, rfl⟩ ?_
    · intro e he err herr
      simp only [exampleNumberedCandidates, List.mem_cons, List.mem_singleton,
        List.not_mem_nil, or_false] at he
      rcases he with h | h | h <;> subst h <;> cases herr
    · intro e he v hv
      simp only [exampleNumberedCandidates, List.mem_cons, List.mem_singleton,
        List.not_mem_nil, or_false] at he
      rcases he with h | h | h <;> subst h <;> cases hv <;> exact Or.inr ⟨_, rfl⟩

/-- Witness of C7: sorting the candidates named `c`, none, `b` permutes them. -/
theorem sortExtrasByFieldPath_perm_witness :
    List.Perm
      [[("metadata", Value.object [("invalid", .str "a")])],
       [("metadata", .object [("name", .str "b")])],
       [("metadata", .object [("name", .str "c")])]]
      exampleNamedCandidates :=
  sortExtrasByFieldPath_perm fieldpathPave exampleNamedCandidates _ "metadata.name" rfl

/-! ## Claims on the source resolver -/

/-- C8: for a reference source (its `ref` set) with no candidates,
`processSourceByReference` succeeds with no document when the policy's
resolution is `Optional`, and fails with the not-found error naming the
reference when the policy is absent, has no resolution, or is `Required`. -/
theorem processSourceByReference_no_candidates (inp : Input) (config : EnvironmentSource)
    (ref : EnvironmentSourceReference) (href : config.Ref = some ref) :
    ((∃ p, inp.Spec.Policy = some p ∧ p.Resolution = some ResolutionPolicyOptional) →
      processSourceByReference inp config [] = .ok none) ∧
    ((inp.Spec.Policy = none ∨ ∃ p, inp.Spec.Policy = some p ∧
        (p.Resolution = none ∨ p.Resolution = some ResolutionPolicyRequired)) →
      processSourceByReference inp config [] = .error (.requiredNotFound ref.Name)) := by
  constructor
  · rintro ⟨p, hp, hr⟩
    simp [processSourceByReference, href, hp, IsResolutionPolicyOptional, hr]
  · rintro (hp | ⟨p, hp, hr | hr⟩)
    · simp [processSourceByReference, href, hp, IsResolutionPolicyOptional]
    · simp [processSourceByReference, href, hp, IsResolutionPolicyOptional, hr]
    · simp [processSourceByReference, href, hp, IsResolutionPolicyOptional, hr,
        ResolutionPolicyRequired, ResolutionPolicyOptional]

/-- Witness of C8: the reference `my-env-config` without candidates, under the
policy `Optional` and under no policy. -/
theorem processSourceByReference_no_candidates_witness :
    processSourceByReference ⟨⟨none, none, some ⟨some "Optional"⟩, none⟩⟩
        ⟨"Reference", some ⟨"my-env-config"⟩, none⟩ [] = .ok none ∧
    processSourceByReference ⟨⟨none, none, none, none⟩⟩
        ⟨"Reference", some ⟨"my-env-config"⟩, none⟩ []
      = .error (.requiredNotFound "my-env-config") :=
  ⟨(processSourceByReference_no_candidates ⟨⟨none, none, some ⟨some "Optional"⟩, none⟩⟩
      ⟨"Reference", some ⟨"my-env-config"⟩, none⟩ ⟨"my-env-config"⟩ rfl).1
      ⟨⟨some "Optional"⟩, rfl, rfl⟩,
   (processSourceByReference_no_candidates ⟨⟨none, none, none, none⟩⟩
      ⟨"Reference", some ⟨"my-env-config"⟩, none⟩ ⟨"my-env-config"⟩ rfl).2 (Or.inl rfl)⟩

/-- C9: for a reference source (its `ref` set), whatever the input and its
policy: one candidate is returned as the sole contribution, and two or more
candidates make `processSourceByReference` fail with the error naming the
reference and the count. -/
theorem processSourceByReference_candidates (inp : Input) (config : EnvironmentSource)
    (ref : EnvironmentSourceReference) (href : config.Ref = some ref) :
    (∀ r, processSourceByReference inp config [r] = .ok (some r)) ∧
    (∀ r1 r2 rest, processSourceByReference inp config (r1 :: r2 :: rest)
      = .error (.expectedExactlyOneNamed ref.Name (rest.length + 2))) := by
  constructor
  · intro r
    simp [processSourceByReference, href]
  · intro r1 r2 rest
    simp [processSourceByReference, href]

/-- Witness of C9: one candidate is returned, two are refused, under the policy
`Optional`. -/
theorem processSourceByReference_candidates_witness :
    processSourceByReference ⟨⟨none, none, some ⟨some "Optional"⟩, none⟩⟩
        ⟨"Reference", some ⟨"my-env-config"⟩, none⟩ [exampleEnvConfig]
      = .ok (some exampleEnvConfig) ∧
    processSourceByReference ⟨⟨none, none, some ⟨some "Optional"⟩, none⟩⟩
        ⟨"Reference", some ⟨"my-env-config"⟩, none⟩ [exampleEnvConfig, untypedKindEnvConfig]
      = .error (.expectedExactlyOneNamed "my-env-config" 2) :=
  ⟨(processSourceByReference_candidates ⟨⟨none, none, some ⟨some "Optional"⟩, none⟩⟩
      ⟨"Reference", some ⟨"my-env-config"⟩, none⟩ ⟨"my-env-config"⟩ rfl).1 exampleEnvConfig,
   (processSourceByReference_candidates ⟨⟨none, none, some ⟨some "Optional"⟩, none⟩⟩
      ⟨"Reference", some ⟨"my-env-config"⟩, none⟩ ⟨"my-env-config"⟩ rfl).2
      exampleEnvConfig untypedKindEnvConfig []⟩

/-- C10: for a selector source in `Single` mode (`GetMode` yields `Single`, as
it does for an empty mode), `processEnvironmentSource` succeeds if and only if
exactly one candidate is supplied; it then returns exactly that candidate, and
with any other count it fails. -/
theorem processEnvironmentSource_single (pave : Pave) (config : EnvironmentSource)
    (resources : List Extra)
    (hmode : GetMode config.Selector = EnvironmentSourceSelectorSingleMode) :
    ((∃ out, processEnvironmentSource pave config resources = .ok out) ↔
      resources.length = 1) ∧
    (∀ r, resources = [r] → processEnvironmentSource pave config resources = .ok [r]) ∧
    (resources.length ≠ 1 → processEnvironmentSource pave config resources
      = .error (.expectedExactlyOne resources.length)) := by
  have hone : ∀ r, resources = [r] →
      processEnvironmentSource pave config resources = .ok [r] := by
    intro r hr
    subst hr
    simp [processEnvironmentSource, hmode]
  have hother : resources.length ≠ 1 → processEnvironmentSource pave config resources
      = .error (.expectedExactlyOne resources.length) := by
    intro hlen
    unfold processEnvironmentSource
    simp only [hmode, if_true]
    match resources, hlen with
    | [], _ => rfl
    | [r], h => exact absurd rfl h
    | _ :: _ :: _, _ => rfl
  refine ⟨⟨?_, ?_⟩, hone, hother⟩
  · rintro ⟨out, hout⟩
    by_contra hlen
    rw [hother hlen] at hout
    cases hout
  · intro hlen
    match resources, hlen with
    | [r], _ => exact ⟨[r], hone r rfl⟩

/-- Witness of C10: a selector with the mode left empty, given one candidate and
given none. -/
theorem processEnvironmentSource_single_witness :
    processEnvironmentSource fieldpathPave
        ⟨"Selector", none, some ⟨"", none, none, "", []⟩⟩ [exampleEnvConfig]
      = .ok [exampleEnvConfig] ∧
    processEnvironmentSource fieldpathPave
        ⟨"Selector", none, some ⟨"", none, none, "", []⟩⟩ []
      = .error (.expectedExactlyOne 0) :=
  ⟨(processEnvironmentSource_single fieldpathPave
      ⟨"Selector", none, some ⟨"", none, none, "", []⟩⟩ [exampleEnvConfig] rfl).2.1
      exampleEnvConfig rfl,
   (processEnvironmentSource_single fieldpathPave
      ⟨"Selector", none, some ⟨"", none, none, "", []⟩⟩ [] rfl).2.2 (by decide)⟩

/-! ## Claims on the errors and the untouched path of the sorter -/

/-- When the first loop succeeds, every lookup found a value or reported
not-found, and every value found is nil or of the settled type. -/
theorem collectValues_ok_types (pave : Pave) (path : String) (extras : List Extra)
    (t t2 : Option GoType) (p : List (Extra × Value))
    (h : collectValues pave path extras t = .ok (p, t2)) :
    (∀ t0, t = some t0 → t2 = some t0) ∧
    (∀ e ∈ extras, ∀ v vt, pave e path = .ok v → v.typeOf = some vt → t2 = some vt) := by
  induction extras generalizing t p with
  | nil =>
    simp only [collectValues] at h
    cases h
    exact ⟨fun _ h => h, fun e he => absurd he (List.not_mem_nil _)⟩
  | cons e rest ih =>
    -- the loop goes on with type `t1`, which the head agrees with
    have step : ∀ (v : Value) (t1 : Option GoType),
        (∀ t0, t = some t0 → t1 = some t0) →
        (∀ w vt, pave e path = .ok w → w.typeOf = some vt → t1 = some vt) →
        (collectValues pave path rest t1).map (fun r => ((e, v) :: r.1, r.2)) = .ok (p, t2) →
        (∀ t0, t = some t0 → t2 = some t0) ∧
        (∀ c ∈ e :: rest, ∀ w vt, pave c path = .ok w → w.typeOf = some vt →
          t2 = some vt) := by
      intro v t1 ht1 hhead hm
      obtain ⟨r, hr, hf⟩ := except_map_eq_ok _ _ _ hm
      obtain ⟨r1, r2⟩ := r
      simp only [Prod.mk.injEq] at hf
      obtain ⟨_, ht⟩ := hf
      subst ht
      obtain ⟨ih1, ih2⟩ := ih _ _ hr
      refine ⟨fun t0 h0 => ih1 t0 (ht1 t0 h0), ?_⟩
      intro c hc w vt hw hvt
      rcases List.mem_cons.mp hc with hce | hcr
      · subst hce
        exact ih1 vt (hhead w vt hw hvt)
      · exact ih2 c hcr w vt hw hvt
    unfold collectValues at h
    cases hp : pave e path with
    | error err =>
      simp only [hp] at h
      by_cases hnf : err.IsNotFound = true
      · rw [if_pos hnf] at h
        exact step _ t (fun _ h0 => h0) (fun w vt hw _ => by rw [hp] at hw; cases hw) h
      · rw [if_neg hnf] at h; cases h
    | ok val =>
      simp only [hp] at h
      cases hty : val.typeOf with
      | none =>
        simp only [hty] at h
        refine step _ t (fun _ h0 => h0) ?_ h
        intro w vt hw hvt
        rw [hp] at hw
        cases hw
        rw [hty] at hvt
        cases hvt
      | some vt =>
        simp only [hty] at h
        cases t with
        | none =>
          refine step _ (some vt) (fun _ h0 => by cases h0) ?_ h
          intro w vt2 hw hvt
          rw [hp] at hw
          cases hw
          rw [hty] at hvt
          exact hvt
        | some t0 =>
          simp only at h
          by_cases heq : t0 = vt
          · rw [if_pos heq] at h
            subst heq
            refine step _ (some t0) (fun _ h0 => h0) ?_ h
            intro w vt2 hw hvt
            rw [hp] at hw
            cases hw
            rw [hty] at hvt
            exact hvt
          · rw [if_neg heq] at h; cases h

/-- An error of the first loop is a lookup error that is not a not-found
error, or a type mismatch. -/
theorem collectValues_error (pave : Pave) (path : String) (extras : List Extra)
    (t : Option GoType) (err : Error)
    (h : collectValues pave path extras t = .error err) :
    (∃ c ∈ extras, ∃ fe, pave c path = .error fe ∧ fe.IsNotFound = false ∧
      err = .fieldPath fe) ∨
    (∃ t0 vt, t0 ≠ vt ∧ err = .differentTypes t0 vt) := by
  induction extras generalizing t with
  | nil => simp only [collectValues] at h; cases h
  | cons e rest ih =>
    have step : ∀ (v : Value) (t1 : Option GoType),
        (collectValues pave path rest t1).map (fun r => ((e, v) :: r.1, r.2)) = .error err →
        (∃ c ∈ e :: rest, ∃ fe, pave c path = .error fe ∧ fe.IsNotFound = false ∧
          err = .fieldPath fe) ∨
        (∃ t0 vt, t0 ≠ vt ∧ err = .differentTypes t0 vt) := by
      intro v t1 hm
      cases hr : collectValues pave path rest t1 with
      | ok r => rw [hr] at hm; cases hm
      | error e2 =>
        rw [hr] at hm
        have : e2 = err := Except.error.inj hm
        subst this
        rcases ih _ hr with ⟨c, hc, fe, h1, h2, h3⟩ | h2
        · exact Or.inl ⟨c, List.mem_cons_of_mem _ hc, fe, h1, h2, h3⟩
        · exact Or.inr h2
    unfold collectValues at h
    cases hp : pave e path with
    | error fe =>
      simp only [hp] at h
      by_cases hnf : fe.IsNotFound = true
      · rw [if_pos hnf] at h; exact step _ _ h
      · rw [if_neg hnf] at h
        left
        refine ⟨e, List.mem_cons_self _ _, fe, hp, by simpa using hnf, ?_⟩
        exact (Except.error.inj h).symm
    | ok val =>
      simp only [hp] at h
      cases hty : val.typeOf with
      | none => simp only [hty] at h; exact step _ _ h
      | some vt =>
        simp only [hty] at h
        cases t with
        | none => exact step _ _ h
        | some t0 =>
          simp only at h
          by_cases heq : t0 = vt
          · rw [if_pos heq] at h; exact step _ _ h
          · rw [if_neg heq] at h
            exact Or.inr ⟨t0, vt, heq, (Except.error.inj h).symm⟩

/-- C18, counterexample: the second and third candidates hold a string and an
`int` at `metadata.name`, yet the error of the sorter is the lookup error of
the first candidate, not a type-mismatch error. -/
theorem sortExtrasByFieldPath_mismatch_counterexample :
    (∃ c1 ∈ exampleMixedCandidatesAfterScalarParent,
      ∃ c2 ∈ exampleMixedCandidatesAfterScalarParent,
      fieldpathPave c1 "metadata.name" = .ok (.str "a") ∧
      fieldpathPave c2 "metadata.name" = .ok (.int .int 1) ∧
      (Value.str "a").typeOf ≠ (Value.int .int 1).typeOf) ∧
    sortExtrasByFieldPath fieldpathPave exampleMixedCandidatesAfterScalarParent
      "metadata.name" = .error (.fieldPath (.invalid "not an object")) ∧
    ∀ t vt, sortExtrasByFieldPath fieldpathPave exampleMixedCandidatesAfterScalarParent
      "metadata.name" ≠ .error (.differentTypes t vt) := by
  refine ⟨⟨[("metadata", .object [("name", .str "a")])], ?_,
    [("metadata", .object [("name", .int .int 1)])], ?_, rfl, rfl, ?_⟩, rfl, ?_⟩
  · simp [exampleMixedCandidatesAfterScalarParent]
  · simp [exampleMixedCandidatesAfterScalarParent]
  · simp [Value.typeOf]
  · intro t vt h
    have h2 : sortExtrasByFieldPath fieldpathPave exampleMixedCandidatesAfterScalarParent
        "metadata.name" = .error (.fieldPath (.invalid "not an object")) := rfl
    rw [h2] at h
    cases h

/-- C18, amended: for a non-empty path, when two candidates hold present values
of differing types at the path, the sorter fails, wherever the two candidates
stand in the list; the error is a type-mismatch error provided no candidate's
lookup fails with an error other than not-found. -/
theorem sortExtrasByFieldPath_mismatch (pave : Pave) (extras : List Extra) (path : String)
    (hpath : path ≠ "") (c1 c2 : Extra) (v1 v2 : Value) (t1 t2 : GoType)
    (h1 : c1 ∈ extras) (h2 : c2 ∈ extras)
    (hv1 : pave c1 path = .ok v1) (hv2 : pave c2 path = .ok v2)
    (ht1 : v1.typeOf = some t1) (ht2 : v2.typeOf = some t2) (hne : t1 ≠ t2) :
    (∃ err, sortExtrasByFieldPath pave extras path = .error err) ∧
    ((∀ e ∈ extras, ∀ fe, pave e path = .error fe → fe.IsNotFound = true) →
      ∃ t vt, t ≠ vt ∧
        sortExtrasByFieldPath pave extras path = .error (.differentTypes t vt)) := by
  cases hc : collectValues pave path extras none with
  | ok r =>
    obtain ⟨p, t⟩ := r
    obtain ⟨_, htypes⟩ := collectValues_ok_types pave path extras none t p hc
    have e1 := htypes c1 h1 v1 t1 hv1 ht1
    have e2 := htypes c2 h2 v2 t2 hv2 ht2
    rw [e1] at e2
    exact absurd (Option.some.inj e2) hne
  | error err =>
    have hs : sortExtrasByFieldPath pave extras path = .error err := by
      unfold sortExtrasByFieldPath
      rw [if_neg hpath, hc]
    refine ⟨⟨err, hs⟩, ?_⟩
    intro hfound
    rcases collectValues_error pave path extras none err hc with
      ⟨c, hcm, fe, hfe, hnf, _⟩ | ⟨t, vt, htv, herr⟩
    · rw [hfound c hcm fe hfe] at hnf
      cases hnf
    · exact ⟨t, vt, htv, by rw [hs, herr]⟩

/-- Witness of C18 (amended): two `int`s and a string at `data.someInt`. -/
theorem sortExtrasByFieldPath_mismatch_witness :
    ∃ t vt, t ≠ vt ∧
      sortExtrasByFieldPath fieldpathPave exampleMixedCandidates "data.someInt"
        = .error (.differentTypes t vt) :=
  (sortExtrasByFieldPath_mismatch fieldpathPave exampleMixedCandidates "data.someInt"
    (by decide) [("data", .object [("someInt", .int .int 1)])]
    [("data", .object [("someInt", .str "2")])] (.int .int 1) (.str "2") (.int .int) .string
    (by simp [exampleMixedCandidates]) (by simp [exampleMixedCandidates]) rfl rfl rfl rfl
    (by decide)).2
    (by
      intro e he fe hfe
      simp only [exampleMixedCandidates, List.mem_cons, List.mem_singleton,
        List.not_mem_nil, or_false] at he
      rcases he with h | h | h <;> subst h <;> cases hfe)

/-- C19: with the empty path the sorter fails, for every candidate list, the
empty list and one-element lists included. -/
theorem sortExtrasByFieldPath_empty_path (pave : Pave) (extras : List Extra) :
    sortExtrasByFieldPath pave extras "" = .error .emptyFieldPath := by
  simp [sortExtrasByFieldPath]

/-- C20: for a non-empty path that no candidate has a value at (each lookup
reports not-found, or finds nil), the sorter succeeds and returns the list in
its input order. -/
theorem sortExtrasByFieldPath_absent (pave : Pave) (extras : List Extra) (path : String)
    (hpath : path ≠ "")
    (habs : ∀ e ∈ extras, pave e path = .ok .null ∨
      ∃ err, pave e path = .error err ∧ err.IsNotFound = true) :
    sortExtrasByFieldPath pave extras path = .ok extras := by
  have hval : ∀ e ∈ extras, (valueAt pave path e).typeOf = none := by
    intro e he
    rcases habs e he with h | ⟨err, h, _⟩ <;> simp [valueAt, h, Value.typeOf]
  have hfound : ∀ e ∈ extras, ∀ err, pave e path = .error err → err.IsNotFound = true := by
    intro e he err herr
    rcases habs e he with h | ⟨err2, h, hnf⟩
    · rw [h] at herr; cases herr
    · rw [h] at herr; cases herr; exact hnf
  obtain ⟨t2, h1, _, _, _, h5⟩ := collectValues_uniform pave path .string extras none
    (Or.inl rfl) hfound (fun e he => Or.inl (hval e he))
  have ht2 := h5 hval
  subst ht2
  unfold sortExtrasByFieldPath
  rw [if_neg hpath, h1]

/-- Witness of C20: none of the three candidates has `metadata.missing`. -/
theorem sortExtrasByFieldPath_absent_witness :
    sortExtrasByFieldPath fieldpathPave exampleNamedCandidates "metadata.missing"
      = .ok exampleNamedCandidates :=
  sortExtrasByFieldPath_absent fieldpathPave exampleNamedCandidates "metadata.missing"
    (by decide)
    (by
      intro e he
      simp only [exampleNamedCandidates, List.mem_cons, List.mem_singleton,
        List.not_mem_nil, or_false] at he
      rcases he with h | h | h <;> subst h <;> exact Or.inr ⟨_, rfl, rfl⟩)

/-! ## Claims on selector sources in Multiple mode -/

/-- A successful sort returns a reordering of its input. -/
theorem sortExtrasByFieldPath_reorders (pave : Pave) (extras out : List Extra)
    (path : String) (h : sortExtrasByFieldPath pave extras path = .ok out) :
    out.Perm extras := by
  unfold sortExtrasByFieldPath at h
  by_cases hpath : path = ""
  · rw [if_pos hpath] at h; cases h
  · rw [if_neg hpath] at h
    cases hc : collectValues pave path extras none with
    | error e => rw [hc] at h; cases h
    | ok r =>
      obtain ⟨p, t⟩ := r
      have hfst := collectValues_map_fst pave path extras none t p hc
      rw [hc] at h
      cases t with
      | none =>
        simp only at h
        rw [← Except.ok.inj h]
      | some t =>
        simp only at h
        by_cases hs : sortable t = true
        · rw [if_pos hs] at h
          rw [← Except.ok.inj h, ← hfst]
          exact (sortSlice_perm _ p).map Prod.fst
        · rw [if_neg hs] at h
          by_cases hlen : p.length < 2
          · rw [if_pos hlen] at h
            rw [← Except.ok.inj h, hfst]
          · rw [if_neg hlen] at h; cases h

/-- The errors of the sorter: empty path, lookup error, type mismatch,
unsupported type. -/
theorem sortExtrasByFieldPath_error_kind (pave : Pave) (extras : List Extra)
    (path : String) (err : Error) (h : sortExtrasByFieldPath pave extras path = .error err) :
    err = .emptyFieldPath ∨ (∃ fe, err = .fieldPath fe) ∨
      (∃ t vt, err = .differentTypes t vt) ∨ (∃ t, err = .unsupportedType t) := by
  unfold sortExtrasByFieldPath at h
  by_cases hpath : path = ""
  · rw [if_pos hpath] at h
    exact Or.inl (Except.error.inj h).symm
  · rw [if_neg hpath] at h
    cases hc : collectValues pave path extras none with
    | error e =>
      rw [hc] at h
      have he : e = err := Except.error.inj h
      subst he
      rcases collectValues_error pave path extras none e hc with
        ⟨_, _, fe, _, _, hfe⟩ | ⟨t, vt, _, htv⟩
      · exact Or.inr (Or.inl ⟨fe, hfe⟩)
      · exact Or.inr (Or.inr (Or.inl ⟨t, vt, htv⟩))
    | ok r =>
      obtain ⟨p, t⟩ := r
      rw [hc] at h
      cases t with
      | none => simp only at h; cases h
      | some t =>
        simp only at h
        by_cases hs : sortable t = true
        · rw [if_pos hs] at h; cases h
        · rw [if_neg hs] at h
          by_cases hlen : p.length < 2
          · rw [if_pos hlen] at h; cases h
          · rw [if_neg hlen] at h
            exact Or.inr (Or.inr (Or.inr ⟨t, (Except.error.inj h).symm⟩))

/-- Multiple mode: the `minMatch` check, then the sort and the truncation. -/
theorem processEnvironmentSource_multiple (pave : Pave) (config : EnvironmentSource)
    (sel : EnvironmentSourceSelector) (resources : List Extra)
    (hsel : config.Selector = some sel)
    (hmode : sel.Mode = EnvironmentSourceSelectorMultiMode) :
    processEnvironmentSource pave config resources =
      match sel.MinMatch with
      | some m =>
        if resources.length < m then .error (.expectedAtLeast m resources.length)
        else sortAndTruncate pave config.Selector sel.MaxMatch resources
      | none => sortAndTruncate pave config.Selector sel.MaxMatch resources := by
  have hm : GetMode (some sel) = EnvironmentSourceSelectorMultiMode := by
    simp [GetMode, hmode, EnvironmentSourceSelectorMultiMode]
  have hne : ¬ EnvironmentSourceSelectorMultiMode = EnvironmentSourceSelectorSingleMode := by
    decide
  unfold processEnvironmentSource sortAndTruncate
  simp only [hsel, hm, hne, if_true, if_false]

theorem sortAndTruncate_not_expectedAtLeast (pave : Pave)
    (selector : Option EnvironmentSourceSelector) (maxMatch : Option Nat)
    (resources : List Extra) (m n : Nat) :
    sortAndTruncate pave selector maxMatch resources ≠ .error (.expectedAtLeast m n) := by
  intro h
  unfold sortAndTruncate at h
  cases hs : sortExtrasByFieldPath pave resources (GetSortByFieldPath selector) with
  | error e =>
    rw [hs] at h
    have he : e = .expectedAtLeast m n := Except.error.inj h
    subst he
    rcases sortExtrasByFieldPath_error_kind pave resources _ _ hs with
      h1 | ⟨_, h1⟩ | ⟨_, _, h1⟩ | ⟨_, h1⟩ <;> cases h1
  | ok sorted =>
    rw [hs] at h
    cases maxMatch with
    | none => cases h
    | some M =>
      simp only at h
      split at h <;> cases h

theorem sortAndTruncate_of_sorted (pave : Pave)
    (selector : Option EnvironmentSourceSelector) (maxMatch : Option Nat)
    (resources sorted : List Extra)
    (hs : sortExtrasByFieldPath pave resources (GetSortByFieldPath selector) = .ok sorted) :
    sortAndTruncate pave selector maxMatch resources =
      .ok (match maxMatch with
        | some M => sorted.take (min resources.length M)
        | none => sorted) := by
  have hlen : sorted.length = resources.length :=
    (sortExtrasByFieldPath_reorders pave resources sorted _ hs).length_eq
  unfold sortAndTruncate
  rw [hs]
  cases maxMatch with
  | none => rfl
  | some M =>
    simp only
    by_cases hgt : sorted.length > M
    · rw [if_pos hgt]
      rw [hlen] at hgt
      rw [Nat.min_eq_right (Nat.le_of_lt hgt)]
    · rw [if_neg hgt]
      rw [hlen] at hgt
      rw [Nat.min_eq_left (Nat.not_lt.mp hgt), ← hlen, List.take_length]

/-- C11: for a selector source in Multiple mode: with `minMatch = m` set and
fewer than `m` candidates, `processEnvironmentSource` fails with the `minMatch`
error, whatever the accessor, the sort path and `maxMatch` are (no sort result
is consulted); with `minMatch` unset or at most the number of candidates, the
result is that of the sort and truncation, and is never the `minMatch` error. -/
theorem processEnvironmentSource_minMatch (pave : Pave) (config : EnvironmentSource)
    (sel : EnvironmentSourceSelector) (resources : List Extra)
    (hsel : config.Selector = some sel)
    (hmode : sel.Mode = EnvironmentSourceSelectorMultiMode) :
    (∀ m, sel.MinMatch = some m → resources.length < m →
      processEnvironmentSource pave config resources
        = .error (.expectedAtLeast m resources.length)) ∧
    ((sel.MinMatch = none ∨ ∃ m, sel.MinMatch = some m ∧ m ≤ resources.length) →
      processEnvironmentSource pave config resources
        = sortAndTruncate pave config.Selector sel.MaxMatch resources ∧
      ∀ m2 n2, processEnvironmentSource pave config resources
        ≠ .error (.expectedAtLeast m2 n2)) := by
  have hmulti := processEnvironmentSource_multiple pave config sel resources hsel hmode
  constructor
  · intro m hm hlt
    rw [hmulti, hm]
    simp only [hlt, if_true]
  · intro hmin
    have heq : processEnvironmentSource pave config resources
        = sortAndTruncate pave config.Selector sel.MaxMatch resources := by
      rw [hmulti]
      rcases hmin with h | ⟨m, h, hle⟩
      · rw [h]
      · rw [h]
        simp only [Nat.not_lt.mpr hle, if_false]
    refine ⟨heq, ?_⟩
    intro m2 n2
    rw [heq]
    exact sortAndTruncate_not_expectedAtLeast pave _ _ resources m2 n2

/-- Witness of C11: `minMatch` 2 with one candidate fails; with three
candidates the check passes. -/
theorem processEnvironmentSource_minMatch_witness :
    processEnvironmentSource fieldpathPave exampleMultipleSource [exampleEnvConfig]
      = .error (.expectedAtLeast 2 1) ∧
    processEnvironmentSource fieldpathPave exampleMultipleSource exampleNamedCandidates
      = sortAndTruncate fieldpathPave exampleMultipleSource.Selector (some 2)
          exampleNamedCandidates :=
  ⟨(processEnvironmentSource_minMatch fieldpathPave exampleMultipleSource
      ⟨"Multiple", some 2, some 2, "", []⟩ [exampleEnvConfig] rfl rfl).1 2 rfl (by decide),
   ((processEnvironmentSource_minMatch fieldpathPave exampleMultipleSource
      ⟨"Multiple", some 2, some 2, "", []⟩ exampleNamedCandidates rfl rfl).2
      (Or.inr ⟨2, rfl, by decide⟩)).1⟩

/-- C12: for a selector source in Multiple mode whose `minMatch` check passes
and whose sort succeeds with the list `sorted` of the `n` candidates: with
`maxMatch = M` set the source contributes the first `min(n, M)` entries of
`sorted`, in that order; with `maxMatch` unset it contributes `sorted`; with
`maxMatch = 1` it contributes the first entry of `sorted` only. -/
theorem processEnvironmentSource_maxMatch (pave : Pave) (config : EnvironmentSource)
    (sel : EnvironmentSourceSelector) (resources sorted : List Extra)
    (hsel : config.Selector = some sel)
    (hmode : sel.Mode = EnvironmentSourceSelectorMultiMode)
    (hmin : sel.MinMatch = none ∨ ∃ m, sel.MinMatch = some m ∧ m ≤ resources.length)
    (hsort : sortExtrasByFieldPath pave resources (GetSortByFieldPath config.Selector)
      = .ok sorted) :
    sorted.length = resources.length ∧
    (∀ M, sel.MaxMatch = some M →
      processEnvironmentSource pave config resources
        = .ok (sorted.take (min resources.length M))) ∧
    (sel.MaxMatch = none → processEnvironmentSource pave config resources = .ok sorted) ∧
    (sel.MaxMatch = some 1 →
      processEnvironmentSource pave config resources = .ok (sorted.take 1)) := by
  have hlen : sorted.length = resources.length :=
    (sortExtrasByFieldPath_reorders pave resources sorted _ hsort).length_eq
  have heq : processEnvironmentSource pave config resources
      = sortAndTruncate pave config.Selector sel.MaxMatch resources := by
    rw [processEnvironmentSource_multiple pave config sel resources hsel hmode]
    rcases hmin with h | ⟨m, h, hle⟩
    · rw [h]
    · rw [h]
      simp only [Nat.not_lt.mpr hle, if_false]
  rw [heq, sortAndTruncate_of_sorted pave _ _ resources sorted hsort]
  refine ⟨hlen, ?_, ?_, ?_⟩
  · intro M hM
    rw [hM]
  · intro hM
    rw [hM]
  · intro hM
    rw [hM]
    simp only
    cases sorted with
    | nil => simp
    | cons x xs =>
      have : 1 ≤ resources.length := by rw [← hlen]; simp
      rw [Nat.min_eq_right this]

/-- Witness of C12: of the candidates named `c`, none, `b`, with `maxMatch` 2
the two that sort first contribute. -/
theorem processEnvironmentSource_maxMatch_witness :
    processEnvironmentSource fieldpathPave exampleMultipleSource exampleNamedCandidates
      = .ok [[("metadata", .object [("invalid", .str "a")])],
             [("metadata", .object [("name", .str "b")])]] :=
  (processEnvironmentSource_maxMatch fieldpathPave exampleMultipleSource
    ⟨"Multiple", some 2, some 2, "", []⟩ exampleNamedCandidates
    [[("metadata", .object [("invalid", .str "a")])],
     [("metadata", .object [("name", .str "b")])],
     [("metadata", .object [("name", .str "c")])]]
    rfl rfl (Or.inr ⟨2, rfl, by decide⟩) rfl).2.1 2 rfl

/-- C13, counterexample: with `minMatch` 3 and `maxMatch` 1, three candidates
pass the check and the source yields one document. -/
theorem processEnvironmentSource_yield_counterexample :
    GetMode exampleMinAboveMaxSource.Selector = EnvironmentSourceSelectorMultiMode ∧
    (exampleMinAboveMaxSource.Selector.bind (fun s => s.MinMatch)) = some 3 ∧
    processEnvironmentSource fieldpathPave exampleMinAboveMaxSource exampleNamedCandidates
      = .ok [[("metadata", .object [("invalid", .str "a")])]] ∧
    [[("metadata", Value.object [("invalid", .str "a")])]].length < 3 :=
  ⟨rfl, rfl, rfl, by decide⟩

/-- C13, amended: for a selector source in Multiple mode with `minMatch = m`
set, either `processEnvironmentSource` fails, or at least `m` candidates were
supplied and the source yields all of them when `maxMatch` is unset and
`min(n, M)` of them when `maxMatch = M`; so it yields at least `m` documents
whenever `maxMatch` is unset or at least `m`. -/
theorem processEnvironmentSource_yield (pave : Pave) (config : EnvironmentSource)
    (sel : EnvironmentSourceSelector) (resources out : List Extra) (m : Nat)
    (hsel : config.Selector = some sel)
    (hmode : sel.Mode = EnvironmentSourceSelectorMultiMode)
    (hmin : sel.MinMatch = some m)
    (hout : processEnvironmentSource pave config resources = .ok out) :
    m ≤ resources.length ∧
    (sel.MaxMatch = none → out.length = resources.length) ∧
    (∀ M, sel.MaxMatch = some M → out.length = min resources.length M) ∧
    ((sel.MaxMatch = none ∨ ∃ M, sel.MaxMatch = some M ∧ m ≤ M) → m ≤ out.length) := by
  rw [processEnvironmentSource_multiple pave config sel resources hsel hmode, hmin] at hout
  simp only at hout
  by_cases hlt : resources.length < m
  · rw [if_pos hlt] at hout; cases hout
  · rw [if_neg hlt] at hout
    have hle : m ≤ resources.length := Nat.not_lt.mp hlt
    cases hs : sortExtrasByFieldPath pave resources (GetSortByFieldPath config.Selector) with
    | error e =>
      unfold sortAndTruncate at hout
      rw [hs] at hout
      cases hout
    | ok sorted =>
      have hlen : sorted.length = resources.length :=
        (sortExtrasByFieldPath_reorders pave resources sorted _ hs).length_eq
      rw [sortAndTruncate_of_sorted pave _ _ resources sorted hs] at hout
      have ho := Except.ok.inj hout
      have hnone : sel.MaxMatch = none → out.length = resources.length := by
        intro hM
        rw [hM] at ho
        rw [← ho, hlen]
      have hsome : ∀ M, sel.MaxMatch = some M → out.length = min resources.length M := by
        intro M hM
        rw [hM] at ho
        rw [← ho, List.length_take, hlen]
        simp [Nat.min_comm]
      refine ⟨hle, hnone, hsome, ?_⟩
      rintro (hM | ⟨M, hM, hmM⟩)
      · rw [hnone hM]; exact hle
      · rw [hsome M hM]; exact Nat.le_min.mpr ⟨hle, hmM⟩

/-- Witness of C13 (amended): with `minMatch` 2 and `maxMatch` 2, the source
yields two of the three candidates. -/
theorem processEnvironmentSource_yield_witness :
    2 ≤ [[("metadata", Value.object [("invalid", .str "a")])],
         [("metadata", Value.object [("name", .str "b")])]].length :=
  (processEnvironmentSource_yield fieldpathPave exampleMultipleSource
    ⟨"Multiple", some 2, some 2, "", []⟩ exampleNamedCandidates
    [[("metadata", .object [("invalid", .str "a")])],
     [("metadata", .object [("name", .str "b")])]] 2
    rfl rfl rfl rfl).2.2.2 (Or.inr ⟨2, rfl, by decide⟩)

/-! ## Names of the requirements -/

/-- A decimal digit is read back from its character. -/
theorem digitChar_toNat (d : Nat) (h : d < 10) : (Nat.digitChar d).toNat - 48 = d := by
  interval_cases d <;> rfl

theorem foldl_toDigitsCore (fuel n : Nat) (ds : List Char) (h : n < fuel) :
    (Nat.toDigitsCore 10 fuel n ds).foldl (fun a c => 10 * a + (c.toNat - 48)) 0
      = ds.foldl (fun a c => 10 * a + (c.toNat - 48)) n := by
  induction fuel generalizing n ds with
  | zero => exact absurd h (Nat.not_lt_zero _)
  | succ fuel ih =>
    unfold Nat.toDigitsCore
    simp only
    have hd : (Nat.digitChar (n % 10)).toNat - 48 = n % 10 :=
      digitChar_toNat _ (Nat.mod_lt _ (by decide))
    by_cases h0 : n / 10 = 0
    · rw [if_pos h0]
      simp only [List.foldl_cons, Nat.mul_zero, Nat.zero_add, hd]
      have : n % 10 = n := by omega
      rw [this]
    · rw [if_neg h0]
      have hlt : n / 10 < fuel := by omega
      rw [ih (n / 10) _ hlt]
      simp only [List.foldl_cons, hd]
      have : 10 * (n / 10) + n % 10 = n := Nat.div_add_mod n 10
      rw [this]

theorem toString_nat_injective (a b : Nat) (h : toString a = toString b) : a = b := by
  have h2 : (Nat.toDigits 10 a).asString = (Nat.toDigits 10 b).asString := h
  have h3 : Nat.toDigits 10 a = Nat.toDigits 10 b := by
    have := congrArg String.data h2
    simpa using this
  have ha := foldl_toDigitsCore (a + 1) a [] (Nat.lt_succ_self a)
  have hb := foldl_toDigitsCore (b + 1) b [] (Nat.lt_succ_self b)
  simp only [List.foldl_nil] at ha hb
  unfold Nat.toDigits at h3
  rw [← ha, ← hb, h3]

/-- Distinct positions have distinct requirement names. -/
theorem extraResName_injective (a b : Nat) (h : extraResName a = extraResName b) : a = b := by
  apply toString_nat_injective
  unfold extraResName at h
  have h2 := congrArg String.data h
  simp only [String.data_append, List.append_cancel_left_eq] at h2
  exact String.ext h2

/-! ## Lemmas on the requirement builder -/

theorem mapLookup_append {α : Type} (l1 l2 : List (String × α)) (k : String) :
    mapLookup (l1 ++ l2) k =
      match mapLookup l1 k with
      | some v => some v
      | none => mapLookup l2 k := by
  induction l1 with
  | nil => simp [mapLookup]
  | cons e rest ih =>
    obtain ⟨k0, v0⟩ := e
    by_cases h : k0 = k
    · simp [mapLookup, h]
    · simp [mapLookup, h, ih]

/-- Storing a list of pairs in order: the last pair with a key wins. -/
theorem mapLookup_foldl_mapStore {α : Type} (pairs acc : List (String × α)) (k : String) :
    mapLookup (pairs.foldl (fun a kv => mapStore a kv.1 kv.2) acc) k =
      match mapLookup pairs.reverse k with
      | some v => some v
      | none => mapLookup acc k := by
  induction pairs generalizing acc with
  | nil => simp [mapLookup]
  | cons e rest ih =>
    obtain ⟨k0, v0⟩ := e
    simp only [List.foldl_cons, List.reverse_cons]
    rw [ih, mapLookup_append, mapLookup_mapStore]
    cases mapLookup rest.reverse k with
    | some v => rfl
    | none =>
      by_cases h : k0 = k
      · simp [mapLookup, h]
      · simp [mapLookup, h]

theorem mem_of_mapLookup_eq_some {α : Type} (l : List (String × α)) (k : String) (v : α)
    (h : mapLookup l k = some v) : (k, v) ∈ l := by
  induction l with
  | nil => simp [mapLookup] at h
  | cons e rest ih =>
    obtain ⟨k0, v0⟩ := e
    by_cases h0 : k0 = k
    · subst h0
      simp only [mapLookup, if_true, Option.some.injEq] at h
      subst h
      exact List.mem_cons_self _ _
    · simp only [mapLookup, h0, if_false] at h
      exact List.mem_cons_of_mem _ (ih h)

theorem mapLookup_eq_some_of_mem {α : Type} (l : List (String × α)) (k : String) (v : α)
    (hu : UniqueKeys l) (h : (k, v) ∈ l) : mapLookup l k = some v := by
  induction l with
  | nil => cases h
  | cons e rest ih =>
    obtain ⟨k0, v0⟩ := e
    have hnd : k0 ∉ keys rest ∧ UniqueKeys rest := by
      simpa [UniqueKeys, keys] using hu
    rcases List.mem_cons.mp h with h1 | h1
    · cases h1
      simp [mapLookup]
    · have hk : k ∈ keys rest := List.mem_map.mpr ⟨(k, v), h1, rfl⟩
      have hne : ¬ k0 = k := fun e => hnd.1 (e ▸ hk)
      simp only [mapLookup, hne, if_false]
      exact ih hnd.2 h1

theorem uniqueKeys_reverse {α : Type} (l : List (String × α)) (h : UniqueKeys l) :
    UniqueKeys l.reverse := by
  unfold UniqueKeys keys at *
  rw [List.map_reverse]
  exact List.nodup_reverse.mpr h

/-- A successful resolution stores, in order, the labels that the matchers
contribute. -/
theorem resolveMatchLabels_ok (pave : Pave) (xr : Doc)
    (ms : List EnvironmentSourceSelectorLabelMatcher) (acc labels : List (String × String))
    (h : resolveMatchLabels pave xr ms acc = .ok labels) :
    labels = (ms.filterMap (matcherLabel pave xr)).foldl
      (fun a kv => mapStore a kv.1 kv.2) acc := by
  induction ms generalizing acc with
  | nil =>
    simp only [resolveMatchLabels] at h
    simpa using (Except.ok.inj h).symm
  | cons m rest ih =>
    unfold resolveMatchLabels at h
    by_cases hv : m.GetType = EnvironmentSourceSelectorLabelMatcherTypeValue
    · rw [if_pos hv] at h
      cases hval : m.Value with
      | none => rw [hval] at h; cases h
      | some v =>
        rw [hval] at h
        have hl : matcherLabel pave xr m = some (m.Key, v) := by
          unfold matcherLabel
          rw [if_pos hv, hval]
          rfl
        rw [List.filterMap_cons, hl]
        exact ih _ h
    · rw [if_neg hv] at h
      by_cases hf : m.GetType =
          EnvironmentSourceSelectorLabelMatcherTypeFromCompositeFieldPath
      · rw [if_pos hf] at h
        cases hpath : m.ValueFromFieldPath with
        | none => rw [hpath] at h; cases h
        | some path =>
          simp only [hpath] at h
          cases hg : GetString pave xr path with
          | error err =>
            simp only [hg] at h
            have hl : matcherLabel pave xr m = none := by
              unfold matcherLabel
              rw [if_neg hv, if_pos hf, hpath]
              simp only [hg]
            rw [List.filterMap_cons, hl]
            by_cases ho : m.FromFieldPathIsOptional = true
            · simp only [ho, Bool.not_true, Bool.false_eq_true, if_false] at h
              exact ih _ h
            · simp only [ho, Bool.not_false, if_true] at h
              cases h
          | ok value =>
            simp only [hg] at h
            have hl : matcherLabel pave xr m = some (m.Key, value) := by
              unfold matcherLabel
              rw [if_neg hv, if_pos hf, hpath]
              simp only [hg]
            rw [List.filterMap_cons, hl]
            exact ih _ h
      · rw [if_neg hf] at h
        have hl : matcherLabel pave xr m = none := by
          unfold matcherLabel
          rw [if_neg hv, if_neg hf]
        rw [List.filterMap_cons, hl]
        exact ih _ h

/-- The loop of `buildRequirements`, one source at a time. -/
theorem buildRequirementsFrom_cons (pave : Pave) (xr : Doc) (i : Nat)
    (config : EnvironmentSource) (rest : List EnvironmentSource)
    (acc : List (String × ResourceSelector)) :
    buildRequirementsFrom pave xr i (config :: rest) acc =
      match requirementOf pave xr config with
      | .error e => .error e
      | .ok none => buildRequirementsFrom pave xr (i + 1) rest acc
      | .ok (some r) =>
        buildRequirementsFrom pave xr (i + 1) rest (mapStore acc (extraResName i) r) := by
  conv => lhs; unfold buildRequirementsFrom
  unfold requirementOf
  by_cases h1 : config.SourceType = EnvironmentSourceTypeReference ∨ config.SourceType = ""
  · rw [if_pos h1, if_pos h1]
    cases config.Ref <;> rfl
  · rw [if_neg h1, if_neg h1]
    by_cases h2 : config.SourceType = EnvironmentSourceTypeSelector
    · rw [if_pos h2, if_pos h2]
      cases config.Selector with
      | none => rfl
      | some sel =>
        simp only
        cases resolveMatchLabels pave xr sel.MatchLabels [] with
        | error e => rfl
        | ok labels =>
          simp only
          by_cases hl : labels.length = 0
          · rw [if_pos hl, if_pos hl]
          · rw [if_neg hl, if_neg hl]
    · rw [if_neg h2, if_neg h2]

/-- Names outside the positions of the loop keep their entry. -/
theorem buildRequirementsFrom_frame (pave : Pave) (xr : Doc) (i : Nat)
    (cfgs : List EnvironmentSource) (acc m : List (String × ResourceSelector))
    (h : buildRequirementsFrom pave xr i cfgs acc = .ok m) (n : String)
    (hn : ∀ j, j < cfgs.length → n ≠ extraResName (i + j)) :
    mapLookup m n = mapLookup acc n := by
  induction cfgs generalizing i acc with
  | nil =>
    simp only [buildRequirementsFrom] at h
    rw [← Except.ok.inj h]
  | cons config rest ih =>
    rw [buildRequirementsFrom_cons] at h
    have hrest : ∀ j, j < rest.length → n ≠ extraResName (i + 1 + j) := by
      intro j hj
      have := hn (j + 1) (by simp; omega)
      rwa [show i + (j + 1) = i + 1 + j by omega] at this
    have h0 : n ≠ extraResName i := by
      have := hn 0 (by simp)
      simpa using this
    cases hr : requirementOf pave xr config with
    | error e => rw [hr] at h; cases h
    | ok r =>
      rw [hr] at h
      cases r with
      | none => exact ih (i + 1) acc h hrest
      | some r =>
        simp only at h
        rw [ih (i + 1) _ h hrest, mapLookup_mapStore]
        simp [Ne.symm h0]

/-- The entry of the manifest at a position of the loop is the requirement of
the source at that position, when it has one. -/
theorem buildRequirementsFrom_entry (pave : Pave) (xr : Doc) (i j : Nat)
    (cfgs : List EnvironmentSource) (acc m : List (String × ResourceSelector))
    (config : EnvironmentSource)
    (h : buildRequirementsFrom pave xr i cfgs acc = .ok m) (hj : cfgs[j]? = some config) :
    ∃ r, requirementOf pave xr config = .ok r ∧
      mapLookup m (extraResName (i + j)) =
        match r with
        | some s => some s
        | none => mapLookup acc (extraResName (i + j)) := by
  induction cfgs generalizing i j acc with
  | nil => simp at hj
  | cons c rest ih =>
    rw [buildRequirementsFrom_cons] at h
    cases hr : requirementOf pave xr c with
    | error e => rw [hr] at h; cases h
    | ok r0 =>
      rw [hr] at h
      cases j with
      | zero =>
        have hc : c = config := by simpa using hj
        subst hc
        have hframe : ∀ (acc2 : List (String × ResourceSelector)),
            buildRequirementsFrom pave xr (i + 1) rest acc2 = .ok m →
            mapLookup m (extraResName i) = mapLookup acc2 (extraResName i) := by
          intro acc2 h2
          apply buildRequirementsFrom_frame pave xr (i + 1) rest acc2 m h2
          intro j2 _ he
          have := extraResName_injective _ _ he
          omega
        refine ⟨r0, hr, ?_⟩
        cases r0 with
        | none => exact hframe acc h
        | some s =>
          simp only at h
          rw [Nat.add_zero, hframe _ h, mapLookup_mapStore]
          simp
      | succ j2 =>
        have hj2 : rest[j2]? = some config := by simpa using hj
        have hne : ¬ extraResName i = extraResName (i + (j2 + 1)) := by
          intro he
          have := extraResName_injective _ _ he
          omega
        rw [show i + (j2 + 1) = i + 1 + j2 by omega] at hne ⊢
        cases r0 with
        | none => exact ih (i + 1) j2 acc h hj2
        | some s =>
          simp only at h
          obtain ⟨r, hr2, hl⟩ := ih (i + 1) j2 _ h hj2
          refine ⟨r, hr2, ?_⟩
          rw [hl]
          cases r with
          | some s2 => rfl
          | none =>
            simp only
            rw [mapLookup_mapStore]
            simp [hne]

/-- The entry of the manifest for the source at position `i`. -/
theorem buildRequirements_entry (pave : Pave) (inp : Input) (xr : Doc)
    (reqs : Requirements) (i : Nat) (config : EnvironmentSource)
    (hok : buildRequirements pave inp xr = .ok reqs)
    (hi : (inp.Spec.EnvironmentConfigs.getD [])[i]? = some config) :
    ∃ r, requirementOf pave xr config = .ok r ∧
      mapLookup reqs.ExtraResources (extraResName i) = r := by
  unfold buildRequirements at hok
  obtain ⟨m, hm, hreq⟩ := except_map_eq_ok _ _ _ hok
  subst hreq
  obtain ⟨r, hr, hl⟩ := buildRequirementsFrom_entry pave xr 0 i _ [] m config hm hi
  refine ⟨r, hr, ?_⟩
  rw [Nat.zero_add] at hl
  rw [hl]
  cases r <;> rfl

theorem resolveMatchLabels_congr_tail (pave : Pave) (xr : Doc)
    (m : EnvironmentSourceSelectorLabelMatcher)
    (l1 l2 : List EnvironmentSourceSelectorLabelMatcher)
    (h : ∀ acc, resolveMatchLabels pave xr l1 acc = resolveMatchLabels pave xr l2 acc)
    (acc : List (String × String)) :
    resolveMatchLabels pave xr (m :: l1) acc = resolveMatchLabels pave xr (m :: l2) acc := by
  conv => lhs; unfold resolveMatchLabels
  conv => rhs; unfold resolveMatchLabels
  simp only [h]

theorem resolveMatchLabels_error_tail (pave : Pave) (xr : Doc)
    (m : EnvironmentSourceSelectorLabelMatcher)
    (l : List EnvironmentSourceSelectorLabelMatcher)
    (h : ∀ acc, ∃ e, resolveMatchLabels pave xr l acc = .error e)
    (acc : List (String × String)) :
    ∃ e, resolveMatchLabels pave xr (m :: l) acc = .error e := by
  unfold resolveMatchLabels
  split
  · split
    · exact ⟨_, rfl⟩
    · exact h _
  · split
    · split
      · exact ⟨_, rfl⟩
      · split
        · split
          · exact ⟨_, rfl⟩
          · exact h _
        · exact h _
    · exact h _

theorem buildRequirementsFrom_congr (pave : Pave) (xr : Doc)
    (c1 c2 : EnvironmentSource) (cpre cpost : List EnvironmentSource)
    (h : requirementOf pave xr c1 = requirementOf pave xr c2) (i : Nat)
    (acc : List (String × ResourceSelector)) :
    buildRequirementsFrom pave xr i (cpre ++ c1 :: cpost) acc
      = buildRequirementsFrom pave xr i (cpre ++ c2 :: cpost) acc := by
  induction cpre generalizing i acc with
  | nil =>
    simp only [List.nil_append]
    rw [buildRequirementsFrom_cons, buildRequirementsFrom_cons, h]
  | cons c rest ih =>
    simp only [List.cons_append]
    rw [buildRequirementsFrom_cons, buildRequirementsFrom_cons]
    cases requirementOf pave xr c with
    | error e => rfl
    | ok r =>
      cases r with
      | none => exact ih _ _
      | some s => exact ih _ _

theorem buildRequirementsFrom_error (pave : Pave) (xr : Doc)
    (config : EnvironmentSource) (cpre cpost : List EnvironmentSource) (e : Error)
    (h : requirementOf pave xr config = .error e) (i : Nat)
    (acc : List (String × ResourceSelector)) :
    ∃ err, buildRequirementsFrom pave xr i (cpre ++ config :: cpost) acc = .error err := by
  induction cpre generalizing i acc with
  | nil =>
    simp only [List.nil_append]
    rw [buildRequirementsFrom_cons, h]
    exact ⟨e, rfl⟩
  | cons c rest ih =>
    simp only [List.cons_append]
    rw [buildRequirementsFrom_cons]
    cases requirementOf pave xr c with
    | error e2 => exact ⟨e2, rfl⟩
    | ok r =>
      cases r with
      | none => exact ih _ _
      | some s => exact ih _ _

/-- The requirement of a selector source whose `selector` is set. -/
theorem requirementOf_selector (pave : Pave) (xr : Doc) (config : EnvironmentSource)
    (sel : EnvironmentSourceSelector)
    (htype : config.SourceType = EnvironmentSourceTypeSelector)
    (hsel : config.Selector = some sel) :
    requirementOf pave xr config =
      match resolveMatchLabels pave xr sel.MatchLabels [] with
      | .error e => .error e
      | .ok matchLabels =>
        if matchLabels.length = 0 then .ok none
        else .ok (some ⟨"apiextensions.crossplane.io/v1beta1", "EnvironmentConfig",
          .MatchLabels matchLabels⟩) := by
  have h1 : ¬ (config.SourceType = EnvironmentSourceTypeReference ∨ config.SourceType = "") := by
    rw [htype]; decide
  unfold requirementOf
  rw [if_neg h1, if_pos htype, hsel]

theorem returnFatal_requirements (rsp r : RunFunctionResponse) (msg : String) (err : Error)
    (h : returnFatal rsp msg err = .ok r) : r.Requirements = rsp.Requirements := by
  cases err <;> simp [returnFatal] at h <;> subst h <;> rfl

/-- Once `buildRequirements` has succeeded, every response of `RunFunction`
carries its manifest, whatever the candidates are. -/
theorem RunFunction_requirements (pave : Pave) (req : RunFunctionRequest) (inp : Input)
    (xr : Doc) (cfgs : List EnvironmentSource) (reqs : Requirements)
    (rsp : RunFunctionResponse)
    (hin : req.Input = .ok inp) (hcfg : inp.Spec.EnvironmentConfigs = some cfgs)
    (hox : req.ObservedComposite = .ok xr)
    (hb : buildRequirements pave inp xr = .ok reqs)
    (hrun : RunFunction pave req = .ok rsp) : rsp.Requirements = some reqs := by
  unfold RunFunction at hrun
  simp only [hin, hcfg, hox, hb] at hrun
  cases hex : req.ExtraResources with
  | none =>
    simp only [hex] at hrun
    rw [← Except.ok.inj hrun]
  | some extra =>
    simp only [hex] at hrun
    cases henv : loadInputEnv req with
    | error e =>
      simp only [henv] at hrun
      exact returnFatal_requirements _ _ _ _ hrun
    | ok inputEnv =>
      simp only [henv] at hrun
      cases extra with
      | error e =>
        simp only at hrun
        exact returnFatal_requirements _ _ _ _ hrun
      | ok extraResources =>
        simp only at hrun
        cases hsel : getSelectedEnvConfigs pave inp extraResources with
        | error e =>
          simp only [hsel] at hrun
          exact returnFatal_requirements _ _ _ _ hrun
        | ok envConfigs =>
          simp only [hsel] at hrun
          cases hmerge : mergeEnvConfigsData pave envConfigs with
          | error e =>
            simp only [hmerge] at hrun
            exact returnFatal_requirements _ _ _ _ hrun
          | ok mergedData =>
            simp only [hmerge, mergeDefaultData_eq] at hrun
            rw [← Except.ok.inj hrun]
            rfl

/-! ## Claims on the requirement builder -/

/-- C14, counterexample: the selector of `exampleRepeatedKeyInput` has the
`Value` matchers `foo = bar` and `foo = baz`; `buildRequirements` succeeds with
the label set `foo = baz`, which does not map the first matcher's key to its
literal value. -/
theorem buildRequirements_labels_counterexample :
    buildRequirements fieldpathPave exampleRepeatedKeyInput exampleComposite
      = .ok ⟨[("environment-config-0",
          ⟨"apiextensions.crossplane.io/v1beta1", "EnvironmentConfig",
            .MatchLabels [("foo", "baz")]⟩)]⟩ ∧
    matcherLabel fieldpathPave exampleComposite ⟨"Value", "foo", none, none, some "bar"⟩
      = some ("foo", "bar") ∧
    mapLookup [("foo", "baz")] "foo" ≠ some "bar" :=
  ⟨rfl, rfl, by decide⟩

/-- C14, amended: when `buildRequirements` succeeds and the source at index `i`
is a selector whose resolved label set is non-empty, the manifest maps
`environment-config-<i>` to a match-by-labels requirement. Its label map holds,
for each key, the value contributed by the last matcher with that key among
the `Value` matchers (their literal) and the `FromCompositeFieldPath` matchers
whose path resolves to a string (that string), and nothing else. When the
contributing matchers have pairwise distinct keys, the labels are exactly their
key and value pairs. -/
theorem buildRequirements_selector_labels (pave : Pave) (inp : Input) (xr : Doc)
    (reqs : Requirements) (i : Nat) (config : EnvironmentSource)
    (hok : buildRequirements pave inp xr = .ok reqs)
    (hi : (inp.Spec.EnvironmentConfigs.getD [])[i]? = some config)
    (htype : config.SourceType = EnvironmentSourceTypeSelector) :
    ∃ sel labels, config.Selector = some sel ∧
      resolveMatchLabels pave xr sel.MatchLabels [] = .ok labels ∧
      (labels ≠ [] → mapLookup reqs.ExtraResources (extraResName i)
        = some ⟨"apiextensions.crossplane.io/v1beta1", "EnvironmentConfig",
            .MatchLabels labels⟩) ∧
      (∀ k, mapLookup labels k
        = mapLookup (sel.MatchLabels.filterMap (matcherLabel pave xr)).reverse k) ∧
      (UniqueKeys (sel.MatchLabels.filterMap (matcherLabel pave xr)) →
        ∀ k v, mapLookup labels k = some v ↔
          (k, v) ∈ sel.MatchLabels.filterMap (matcherLabel pave xr)) := by
  obtain ⟨r, hr, hl⟩ := buildRequirements_entry pave inp xr reqs i config hok hi
  cases hsel : config.Selector with
  | none =>
    have h1 : ¬ (config.SourceType = EnvironmentSourceTypeReference ∨
        config.SourceType = "") := by
      rw [htype]; decide
    unfold requirementOf at hr
    rw [if_neg h1, if_pos htype, hsel] at hr
    cases hr
  | some sel =>
    rw [requirementOf_selector pave xr config sel htype hsel] at hr
    cases hres : resolveMatchLabels pave xr sel.MatchLabels [] with
    | error e => rw [hres] at hr; cases hr
    | ok labels =>
      rw [hres] at hr
      have hlab := resolveMatchLabels_ok pave xr sel.MatchLabels [] labels hres
      have hlook : ∀ k, mapLookup labels k
          = mapLookup (sel.MatchLabels.filterMap (matcherLabel pave xr)).reverse k := by
        intro k
        rw [hlab, mapLookup_foldl_mapStore]
        cases mapLookup (sel.MatchLabels.filterMap (matcherLabel pave xr)).reverse k <;> rfl
      refine ⟨sel, labels, rfl, hres, ?_, hlook, ?_⟩
      · intro hne
        have hlen : ¬ labels.length = 0 := by
          intro h0
          exact hne (List.length_eq_zero.mp h0)
        simp only [hlen, if_false] at hr
        rw [hl, ← Except.ok.inj hr]
      · intro hu k v
        rw [hlook k]
        constructor
        · intro h
          exact List.mem_reverse.mp (mem_of_mapLookup_eq_some _ k v h)
        · intro h
          exact mapLookup_eq_some_of_mem _ k v (uniqueKeys_reverse _ hu)
            (List.mem_reverse.mpr h)

/-- Witness of C14 (amended): the fifth source of `exampleInput` reads its label
from the composite resource. -/
theorem buildRequirements_selector_labels_witness :
    ∃ sel labels, exampleFieldPathSource.Selector = some sel ∧
      resolveMatchLabels fieldpathPave exampleComposite sel.MatchLabels [] = .ok labels ∧
      (labels ≠ [] → mapLookup exampleManifest.ExtraResources (extraResName 4)
        = some ⟨"apiextensions.crossplane.io/v1beta1", "EnvironmentConfig",
            .MatchLabels labels⟩) := by
  obtain ⟨sel, labels, h1, h2, h3, _, _⟩ :=
    buildRequirements_selector_labels fieldpathPave exampleInput exampleComposite
      exampleManifest 4 exampleFieldPathSource rfl rfl rfl
  exact ⟨sel, labels, h1, h2, h3⟩

/-- C15: for a selector source with a `FromCompositeFieldPath` matcher whose
path is not found in the base document: when the matcher's policy is unset or
`Required`, `buildRequirements` fails for the whole declaration list; when it is
`Optional`, the matcher contributes no label and the resolution of the labels,
and with it `buildRequirements`, gives what it gives with the matcher removed,
so the other matchers contribute as before. -/
theorem buildRequirements_fieldPath_not_found (pave : Pave) (inp : Input) (xr : Doc)
    (cpre cpost : List EnvironmentSource) (config : EnvironmentSource)
    (sel : EnvironmentSourceSelector)
    (pre post : List EnvironmentSourceSelectorLabelMatcher)
    (m : EnvironmentSourceSelectorLabelMatcher) (path : String) (fe : FieldPathError)
    (hcfgs : inp.Spec.EnvironmentConfigs = some (cpre ++ config :: cpost))
    (htype : config.SourceType = EnvironmentSourceTypeSelector)
    (hsel : config.Selector = some sel) (hms : sel.MatchLabels = pre ++ m :: post)
    (hmt : m.GetType = EnvironmentSourceSelectorLabelMatcherTypeFromCompositeFieldPath)
    (hpath : m.ValueFromFieldPath = some path)
    (hnf : GetString pave xr path = .error fe) (_hfe : fe.IsNotFound = true) :
    ((m.FromFieldPathPolicy = none ∨
        m.FromFieldPathPolicy = some FromFieldPathPolicyRequired) →
      ∃ err, buildRequirements pave inp xr = .error err) ∧
    (m.FromFieldPathPolicy = some FromFieldPathPolicyOptional →
      matcherLabel pave xr m = none ∧
      (∀ acc, resolveMatchLabels pave xr (pre ++ m :: post) acc
        = resolveMatchLabels pave xr (pre ++ post) acc) ∧
      buildRequirements pave inp xr
        = buildRequirements pave
            ⟨{ inp.Spec with EnvironmentConfigs := some (cpre ++
              { config with Selector := some { sel with MatchLabels := pre ++ post } }
                :: cpost) }⟩ xr) := by
  have hv : ¬ m.GetType = EnvironmentSourceSelectorLabelMatcherTypeValue := by
    rw [hmt]; decide
  constructor
  · intro hpol
    have hopt : m.FromFieldPathIsOptional = false := by
      rcases hpol with h | h
      · simp [EnvironmentSourceSelectorLabelMatcher.FromFieldPathIsOptional, h]
      · simp [EnvironmentSourceSelectorLabelMatcher.FromFieldPathIsOptional, h,
          FromFieldPathPolicyRequired, FromFieldPathPolicyOptional]
    have hbase : ∀ acc, ∃ e, resolveMatchLabels pave xr (m :: post) acc = .error e := by
      intro acc
      unfold resolveMatchLabels
      rw [if_neg hv, if_pos hmt, hpath]
      simp only [hnf, hopt, Bool.not_false, if_true]
      exact ⟨_, rfl⟩
    have hall : ∀ (l : List EnvironmentSourceSelectorLabelMatcher) acc,
        ∃ e, resolveMatchLabels pave xr (l ++ m :: post) acc = .error e := by
      intro l
      induction l with
      | nil => exact hbase
      | cons p rest ih => exact resolveMatchLabels_error_tail pave xr p _ ih
    obtain ⟨e, he⟩ := hall pre []
    have hreq : requirementOf pave xr config = .error e := by
      rw [requirementOf_selector pave xr config sel htype hsel, hms, he]
    obtain ⟨err, herr⟩ := buildRequirementsFrom_error pave xr config cpre cpost e hreq 0 []
    refine ⟨err, ?_⟩
    unfold buildRequirements
    rw [hcfgs]
    simp only [Option.getD_some, herr]
    rfl
  · intro hpol
    have hopt : m.FromFieldPathIsOptional = true := by
      simp [EnvironmentSourceSelectorLabelMatcher.FromFieldPathIsOptional, hpol]
    have hlabel : matcherLabel pave xr m = none := by
      unfold matcherLabel
      rw [if_neg hv, if_pos hmt, hpath]
      simp only [hnf]
    have hbase : ∀ acc, resolveMatchLabels pave xr (m :: post) acc
        = resolveMatchLabels pave xr post acc := by
      intro acc
      conv => lhs; unfold resolveMatchLabels
      rw [if_neg hv, if_pos hmt, hpath]
      simp only [hnf, hopt, Bool.not_true, Bool.false_eq_true, if_false]
    have hgen : ∀ (l : List EnvironmentSourceSelectorLabelMatcher) acc,
        resolveMatchLabels pave xr (l ++ m :: post) acc
          = resolveMatchLabels pave xr (l ++ post) acc := by
      intro l
      induction l with
      | nil => exact hbase
      | cons p rest ih => exact resolveMatchLabels_congr_tail pave xr p _ _ ih
    have hall := hgen pre
    refine ⟨hlabel, hall, ?_⟩
    have hreq : requirementOf pave xr config = requirementOf pave xr
        { config with Selector := some { sel with MatchLabels := pre ++ post } } := by
      have h2 := requirementOf_selector pave xr
        { config with Selector := some { sel with MatchLabels := pre ++ post } }
        { sel with MatchLabels := pre ++ post } htype rfl
      rw [requirementOf_selector pave xr config sel htype hsel, h2, hms, hall []]
    unfold buildRequirements
    rw [hcfgs]
    simp only [Option.getD_some]
    rw [buildRequirementsFrom_congr pave xr _ _ cpre cpost hreq 0 []]

/-- Witness of C15: the fourth source of `exampleInput` has an optional matcher
whose path is absent from `exampleComposite`; the manifest is that of the list
with this matcher removed. -/
theorem buildRequirements_fieldPath_not_found_witness :
    buildRequirements fieldpathPave exampleInput exampleComposite
      = buildRequirements fieldpathPave exampleInputWithoutOptionalMatcher
          exampleComposite :=
  ((buildRequirements_fieldPath_not_found fieldpathPave exampleInput exampleComposite
    (exampleSources.take 3) (exampleSources.drop 4) exampleOptionalSource
    ⟨"Single", none, none, "",
      [⟨"", "someMoreFoo", some "spec.missingEnvSelectorLabel", some "Optional", none⟩]⟩
    [] []
    ⟨"", "someMoreFoo", some "spec.missingEnvSelectorLabel", some "Optional", none⟩
    "spec.missingEnvSelectorLabel" (.notFound "no such field")
    rfl rfl rfl rfl rfl rfl rfl rfl).2 rfl).2.2

/-- C16: when `buildRequirements` succeeds and the source at index `i` is a
selector whose resolved label set is empty, the manifest has no entry for
`environment-config-<i>`, and the entry of every other source is the
requirement of that source alone. -/
theorem buildRequirements_empty_labels (pave : Pave) (inp : Input) (xr : Doc)
    (reqs : Requirements) (i : Nat) (config : EnvironmentSource)
    (sel : EnvironmentSourceSelector)
    (hok : buildRequirements pave inp xr = .ok reqs)
    (hi : (inp.Spec.EnvironmentConfigs.getD [])[i]? = some config)
    (htype : config.SourceType = EnvironmentSourceTypeSelector)
    (hsel : config.Selector = some sel)
    (hempty : resolveMatchLabels pave xr sel.MatchLabels [] = .ok []) :
    mapLookup reqs.ExtraResources (extraResName i) = none ∧
    extraResName i ∉ keys reqs.ExtraResources ∧
    (∀ j cj, j ≠ i → (inp.Spec.EnvironmentConfigs.getD [])[j]? = some cj →
      ∃ r, requirementOf pave xr cj = .ok r ∧
        mapLookup reqs.ExtraResources (extraResName j) = r) := by
  obtain ⟨r, hr, hl⟩ := buildRequirements_entry pave inp xr reqs i config hok hi
  rw [requirementOf_selector pave xr config sel htype hsel, hempty] at hr
  simp only [List.length_nil, if_true] at hr
  have hnone : mapLookup reqs.ExtraResources (extraResName i) = none := by
    rw [hl, ← Except.ok.inj hr]
  refine ⟨hnone, (mapLookup_eq_none_iff _ _).mp hnone, ?_⟩
  intro j cj _ hj
  exact buildRequirements_entry pave inp xr reqs j cj hok hj

/-- Witness of C16: the fourth source of `exampleInput` resolves to no label and
has no entry in the manifest. -/
theorem buildRequirements_empty_labels_witness :
    mapLookup exampleManifest.ExtraResources (extraResName 3) = none :=
  (buildRequirements_empty_labels fieldpathPave exampleInput exampleComposite
    exampleManifest 3 exampleOptionalSource
    ⟨"Single", none, none, "",
      [⟨"", "someMoreFoo", some "spec.missingEnvSelectorLabel", some "Optional", none⟩]⟩
    rfl rfl rfl rfl rfl).1

/-- C17: when `buildRequirements` succeeds and the source at index `i` has the
type `Reference` or no type, the manifest maps `environment-config-<i>` to the
match-by-name requirement with the reference's name. The manifest is the same
under every resolution policy, and every response of `RunFunction` carries it,
whatever candidates the request supplies. -/
theorem buildRequirements_reference (pave : Pave) (inp : Input) (xr : Doc)
    (reqs : Requirements) (i : Nat) (config : EnvironmentSource)
    (hok : buildRequirements pave inp xr = .ok reqs)
    (hi : (inp.Spec.EnvironmentConfigs.getD [])[i]? = some config)
    (htype : config.SourceType = EnvironmentSourceTypeReference ∨ config.SourceType = "") :
    (∃ ref, config.Ref = some ref ∧
      mapLookup reqs.ExtraResources (extraResName i)
        = some ⟨"apiextensions.crossplane.io/v1beta1", "EnvironmentConfig",
            .MatchName ref.Name⟩) ∧
    (∀ p, buildRequirements pave ⟨{ inp.Spec with Policy := p }⟩ xr = .ok reqs) ∧
    (∀ req rsp, req.Input = .ok inp → req.ObservedComposite = .ok xr →
      RunFunction pave req = .ok rsp → rsp.Requirements = some reqs) := by
  obtain ⟨r, hr, hl⟩ := buildRequirements_entry pave inp xr reqs i config hok hi
  refine ⟨?_, fun p => hok, ?_⟩
  · unfold requirementOf at hr
    rw [if_pos htype] at hr
    cases href : config.Ref with
    | none => rw [href] at hr; cases hr
    | some ref =>
      rw [href] at hr
      refine ⟨ref, rfl, ?_⟩
      rw [hl, ← Except.ok.inj hr]
  · intro req rsp hin hox hrun
    cases hcfg : inp.Spec.EnvironmentConfigs with
    | none =>
      rw [hcfg] at hi
      simp at hi
    | some cfgs =>
      exact RunFunction_requirements pave req inp xr cfgs reqs rsp hin hcfg hox hok hrun

/-- Witness of C17: the second source of `exampleInput` is a reference; its
entry asks for `my-second-env-config` by name. -/
theorem buildRequirements_reference_witness :
    ∃ ref, (⟨"Reference", some ⟨"my-second-env-config"⟩, none⟩ : EnvironmentSource).Ref
        = some ref ∧
      mapLookup exampleManifest.ExtraResources (extraResName 1)
        = some ⟨"apiextensions.crossplane.io/v1beta1", "EnvironmentConfig",
            .MatchName ref.Name⟩ :=
  (buildRequirements_reference fieldpathPave exampleInput exampleComposite
    exampleManifest 1 ⟨"Reference", some ⟨"my-second-env-config"⟩, none⟩ rfl rfl
    (Or.inl rfl)).1

/-! ## Claims on the remaining errors of the sorter and the requirement builder -/

/-- C21, counterexample: the only candidate holds a boolean at `data.enabled`,
a type that the comparator does not handle; the sorter succeeds and returns the
list. -/
theorem sortExtrasByFieldPath_unsupported_counterexample :
    fieldpathPave [("data", .object [("enabled", .bool true)])] "data.enabled"
      = .ok (.bool true) ∧
    (Value.bool true).typeOf = some .bool ∧ sortable .bool = false ∧
    sortExtrasByFieldPath fieldpathPave exampleFlagCandidate "data.enabled"
      = .ok exampleFlagCandidate :=
  ⟨rfl, rfl, rfl, rfl⟩

/-- C21, amended: for a non-empty path such that every lookup finds a value or
reports not-found, the values found are nil or of one type `T` that the
comparator does not handle, and some value of type `T` is found: with two or
more candidates the sorter fails with the unsupported-type error for `T`; with
one candidate it succeeds and returns the list. -/
theorem sortExtrasByFieldPath_unsupported (pave : Pave) (extras : List Extra) (path : String)
    (T : GoType) (hpath : path ≠ "") (hT : sortable T = false)
    (hfound : ∀ e ∈ extras, ∀ err, pave e path = .error err → err.IsNotFound = true)
    (htype : ∀ e ∈ extras, (valueAt pave path e).typeOf = none ∨
      (valueAt pave path e).typeOf = some T)
    (hsome : ∃ e ∈ extras, (valueAt pave path e).typeOf = some T) :
    (2 ≤ extras.length →
      sortExtrasByFieldPath pave extras path = .error (.unsupportedType T)) ∧
    (extras.length < 2 → sortExtrasByFieldPath pave extras path = .ok extras) := by
  obtain ⟨t2, h1, _, _, h4, _⟩ :=
    collectValues_uniform pave path T extras none (Or.inl rfl) hfound htype
  have ht2 := h4 hsome
  subst ht2
  have hmap : (extras.map (fun e => (e, valueAt pave path e))).map Prod.fst = extras := by
    rw [List.map_map]
    exact List.map_id _
  constructor
  · intro hlen
    unfold sortExtrasByFieldPath
    rw [if_neg hpath, h1]
    simp only [hT, List.length_map]
    rw [if_neg (by simp), if_neg (by omega)]
  · intro hlen
    unfold sortExtrasByFieldPath
    rw [if_neg hpath, h1]
    simp only [hT, List.length_map]
    rw [if_neg (by simp), if_pos hlen, hmap]

/-- Witness of C21 (amended): two candidates with a boolean at `data.enabled`. -/
theorem sortExtrasByFieldPath_unsupported_witness :
    sortExtrasByFieldPath fieldpathPave exampleFlagCandidates "data.enabled"
      = .error (.unsupportedType .bool) :=
  (sortExtrasByFieldPath_unsupported fieldpathPave exampleFlagCandidates "data.enabled"
    .bool (by decide) rfl
    (by
      intro e he err herr
      simp only [exampleFlagCandidates, List.mem_cons, List.mem_singleton,
        List.not_mem_nil, or_false] at he
      rcases he with h | h <;> subst h <;> cases herr)
    (by
      intro e he
      simp only [exampleFlagCandidates, List.mem_cons, List.mem_singleton,
        List.not_mem_nil, or_false] at he
      rcases he with h | h <;> subst h <;> exact Or.inr rfl)
    ⟨[("data", .object [("enabled", .bool true)])], by simp [exampleFlagCandidates], rfl⟩).1
    (by decide)

/-- A `FromCompositeFieldPath` matcher whose lookup fails, for whatever reason:
a matcher that is not optional makes `buildRequirements` fail, an optional
matcher is passed over. -/
theorem buildRequirements_lookup_error (pave : Pave) (inp : Input) (xr : Doc)
    (cpre cpost : List EnvironmentSource) (config : EnvironmentSource)
    (sel : EnvironmentSourceSelector)
    (pre post : List EnvironmentSourceSelectorLabelMatcher)
    (m : EnvironmentSourceSelectorLabelMatcher) (path : String) (fe : FieldPathError)
    (hcfgs : inp.Spec.EnvironmentConfigs = some (cpre ++ config :: cpost))
    (htype : config.SourceType = EnvironmentSourceTypeSelector)
    (hsel : config.Selector = some sel) (hms : sel.MatchLabels = pre ++ m :: post)
    (hmt : m.GetType = EnvironmentSourceSelectorLabelMatcherTypeFromCompositeFieldPath)
    (hpath : m.ValueFromFieldPath = some path)
    (herr : GetString pave xr path = .error fe) :
    (m.FromFieldPathIsOptional = false →
      ∃ err, buildRequirements pave inp xr = .error err) ∧
    (m.FromFieldPathIsOptional = true →
      matcherLabel pave xr m = none ∧
      buildRequirements pave inp xr
        = buildRequirements pave
            ⟨{ inp.Spec with EnvironmentConfigs := some (cpre ++
              { config with Selector := some { sel with MatchLabels := pre ++ post } }
                :: cpost) }⟩ xr) := by
  have hv : ¬ m.GetType = EnvironmentSourceSelectorLabelMatcherTypeValue := by
    rw [hmt]; decide
  constructor
  · intro hopt
    have hbase : ∀ acc, ∃ e, resolveMatchLabels pave xr (m :: post) acc = .error e := by
      intro acc
      unfold resolveMatchLabels
      rw [if_neg hv, if_pos hmt, hpath]
      simp only [herr, hopt, Bool.not_false, if_true]
      exact ⟨_, rfl⟩
    have hall : ∀ (l : List EnvironmentSourceSelectorLabelMatcher) acc,
        ∃ e, resolveMatchLabels pave xr (l ++ m :: post) acc = .error e := by
      intro l
      induction l with
      | nil => exact hbase
      | cons p rest ih => exact resolveMatchLabels_error_tail pave xr p _ ih
    obtain ⟨e, he⟩ := hall pre []
    have hreq : requirementOf pave xr config = .error e := by
      rw [requirementOf_selector pave xr config sel htype hsel, hms, he]
    obtain ⟨err, herr2⟩ := buildRequirementsFrom_error pave xr config cpre cpost e hreq 0 []
    refine ⟨err, ?_⟩
    unfold buildRequirements
    rw [hcfgs]
    simp only [Option.getD_some, herr2]
    rfl
  · intro hopt
    have hlabel : matcherLabel pave xr m = none := by
      unfold matcherLabel
      rw [if_neg hv, if_pos hmt, hpath]
      simp only [herr]
    have hbase : ∀ acc, resolveMatchLabels pave xr (m :: post) acc
        = resolveMatchLabels pave xr post acc := by
      intro acc
      conv => lhs; unfold resolveMatchLabels
      rw [if_neg hv, if_pos hmt, hpath]
      simp only [herr, hopt, Bool.not_true, Bool.false_eq_true, if_false]
    have hgen : ∀ (l : List EnvironmentSourceSelectorLabelMatcher) acc,
        resolveMatchLabels pave xr (l ++ m :: post) acc
          = resolveMatchLabels pave xr (l ++ post) acc := by
      intro l
      induction l with
      | nil => exact hbase
      | cons p rest ih => exact resolveMatchLabels_congr_tail pave xr p _ _ ih
    refine ⟨hlabel, ?_⟩
    have hreq : requirementOf pave xr config = requirementOf pave xr
        { config with Selector := some { sel with MatchLabels := pre ++ post } } := by
      have h2 := requirementOf_selector pave xr
        { config with Selector := some { sel with MatchLabels := pre ++ post } }
        { sel with MatchLabels := pre ++ post } htype rfl
      rw [requirementOf_selector pave xr config sel htype hsel, h2, hms, hgen pre []]
    unfold buildRequirements
    rw [hcfgs]
    simp only [Option.getD_some]
    rw [buildRequirementsFrom_congr pave xr _ _ cpre cpost hreq 0 []]

/-- C22, counterexample: both matchers of `exampleShapeErrorInput` are optional;
the lookup of the first meets a string where it expects an object, the lookup
of the second finds an object and not a string; neither error is a not-found
error, and `buildRequirements` succeeds, with an empty manifest. -/
theorem buildRequirements_shape_error_counterexample :
    GetString fieldpathPave exampleComposite "metadata.name.first"
      = .error (.invalid "not an object") ∧
    GetString fieldpathPave exampleComposite "metadata"
      = .error (.invalid "not a string") ∧
    (FieldPathError.invalid "not an object").IsNotFound = false ∧
    (FieldPathError.invalid "not a string").IsNotFound = false ∧
    buildRequirements fieldpathPave exampleShapeErrorInput exampleComposite = .ok ⟨[]⟩ :=
  ⟨rfl, rfl, rfl, rfl, rfl⟩

/-- C22, amended: for a selector source with a `FromCompositeFieldPath` matcher
whose lookup in the base document fails with an error other than not-found:
when the matcher's policy is unset or `Required`, `buildRequirements` fails for
the whole declaration list; when it is `Optional`, the matcher contributes no
label and `buildRequirements` gives what it gives with the matcher removed. -/
theorem buildRequirements_shape_error (pave : Pave) (inp : Input) (xr : Doc)
    (cpre cpost : List EnvironmentSource) (config : EnvironmentSource)
    (sel : EnvironmentSourceSelector)
    (pre post : List EnvironmentSourceSelectorLabelMatcher)
    (m : EnvironmentSourceSelectorLabelMatcher) (path : String) (fe : FieldPathError)
    (hcfgs : inp.Spec.EnvironmentConfigs = some (cpre ++ config :: cpost))
    (htype : config.SourceType = EnvironmentSourceTypeSelector)
    (hsel : config.Selector = some sel) (hms : sel.MatchLabels = pre ++ m :: post)
    (hmt : m.GetType = EnvironmentSourceSelectorLabelMatcherTypeFromCompositeFieldPath)
    (hpath : m.ValueFromFieldPath = some path)
    (herr : GetString pave xr path = .error fe) (_hfe : fe.IsNotFound = false) :
    ((m.FromFieldPathPolicy = none ∨
        m.FromFieldPathPolicy = some FromFieldPathPolicyRequired) →
      ∃ err, buildRequirements pave inp xr = .error err) ∧
    (m.FromFieldPathPolicy = some FromFieldPathPolicyOptional →
      matcherLabel pave xr m = none ∧
      buildRequirements pave inp xr
        = buildRequirements pave
            ⟨{ inp.Spec with EnvironmentConfigs := some (cpre ++
              { config with Selector := some { sel with MatchLabels := pre ++ post } }
                :: cpost) }⟩ xr) := by
  have h := buildRequirements_lookup_error pave inp xr cpre cpost config sel pre post m
    path fe hcfgs htype hsel hms hmt hpath herr
  constructor
  · intro hpol
    apply h.1
    rcases hpol with hp | hp
    · simp [EnvironmentSourceSelectorLabelMatcher.FromFieldPathIsOptional, hp]
    · simp [EnvironmentSourceSelectorLabelMatcher.FromFieldPathIsOptional, hp,
        FromFieldPathPolicyRequired, FromFieldPathPolicyOptional]
  · intro hpol
    apply h.2
    simp [EnvironmentSourceSelectorLabelMatcher.FromFieldPathIsOptional, hpol]

/-- Witness of C22 (amended): the first matcher of `exampleShapeErrorInput` is
optional and its path runs through a string; the manifest is that of the input
without this matcher. -/
theorem buildRequirements_shape_error_witness :
    buildRequirements fieldpathPave exampleShapeErrorInput exampleComposite
      = buildRequirements fieldpathPave exampleShapeErrorInputWithoutFirst
          exampleComposite :=
  ((buildRequirements_shape_error fieldpathPave exampleShapeErrorInput exampleComposite
    [] [] exampleShapeErrorSource
    ⟨"Single", none, none, "",
      [⟨"", "first", some "metadata.name.first", some "Optional", none⟩,
       ⟨"", "meta", some "metadata", some "Optional", none⟩]⟩
    [] [⟨"", "meta", some "metadata", some "Optional", none⟩]
    ⟨"", "first", some "metadata.name.first", some "Optional", none⟩
    "metadata.name.first" (.invalid "not an object")
    rfl rfl rfl rfl rfl rfl rfl rfl).2 rfl).2

/-! ## Claims on the loop of `getSelectedEnvConfigs` -/

/-- The loop of `getSelectedEnvConfigs`, one source at a time. -/
theorem getSelectedEnvConfigsFrom_cons (pave : Pave) (inp : Input)
    (extra : List (String × List Extra)) (i : Nat) (config : EnvironmentSource)
    (rest : List EnvironmentSource) (acc : List Doc) :
    getSelectedEnvConfigsFrom pave inp extra i (config :: rest) acc =
      match mapLookup extra (extraResName i) with
      | none => .error (.missingExtraResource (extraResName i))
      | some resources =>
        match selectedOf pave inp config resources with
        | .error e => .error e
        | .ok out => getSelectedEnvConfigsFrom pave inp extra (i + 1) rest (acc ++ out) := by
  conv => lhs; unfold getSelectedEnvConfigsFrom
  cases mapLookup extra (extraResName i) with
  | none => rfl
  | some resources =>
    simp only
    unfold selectedOf
    by_cases h1 : config.GetType = EnvironmentSourceTypeReference
    · rw [if_pos h1, if_pos h1]
      cases processSourceByReference inp config resources with
      | error e => rfl
      | ok r =>
        cases r with
        | none => simp only [List.append_nil]
        | some out => rfl
    · rw [if_neg h1, if_neg h1]
      by_cases h2 : config.GetType = EnvironmentSourceTypeSelector
      · rw [if_pos h2, if_pos h2]
        cases processEnvironmentSource pave config resources <;> rfl
      · rw [if_neg h2, if_neg h2]
        simp only [List.append_nil]

/-- The loop over a concatenation: the sources of the first list, then those
of the second, from the index and with the configs that the first part ends
with. -/
theorem getSelectedEnvConfigsFrom_append (pave : Pave) (inp : Input)
    (extra : List (String × List Extra)) (l1 l2 : List EnvironmentSource) (i : Nat)
    (acc : List Doc) :
    getSelectedEnvConfigsFrom pave inp extra i (l1 ++ l2) acc =
      match getSelectedEnvConfigsFrom pave inp extra i l1 acc with
      | .error e => .error e
      | .ok envConfigs =>
        getSelectedEnvConfigsFrom pave inp extra (i + l1.length) l2 envConfigs := by
  induction l1 generalizing i acc with
  | nil => simp [getSelectedEnvConfigsFrom]
  | cons c rest ih =>
    rw [List.cons_append, getSelectedEnvConfigsFrom_cons, getSelectedEnvConfigsFrom_cons]
    cases mapLookup extra (extraResName i) with
    | none => rfl
    | some resources =>
      simp only
      cases selectedOf pave inp c resources with
      | error e => rfl
      | ok out =>
        simp only
        rw [ih, List.length_cons, show i + (rest.length + 1) = i + 1 + rest.length by omega]

/-- A source whose type is neither unset, `Reference` nor `Selector` adds no
config and raises no error. -/
theorem selectedOf_unrecognized (pave : Pave) (inp : Input) (config : EnvironmentSource)
    (resources : List Extra) (h1 : config.SourceType ≠ "")
    (h2 : config.SourceType ≠ EnvironmentSourceTypeReference)
    (h3 : config.SourceType ≠ EnvironmentSourceTypeSelector) :
    selectedOf pave inp config resources = .ok [] := by
  have hg : config.GetType = config.SourceType := by
    unfold EnvironmentSource.GetType
    rw [if_neg h1]
  unfold selectedOf
  rw [hg, if_neg h2, if_neg h3]

/-- C23, counterexample: the only source of `exampleUnknownInput` has the type
`Label`; with a candidate under its index, `getSelectedEnvConfigs` succeeds
and selects nothing. -/
theorem getSelectedEnvConfigs_unrecognized_counterexample :
    exampleUnknownSource.GetType = "Label" ∧
    getSelectedEnvConfigs fieldpathPave exampleUnknownInput
      [("environment-config-0", [exampleEnvConfig])] = .ok [] :=
  ⟨rfl, rfl⟩

/-- C23, amended: a source whose type is neither unset, `Reference` nor
`Selector`, with candidates under its index, is passed over:
`getSelectedEnvConfigs` processes the sources before it and goes on to the
sources after it with the configs selected so far, whatever the candidates
under the index of the source are. -/
theorem getSelectedEnvConfigs_unrecognized (pave : Pave) (inp : Input)
    (extra : List (String × List Extra)) (cpre cpost : List EnvironmentSource)
    (config : EnvironmentSource) (resources : List Extra)
    (hcfgs : inp.Spec.EnvironmentConfigs = some (cpre ++ config :: cpost))
    (h1 : config.SourceType ≠ "")
    (h2 : config.SourceType ≠ EnvironmentSourceTypeReference)
    (h3 : config.SourceType ≠ EnvironmentSourceTypeSelector)
    (hentry : mapLookup extra (extraResName cpre.length) = some resources) :
    getSelectedEnvConfigs pave inp extra =
      match getSelectedEnvConfigsFrom pave inp extra 0 cpre [] with
      | .error e => .error e
      | .ok envConfigs =>
        getSelectedEnvConfigsFrom pave inp extra (cpre.length + 1) cpost envConfigs := by
  unfold getSelectedEnvConfigs
  rw [hcfgs, Option.getD_some, getSelectedEnvConfigsFrom_append]
  cases getSelectedEnvConfigsFrom pave inp extra 0 cpre [] with
  | error e => rfl
  | ok envConfigs =>
    simp only
    rw [getSelectedEnvConfigsFrom_cons, Nat.zero_add, hentry]
    simp only [selectedOf_unrecognized pave inp config resources h1 h2 h3, List.append_nil]

/-- Witness of C23 (amended): a source of type `Label` between two references;
the two references are selected. -/
theorem getSelectedEnvConfigs_unrecognized_witness :
    getSelectedEnvConfigs fieldpathPave exampleUnknownBetweenInput exampleThreeCandidates
      = .ok [exampleEnvConfig, exampleSecondEnvConfig] :=
  (getSelectedEnvConfigs_unrecognized fieldpathPave exampleUnknownBetweenInput
    exampleThreeCandidates [⟨"Reference", some ⟨"my-env-config"⟩, none⟩]
    [⟨"Reference", some ⟨"my-second-env-config"⟩, none⟩] exampleUnknownSource
    [exampleEnvConfig] rfl (by decide) (by decide) (by decide) rfl).trans rfl

/-! ## Claims on the responses without a computed environment -/

/-- An error value, as opposed to a panic, is reported as a fatal result. -/
theorem returnFatal_of_ne (rsp : RunFunctionResponse) (msg : String) (err : Error)
    (h : err ≠ .nilDereference) :
    returnFatal rsp msg err
      = .ok ⟨rsp.Results ++ [⟨true, .wrap msg err⟩], rsp.Requirements, rsp.Context⟩ := by
  cases err <;> first | rfl | exact absurd rfl h

theorem wrapf_eq_nilDereference (msg : String) (e : Error)
    (h : wrapf msg e = .nilDereference) : e = .nilDereference := by
  cases e <;> first | rfl | cases h

/-- The resolver of a selector source does not dereference a nil selector:
with a nil selector `GetMode` yields `Single`, and that case does not read the
selector. -/
theorem processEnvironmentSource_ne_nilDereference (pave : Pave)
    (config : EnvironmentSource) (resources : List Extra) :
    processEnvironmentSource pave config resources ≠ .error .nilDereference := by
  intro h
  unfold processEnvironmentSource at h
  by_cases hs : GetMode config.Selector = EnvironmentSourceSelectorSingleMode
  · simp only [hs, if_true] at h
    split at h <;> cases h
  · simp only [hs, if_false] at h
    cases hsel : config.Selector with
    | none => rw [hsel] at hs; exact hs rfl
    | some sel =>
      rw [hsel] at h
      by_cases hm : GetMode (some sel) = EnvironmentSourceSelectorMultiMode
      · simp only [hm, if_true] at h
        have hsort : ∀ r : Except Error (List Doc),
            (match sortExtrasByFieldPath pave resources (GetSortByFieldPath (some sel)) with
              | .error e => .error e
              | .ok sorted =>
                match sel.MaxMatch with
                | some m => if sorted.length > m then .ok (sorted.take m) else .ok sorted
                | none => .ok sorted) = r → r ≠ .error .nilDereference := by
          intro r hr hnil
          subst hr
          cases hso : sortExtrasByFieldPath pave resources (GetSortByFieldPath (some sel)) with
          | error e =>
            rw [hso] at hnil
            have he : e = .nilDereference := Except.error.inj hnil
            subst he
            rcases sortExtrasByFieldPath_error_kind pave resources _ _ hso with
              h1 | ⟨_, h1⟩ | ⟨_, _, h1⟩ | ⟨_, h1⟩ <;> cases h1
          | ok sorted =>
            rw [hso] at hnil
            simp only at hnil
            split at hnil
            · split at hnil <;> cases hnil
            · cases hnil
        split at h
        · split at h
          · cases h
          · exact hsort _ rfl h
        · exact hsort _ rfl h
      · simp only [hm, if_false] at h
        cases h

/-- A source whose reference is set where its type asks for one raises no
panic in the loop of `getSelectedEnvConfigs`. -/
theorem selectedOf_ne_nilDereference (pave : Pave) (inp : Input)
    (config : EnvironmentSource) (resources : List Extra)
    (href : config.GetType = EnvironmentSourceTypeReference → config.Ref ≠ none) :
    selectedOf pave inp config resources ≠ .error .nilDereference := by
  intro h
  unfold selectedOf at h
  by_cases h1 : config.GetType = EnvironmentSourceTypeReference
  · rw [if_pos h1] at h
    cases hr : processSourceByReference inp config resources with
    | error e =>
      rw [hr] at h
      have he := wrapf_eq_nilDereference _ _ (Except.error.inj h)
      subst he
      unfold processSourceByReference at hr
      cases hc : config.Ref with
      | none => exact href h1 hc
      | some ref =>
        rw [hc] at hr
        simp only at hr
        split at hr
        · split at hr <;> cases hr
        · cases hr
        · cases hr
    | ok r =>
      rw [hr] at h
      cases r <;> cases h
  · rw [if_neg h1] at h
    by_cases h2 : config.GetType = EnvironmentSourceTypeSelector
    · rw [if_pos h2] at h
      cases hp : processEnvironmentSource pave config resources with
      | error e =>
        rw [hp] at h
        have he := wrapf_eq_nilDereference _ _ (Except.error.inj h)
        subst he
        exact processEnvironmentSource_ne_nilDereference pave config resources hp
      | ok out => rw [hp] at h; cases h
    · rw [if_neg h2] at h
      cases h

theorem getSelectedEnvConfigsFrom_ne_nilDereference (pave : Pave) (inp : Input)
    (extra : List (String × List Extra)) (cfgs : List EnvironmentSource) (i : Nat)
    (acc : List Doc)
    (href : ∀ c ∈ cfgs, c.GetType = EnvironmentSourceTypeReference → c.Ref ≠ none) :
    getSelectedEnvConfigsFrom pave inp extra i cfgs acc ≠ .error .nilDereference := by
  induction cfgs generalizing i acc with
  | nil => simp [getSelectedEnvConfigsFrom]
  | cons c rest ih =>
    rw [getSelectedEnvConfigsFrom_cons]
    cases mapLookup extra (extraResName i) with
    | none => simp
    | some resources =>
      simp only
      cases hs : selectedOf pave inp c resources with
      | error e =>
        intro h
        have he : e = .nilDereference := Except.error.inj h
        subst he
        exact selectedOf_ne_nilDereference pave inp c resources
          (href c (List.mem_cons_self _ _)) hs
      | ok out =>
        exact ih _ _ (fun c2 h2 => href c2 (List.mem_cons_of_mem _ h2))

/-- When the requirement of a source can be built, its reference is set where
its type asks for one. -/
theorem ref_ne_none_of_requirementOf (pave : Pave) (xr : Doc) (config : EnvironmentSource)
    (r : Option ResourceSelector) (h : requirementOf pave xr config = .ok r)
    (ht : config.GetType = EnvironmentSourceTypeReference) : config.Ref ≠ none := by
  intro hnone
  have h1 : config.SourceType = EnvironmentSourceTypeReference ∨ config.SourceType = "" := by
    unfold EnvironmentSource.GetType at ht
    by_cases he : config.SourceType = ""
    · exact Or.inr he
    · rw [if_neg he] at ht; exact Or.inl ht
  unfold requirementOf at h
  rw [if_pos h1, hnone] at h
  cases h

/-- Once `buildRequirements` has succeeded, `getSelectedEnvConfigs` raises no
panic: each pointer that it reads was read by `buildRequirements`. -/
theorem getSelectedEnvConfigs_ne_nilDereference (pave : Pave) (inp : Input) (xr : Doc)
    (reqs : Requirements) (extra : List (String × List Extra))
    (hb : buildRequirements pave inp xr = .ok reqs) :
    getSelectedEnvConfigs pave inp extra ≠ .error .nilDereference := by
  unfold getSelectedEnvConfigs
  apply getSelectedEnvConfigsFrom_ne_nilDereference
  intro c hc ht
  obtain ⟨j, hj⟩ := List.getElem?_of_mem hc
  obtain ⟨r, hr, _⟩ := buildRequirements_entry pave inp xr reqs j c hb hj
  exact ref_ne_none_of_requirementOf pave xr c r hr ht

theorem mergeEnvConfigsDataFrom_ne_nilDereference (pave : Pave) (configs : List Doc)
    (merged : Doc) : mergeEnvConfigsDataFrom pave configs merged ≠ .error .nilDereference := by
  induction configs generalizing merged with
  | nil => simp [mergeEnvConfigsDataFrom]
  | cons c rest ih =>
    unfold mergeEnvConfigsDataFrom
    cases hg : GetValueInto pave c "data" with
    | error e =>
      simp only
      intro h
      have he := wrapf_eq_nilDereference _ _ (Except.error.inj h)
      subst he
      unfold GetValueInto at hg
      split at hg
      · cases hg
      · split at hg <;> cases hg
    | ok data => exact ih _

/-- C24: for a request whose input declares `environmentConfigs`, whose
manifest `buildRequirements` builds from the observed composite resource, and
that carries no extra resources, `RunFunction` returns a response with the
whole manifest, without any result, and with the context of the request: the
environment entry is what the request carried, absent if it carried none. -/
theorem RunFunction_manifest_only (pave : Pave) (req : RunFunctionRequest) (inp : Input)
    (cfgs : List EnvironmentSource) (xr : Doc) (reqs : Requirements)
    (hin : req.Input = .ok inp) (hcfg : inp.Spec.EnvironmentConfigs = some cfgs)
    (hox : req.ObservedComposite = .ok xr)
    (hb : buildRequirements pave inp xr = .ok reqs)
    (hex : req.ExtraResources = none) :
    ∃ rsp, RunFunction pave req = .ok rsp ∧ rsp.Requirements = some reqs ∧
      rsp.Results = [] ∧ rsp.Context = req.Context ∧
      mapLookup rsp.Context FunctionContextKeyEnvironment
        = mapLookup req.Context FunctionContextKeyEnvironment := by
  refine ⟨⟨[], some reqs, req.Context⟩, ?_, rfl, rfl, rfl, rfl⟩
  unfold RunFunction
  simp only [hin, hcfg, hox, hb, hex]
  rfl

/-- Witness of C24: the request of the test `RequestEnvironmentConfigs` is
answered with the manifest alone. -/
theorem RunFunction_manifest_only_witness :
    ∃ rsp, RunFunction fieldpathPave exampleFirstRequest = .ok rsp ∧
      rsp.Requirements = some exampleManifest ∧ rsp.Results = [] ∧
      mapLookup rsp.Context FunctionContextKeyEnvironment = none := by
  obtain ⟨rsp, h1, h2, h3, _, h5⟩ := RunFunction_manifest_only fieldpathPave
    exampleFirstRequest exampleInput exampleSources exampleComposite exampleManifest
    rfl rfl rfl rfl rfl
  exact ⟨rsp, h1, h2, h3, h5⟩

/-- C25: for a request with extra resources whose manifest `buildRequirements`
has built and whose input environment, if any, was loaded: when
`getSelectedEnvConfigs` returns an error, or when it succeeds and
`mergeEnvConfigsData` returns an error, `RunFunction` returns a response whose
one result is fatal and wraps that error, whose requirements are the manifest,
and whose context is the context of the request, so that the environment entry
is what the request carried. -/
theorem RunFunction_selection_failure (pave : Pave) (req : RunFunctionRequest) (inp : Input)
    (cfgs : List EnvironmentSource) (xr : Doc) (reqs : Requirements)
    (extra : List (String × List Extra)) (inputEnv : Option Doc)
    (hin : req.Input = .ok inp) (hcfg : inp.Spec.EnvironmentConfigs = some cfgs)
    (hox : req.ObservedComposite = .ok xr)
    (hb : buildRequirements pave inp xr = .ok reqs)
    (hex : req.ExtraResources = some (.ok extra))
    (henv : loadInputEnv req = .ok inputEnv) :
    (∀ err, getSelectedEnvConfigs pave inp extra = .error err →
      ∃ rsp, RunFunction pave req = .ok rsp ∧
        rsp.Results = [⟨true, .wrap "cannot get selected environment configs" err⟩] ∧
        rsp.Requirements = some reqs ∧ rsp.Context = req.Context ∧
        mapLookup rsp.Context FunctionContextKeyEnvironment
          = mapLookup req.Context FunctionContextKeyEnvironment) ∧
    (∀ envConfigs err, getSelectedEnvConfigs pave inp extra = .ok envConfigs →
      mergeEnvConfigsData pave envConfigs = .error err →
      ∃ rsp, RunFunction pave req = .ok rsp ∧
        rsp.Results = [⟨true, .wrap "cannot merge environment data" err⟩] ∧
        rsp.Requirements = some reqs ∧ rsp.Context = req.Context ∧
        mapLookup rsp.Context FunctionContextKeyEnvironment
          = mapLookup req.Context FunctionContextKeyEnvironment) := by
  constructor
  · intro err hsel
    have hne : err ≠ .nilDereference := by
      intro he
      subst he
      exact getSelectedEnvConfigs_ne_nilDereference pave inp xr reqs extra hb hsel
    refine ⟨⟨[⟨true, .wrap "cannot get selected environment configs" err⟩], some reqs,
      req.Context⟩, ?_, rfl, rfl, rfl, rfl⟩
    unfold RunFunction
    simp only [hin, hcfg, hox, hb, hex, henv, hsel]
    rw [returnFatal_of_ne _ _ _ hne]
    rfl
  · intro envConfigs err hsel hmerge
    have hne : err ≠ .nilDereference := by
      intro he
      subst he
      exact mergeEnvConfigsDataFrom_ne_nilDereference pave envConfigs [] hmerge
    refine ⟨⟨[⟨true, .wrap "cannot merge environment data" err⟩], some reqs,
      req.Context⟩, ?_, rfl, rfl, rfl, rfl⟩
    unfold RunFunction
    simp only [hin, hcfg, hox, hb, hex, henv, hsel, hmerge]
    rw [returnFatal_of_ne _ _ _ hne]
    rfl

/-- Witness of C25: in the request of the test
`RequestEnvironmentConfigsNotFoundRequired` the required reference has no
candidate; the response holds one fatal result and the manifest, and no
environment. -/
theorem RunFunction_selection_failure_witness :
    ∃ rsp, RunFunction fieldpathPave exampleNotFoundRequest = .ok rsp ∧
      rsp.Results = [⟨true, .wrap "cannot get selected environment configs"
        (.wrap "cannot process environment config %q by reference, %q"
          (.requiredNotFound "my-env-config"))⟩] ∧
      rsp.Requirements = some ⟨[("environment-config-0",
        ⟨"apiextensions.crossplane.io/v1beta1", "EnvironmentConfig",
          .MatchName "my-env-config"⟩)]⟩ ∧
      mapLookup rsp.Context FunctionContextKeyEnvironment = none := by
  obtain ⟨rsp, h1, h2, h3, _, h5⟩ := (RunFunction_selection_failure fieldpathPave
    exampleNotFoundRequest
    ⟨⟨none, some [⟨"Reference", some ⟨"my-env-config"⟩, none⟩], none, none⟩⟩
    [⟨"Reference", some ⟨"my-env-config"⟩, none⟩]
    [("apiVersion", .str "test.crossplane.io/v1alpha1"),
      ("kind", .str "XR"), ("metadata", .object [("name", .str "my-xr")])]
    ⟨[("environment-config-0",
        ⟨"apiextensions.crossplane.io/v1beta1", "EnvironmentConfig",
          .MatchName "my-env-config"⟩)]⟩
    [("environment-config-0", [])] none rfl rfl rfl rfl rfl rfl).1
    (.wrap "cannot process environment config %q by reference, %q"
      (.requiredNotFound "my-env-config")) rfl
  exact ⟨rsp, h1, h2, h3, h5⟩

/-! ## Claims on the type identity of the environment and on the empty overlay -/

theorem getAPIVersion_of_absent (m : Doc) (h : mapLookup m "apiVersion" = none) :
    GetAPIVersion m = "" := by
  unfold GetAPIVersion
  rw [h]

/-- Merged data without a string at `kind` and without an `apiVersion` entry
has the empty group version kind. -/
theorem groupVersionKindEmpty_of_untyped (m : Doc) (ha : mapLookup m "apiVersion" = none)
    (hk : GetKind m = "") : GroupVersionKindEmpty m = true := by
  unfold GroupVersionKindEmpty
  rw [getAPIVersion_of_absent m ha, hk]
  rfl

/-- Merged data with a non-empty string at `kind` and an `apiVersion` that
parses does not have the empty group version kind. -/
theorem groupVersionKindEmpty_of_kind (m : Doc) (hk : GetKind m ≠ "")
    (hp : (ParseGroupVersion (GetAPIVersion m)).isSome = true) :
    GroupVersionKindEmpty m = false := by
  unfold GroupVersionKindEmpty
  cases hgv : ParseGroupVersion (GetAPIVersion m) with
  | none => rw [hgv] at hp; cases hp
  | some gv =>
    obtain ⟨g, v⟩ := gv
    simp [hk]

theorem stampEnvironment_of_neither (m : Doc) (ha : mapLookup m "apiVersion" = none)
    (hk : mapLookup m "kind" = none) :
    stampEnvironment m = m ++ [("apiVersion", .str "internal.crossplane.io/v1alpha1"),
      ("kind", .str "Environment")] := by
  have hgk : GetKind m = "" := by
    unfold GetKind
    rw [hk]
  unfold stampEnvironment
  rw [groupVersionKindEmpty_of_untyped m ha hgk, if_pos rfl]
  unfold SetGroupVersionKind
  rw [mapStore_of_not_mem m "apiVersion" _ ((mapLookup_eq_none_iff m "apiVersion").mp ha)]
  have hk2 : "kind" ∉
      keys (m ++ [("apiVersion", Value.str "internal.crossplane.io/v1alpha1")]) := by
    have := (mapLookup_eq_none_iff m "kind").mp hk
    simp only [keys, List.map_append, List.mem_append, List.map_cons, List.map_nil,
      List.mem_singleton] at this ⊢
    rintro (h | h)
    · exact this h
    · exact absurd h (by decide)
  rw [mapStore_of_not_mem _ "kind" _ hk2, List.append_assoc]
  rfl

theorem stampEnvironment_of_kind (m : Doc) (kind : String)
    (hkind : mapLookup m "kind" = some (.str kind)) (hne : kind ≠ "")
    (hapi : mapLookup m "apiVersion" = none ∨
      (ParseGroupVersion (GetAPIVersion m)).isSome = true) :
    stampEnvironment m = m := by
  have hgk : GetKind m ≠ "" := by
    unfold GetKind
    rw [hkind]
    exact hne
  have hp : (ParseGroupVersion (GetAPIVersion m)).isSome = true := by
    rcases hapi with ha | hp
    · rw [getAPIVersion_of_absent m ha]
      rfl
    · exact hp
  unfold stampEnvironment
  rw [groupVersionKindEmpty_of_kind m hgk hp]
  rfl

theorem stampEnvironment_of_untyped (m : Doc) (ha : mapLookup m "apiVersion" = none)
    (hk : GetKind m = "") :
    mapLookup (stampEnvironment m) "apiVersion"
      = some (.str "internal.crossplane.io/v1alpha1") ∧
    mapLookup (stampEnvironment m) "kind" = some (.str "Environment") ∧
    ∀ k, k ≠ "apiVersion" → k ≠ "kind" →
      mapLookup (stampEnvironment m) k = mapLookup m k := by
  have hst : stampEnvironment m = SetGroupVersionKind m := by
    unfold stampEnvironment
    rw [groupVersionKindEmpty_of_untyped m ha hk, if_pos rfl]
  refine ⟨?_, ?_, ?_⟩
  · rw [hst]
    simp [SetGroupVersionKind, mapLookup_mapStore]
  · rw [hst]
    simp [SetGroupVersionKind, mapLookup_mapStore]
  · intro k hk1 hk2
    exact mapLookup_stampEnvironment m k hk1 hk2

/-- C26, counterexample: the data of the only selected config holds an object
under `kind` and has no `apiVersion`; the run succeeds, and the environment
holds `"Environment"` under `kind`, so it is not the merged data. -/
theorem RunFunction_stamp_counterexample :
    ∃ rsp env, RunFunction fieldpathPave exampleNestedKindRequest = .ok rsp ∧
      rsp.Results = [] ∧
      mergeEnvConfigsData fieldpathPave [exampleNestedKindEnvConfig]
        = .ok exampleNestedKindData ∧
      mapLookup exampleNestedKindData "kind" = some (.object [("name", .str "prod")]) ∧
      mapLookup exampleNestedKindData "apiVersion" = none ∧
      mapLookup rsp.Context FunctionContextKeyEnvironment = some (.object env) ∧
      mapLookup env "kind" = some (.str "Environment") ∧
      env ≠ exampleNestedKindData :=
  ⟨_, _, rfl, rfl, rfl, rfl, rfl, rfl, rfl,
    (show ([("kind", Value.str "Environment"), ("c", Value.str "s0"),
        ("apiVersion", Value.str "internal.crossplane.io/v1alpha1")] : Doc)
      ≠ [("kind", Value.object [("name", Value.str "prod")]), ("c", Value.str "s0")]
      by simp)⟩

/-- C26, amended: in a run with candidates and no fatal result, let `merged` be
the merged data after the input environment and the default data were merged
in, and `env` the environment document in the response context. When `merged`
has neither an `apiVersion` nor a `kind` entry, `env` is `merged` with
`apiVersion` `internal.crossplane.io/v1alpha1` and `kind` `Environment` added.
When `merged` holds a non-empty string under `kind`, and its `apiVersion` is
absent or parses as a group version, `env` is `merged`. When `merged` has no
`apiVersion` entry and holds no string, or the empty string, under `kind`,
`env` holds the default `apiVersion` and `kind`, and every other key is as in
`merged`. -/
theorem RunFunction_stamp (pave : Pave) (req : RunFunctionRequest) (inp : Input)
    (cfgs : List EnvironmentSource) (extra : List (String × List Extra))
    (rsp : RunFunctionResponse)
    (hin : req.Input = .ok inp) (hcfg : inp.Spec.EnvironmentConfigs = some cfgs)
    (hextra : req.ExtraResources = some (.ok extra))
    (hrun : RunFunction pave req = .ok rsp) (hok : rsp.Results = []) :
    ∃ inputEnv envConfigs mergedData merged env,
      loadInputEnv req = .ok inputEnv ∧
      getSelectedEnvConfigs pave inp extra = .ok envConfigs ∧
      mergeEnvConfigsData pave envConfigs = .ok mergedData ∧
      mergeDefaultData inp (mergeInputEnv inputEnv mergedData) = .ok merged ∧
      mapLookup rsp.Context FunctionContextKeyEnvironment = some (.object env) ∧
      (mapLookup merged "apiVersion" = none → mapLookup merged "kind" = none →
        env = merged ++ [("apiVersion", .str "internal.crossplane.io/v1alpha1"),
          ("kind", .str "Environment")]) ∧
      (∀ kind, mapLookup merged "kind" = some (.str kind) → kind ≠ "" →
        (mapLookup merged "apiVersion" = none ∨
          (ParseGroupVersion (GetAPIVersion merged)).isSome = true) →
        env = merged) ∧
      (mapLookup merged "apiVersion" = none → GetKind merged = "" →
        mapLookup env "apiVersion" = some (.str "internal.crossplane.io/v1alpha1") ∧
        mapLookup env "kind" = some (.str "Environment") ∧
        ∀ k, k ≠ "apiVersion" → k ≠ "kind" → mapLookup env k = mapLookup merged k) := by
  obtain ⟨inputEnv, envConfigs, mergedData, h1, h2, h3, h4⟩ :=
    RunFunction_environment pave req inp cfgs extra rsp hin hcfg hextra hrun hok
  refine ⟨inputEnv, envConfigs, mergedData, _, _, h1, h2, h3,
    mergeDefaultData_eq inp _, h4, ?_, ?_, ?_⟩
  · intro ha hk
    exact stampEnvironment_of_neither _ ha hk
  · intro kind hkind hne hapi
    exact stampEnvironment_of_kind _ kind hkind hne hapi
  · intro ha hk
    exact stampEnvironment_of_untyped _ ha hk

/-- Witness of C26 (amended): the merged data of `exampleFoundRequest` is
`c: s0`, without `apiVersion` and `kind`; the environment is this data with the
default `apiVersion` and `kind` added. -/
theorem RunFunction_stamp_witness :
    ∃ rsp, RunFunction fieldpathPave exampleFoundRequest = .ok rsp ∧
      mapLookup rsp.Context FunctionContextKeyEnvironment = some (.object
        [("c", .str "s0"), ("apiVersion", .str "internal.crossplane.io/v1alpha1"),
          ("kind", .str "Environment")]) := by
  obtain ⟨inputEnv, envConfigs, mergedData, merged, env, h1, h2, h3, h4, h5, h6, _, _⟩ :=
    RunFunction_stamp fieldpathPave exampleFoundRequest
      ⟨⟨none, some [⟨"Reference", some ⟨"my-env-config"⟩, none⟩], none, none⟩⟩
      [⟨"Reference", some ⟨"my-env-config"⟩, none⟩]
      [("environment-config-0", [exampleEnvConfig])] _ rfl rfl rfl rfl rfl
  have e1 : inputEnv = none := (Except.ok.inj h1).symm
  have e2 : envConfigs = [exampleEnvConfig] := (Except.ok.inj h2).symm
  subst e1 e2
  have e3 : mergedData = [("c", .str "s0")] := (Except.ok.inj h3).symm
  subst e3
  have e4 : merged = [("c", .str "s0")] := (Except.ok.inj h4).symm
  subst e4
  exact ⟨_, rfl, by rw [h5, h6 rfl rfl]; rfl⟩

/-- C27: for a document `a` (a map, so without repeated keys), merging the
empty overlay into `a` returns a document equal to `a`. -/
theorem mergeMaps_empty_overlay (a : Doc) (ha : UniqueKeys a) : mergeMaps a [] = a := by
  unfold mergeMaps
  rw [copyMap_eq a ha]
  unfold mergeInto
  rfl

/-- Witness of C27: a config with nested objects, merged with the empty
overlay. -/
theorem mergeMaps_empty_overlay_witness : mergeMaps exampleEnvConfig [] = exampleEnvConfig :=
  mergeMaps_empty_overlay exampleEnvConfig (by decide)

/-! ## Claims on Single mode, on the requested resource type and on missing
candidate entries -/

/-- C28: in Single mode the resolver accepts exactly one candidate. With two
or more candidates it fails with "expected exactly one extra resource, got n",
whatever the sort path of the selector; it does not sort the candidates and
does not select the first of them. -/
theorem processEnvironmentSource_single_many (pave : Pave) (config : EnvironmentSource)
    (resources : List Extra)
    (hmode : GetMode config.Selector = EnvironmentSourceSelectorSingleMode)
    (hlen : 2 ≤ resources.length) :
    processEnvironmentSource pave config resources
      = .error (.expectedExactlyOne resources.length) := by
  unfold processEnvironmentSource
  simp only [hmode, if_true]
  match resources, hlen with
  | _ :: _ :: _, _ => rfl

/-- Witness of C28: two candidates named `b` and `a` in Single mode. The sort
by `metadata.name` puts `a` first; the resolver fails. -/
theorem processEnvironmentSource_single_many_witness :
    GetSortByFieldPath exampleSingleSource.Selector = "metadata.name" ∧
    sortExtrasByFieldPath fieldpathPave exampleTwoCandidates "metadata.name"
      = .ok [[("metadata", .object [("name", .str "a")])],
          [("metadata", .object [("name", .str "b")])]] ∧
    processEnvironmentSource fieldpathPave exampleSingleSource exampleTwoCandidates
      = .error (.expectedExactlyOne 2) :=
  ⟨rfl, rfl, processEnvironmentSource_single_many fieldpathPave exampleSingleSource
    exampleTwoCandidates rfl (by decide)⟩

theorem mem_mapStore {α : Type} (m : List (String × α)) (k : String) (v : α)
    (e : String × α) (h : e ∈ mapStore m k v) : e = (k, v) ∨ e ∈ m := by
  induction m with
  | nil =>
    simp only [mapStore, List.mem_singleton] at h
    exact Or.inl h
  | cons e0 rest ih =>
    obtain ⟨k0, w⟩ := e0
    unfold mapStore at h
    by_cases h0 : k0 = k
    · rw [if_pos h0] at h
      rcases List.mem_cons.mp h with h1 | h1
      · exact Or.inl h1
      · exact Or.inr (List.mem_cons_of_mem _ h1)
    · rw [if_neg h0] at h
      rcases List.mem_cons.mp h with h1 | h1
      · exact Or.inr (h1 ▸ List.mem_cons_self _ _)
      · rcases ih h1 with h2 | h2
        · exact Or.inl h2
        · exact Or.inr (List.mem_cons_of_mem _ h2)

/-- The requirement of a source asks for `EnvironmentConfig` of
`apiextensions.crossplane.io/v1beta1`. -/
theorem requirementOf_type (pave : Pave) (xr : Doc) (config : EnvironmentSource)
    (r : ResourceSelector) (h : requirementOf pave xr config = .ok (some r)) :
    r.Kind = "EnvironmentConfig" ∧ r.ApiVersion = "apiextensions.crossplane.io/v1beta1" := by
  unfold requirementOf at h
  split at h
  · split at h
    · cases h
    · cases h; exact ⟨rfl, rfl⟩
  · split at h
    · split at h
      · cases h
      · split at h
        · cases h
        · split at h
          · cases h
          · cases h; exact ⟨rfl, rfl⟩
    · cases h

theorem buildRequirementsFrom_type (pave : Pave) (xr : Doc) (i : Nat)
    (cfgs : List EnvironmentSource) (acc m : List (String × ResourceSelector))
    (hacc : ∀ e ∈ acc, e.2.Kind = "EnvironmentConfig" ∧
      e.2.ApiVersion = "apiextensions.crossplane.io/v1beta1")
    (h : buildRequirementsFrom pave xr i cfgs acc = .ok m) :
    ∀ e ∈ m, e.2.Kind = "EnvironmentConfig" ∧
      e.2.ApiVersion = "apiextensions.crossplane.io/v1beta1" := by
  induction cfgs generalizing i acc with
  | nil =>
    simp only [buildRequirementsFrom] at h
    rw [← Except.ok.inj h]
    exact hacc
  | cons c rest ih =>
    rw [buildRequirementsFrom_cons] at h
    cases hr : requirementOf pave xr c with
    | error e => rw [hr] at h; cases h
    | ok r =>
      rw [hr] at h
      cases r with
      | none => exact ih (i + 1) acc hacc h
      | some s =>
        simp only at h
        apply ih (i + 1) _ _ h
        intro e he
        rcases mem_mapStore _ _ _ _ he with h1 | h1
        · rw [h1]
          exact requirementOf_type pave xr c s hr
        · exact hacc e h1

/-- C29, counterexample: the manifest built for the input and the composite
resource of the test `RequestEnvironmentConfigs`; the requirement by name for
the first source and the requirement by labels for the third have the
apiVersion `apiextensions.crossplane.io/v1beta1`. -/
theorem buildRequirements_type_counterexample :
    buildRequirements fieldpathPave exampleInput exampleComposite = .ok exampleManifest ∧
    mapLookup exampleManifest.ExtraResources "environment-config-0"
      = some ⟨"apiextensions.crossplane.io/v1beta1", "EnvironmentConfig",
          .MatchName "my-env-config"⟩ ∧
    mapLookup exampleManifest.ExtraResources "environment-config-2"
      = some ⟨"apiextensions.crossplane.io/v1beta1", "EnvironmentConfig",
          .MatchLabels [("foo", "bar")]⟩ ∧
    "apiextensions.crossplane.io/v1beta1" ≠ "apiextensions.crossplane.io/v1alpha1" :=
  ⟨rfl, rfl, rfl, by decide⟩

/-- C29, amended: every requirement that `buildRequirements` emits, by name or
by labels, selects resources of kind `EnvironmentConfig` with the apiVersion
`apiextensions.crossplane.io/v1beta1`, and so none with
`apiextensions.crossplane.io/v1alpha1`. -/
theorem buildRequirements_type (pave : Pave) (inp : Input) (xr : Doc) (reqs : Requirements)
    (name : String) (r : ResourceSelector)
    (hok : buildRequirements pave inp xr = .ok reqs)
    (hr : (name, r) ∈ reqs.ExtraResources) :
    r.Kind = "EnvironmentConfig" ∧ r.ApiVersion = "apiextensions.crossplane.io/v1beta1" ∧
    r.ApiVersion ≠ "apiextensions.crossplane.io/v1alpha1" := by
  unfold buildRequirements at hok
  obtain ⟨m, hm, hreq⟩ := except_map_eq_ok _ _ _ hok
  subst hreq
  obtain ⟨h1, h2⟩ := buildRequirementsFrom_type pave xr 0 _ [] m
    (fun e he => absurd he (List.not_mem_nil e)) hm (name, r) hr
  refine ⟨h1, h2, ?_⟩
  rw [h2]
  decide

/-- Witness of C29 (amended): the requirement by labels that the manifest of
`exampleInput` holds for the third source. -/
theorem buildRequirements_type_witness :
    (⟨"apiextensions.crossplane.io/v1beta1", "EnvironmentConfig",
      .MatchLabels [("foo", "bar")]⟩ : ResourceSelector).ApiVersion
        ≠ "apiextensions.crossplane.io/v1alpha1" :=
  (buildRequirements_type fieldpathPave exampleInput exampleComposite exampleManifest
    "environment-config-2"
    ⟨"apiextensions.crossplane.io/v1beta1", "EnvironmentConfig",
      .MatchLabels [("foo", "bar")]⟩ rfl
    (by simp [exampleManifest])).2.2

/-- A declared index without an entry in the candidate map makes the loop of
`getSelectedEnvConfigs` fail, at that index or before. -/
theorem getSelectedEnvConfigsFrom_missing (pave : Pave) (inp : Input)
    (extra : List (String × List Extra)) (cfgs : List EnvironmentSource) (i j : Nat)
    (acc : List Doc) (hj : j < cfgs.length)
    (hmiss : mapLookup extra (extraResName (i + j)) = none) :
    ∃ err, getSelectedEnvConfigsFrom pave inp extra i cfgs acc = .error err := by
  induction cfgs generalizing i j acc with
  | nil => simp at hj
  | cons c rest ih =>
    rw [getSelectedEnvConfigsFrom_cons]
    cases j with
    | zero =>
      rw [Nat.add_zero] at hmiss
      rw [hmiss]
      exact ⟨_, rfl⟩
    | succ j2 =>
      cases mapLookup extra (extraResName i) with
      | none => exact ⟨_, rfl⟩
      | some resources =>
        simp only
        cases selectedOf pave inp c resources with
        | error e => exact ⟨_, rfl⟩
        | ok out =>
          simp only
          apply ih (i + 1) j2
          · simp only [List.length_cons] at hj
            omega
          · rw [show i + 1 + j2 = i + (j2 + 1) by omega]
            exact hmiss

/-- C30: when the candidate map has no entry under `environment-config-<i>`
for a declared index `i`, `getSelectedEnvConfigs` fails, whatever the type of
the source at `i` and the resolution policy of the input are. So it fails for
a selector source whose resolved label set is empty, for which
`buildRequirements` emits no requirement, when the keys of the candidate map
are the keys of the manifest. -/
theorem getSelectedEnvConfigs_missing_entry (pave : Pave) (inp : Input)
    (extra : List (String × List Extra)) :
    (∀ i, i < (inp.Spec.EnvironmentConfigs.getD []).length →
      mapLookup extra (extraResName i) = none →
      ∃ err, getSelectedEnvConfigs pave inp extra = .error err) ∧
    (∀ xr reqs (i : Nat) config sel, buildRequirements pave inp xr = .ok reqs →
      (inp.Spec.EnvironmentConfigs.getD [])[i]? = some config →
      config.SourceType = EnvironmentSourceTypeSelector → config.Selector = some sel →
      resolveMatchLabels pave xr sel.MatchLabels [] = .ok [] →
      (∀ k, k ∈ keys extra ↔ k ∈ keys reqs.ExtraResources) →
      ∃ err, getSelectedEnvConfigs pave inp extra = .error err) := by
  have hfirst : ∀ i, i < (inp.Spec.EnvironmentConfigs.getD []).length →
      mapLookup extra (extraResName i) = none →
      ∃ err, getSelectedEnvConfigs pave inp extra = .error err := by
    intro i hi hmiss
    unfold getSelectedEnvConfigs
    apply getSelectedEnvConfigsFrom_missing pave inp extra _ 0 i [] hi
    rw [Nat.zero_add]
    exact hmiss
  refine ⟨hfirst, ?_⟩
  intro xr reqs i config sel hok hi htype hsel hempty hkeys
  obtain ⟨r, hr, hl⟩ := buildRequirements_entry pave inp xr reqs i config hok hi
  rw [requirementOf_selector pave xr config sel htype hsel, hempty] at hr
  simp only [List.length_nil, if_true] at hr
  have hnone : mapLookup reqs.ExtraResources (extraResName i) = none := by
    rw [hl, ← Except.ok.inj hr]
  have hnot : extraResName i ∉ keys extra := fun hk =>
    (mapLookup_eq_none_iff _ _).mp hnone ((hkeys _).mp hk)
  have hlt : i < (inp.Spec.EnvironmentConfigs.getD []).length := by
    by_contra hge
    rw [List.getElem?_eq_none (by omega)] at hi
    cases hi
  exact hfirst i hlt ((mapLookup_eq_none_iff _ _).mpr hnot)

/-- Witness of C30: the fourth source of `exampleInput` resolves to no label,
so `exampleManifest` has no requirement for it; with candidates under the names
of the manifest, the resolution fails. -/
theorem getSelectedEnvConfigs_missing_entry_witness :
    keys exampleManifestCandidates = keys exampleManifest.ExtraResources ∧
    ∃ err, getSelectedEnvConfigs fieldpathPave exampleInput exampleManifestCandidates
      = .error err :=
  ⟨rfl, (getSelectedEnvConfigs_missing_entry fieldpathPave exampleInput
    exampleManifestCandidates).2 exampleComposite exampleManifest 3 exampleOptionalSource
    ⟨"Single", none, none, "",
      [⟨"", "someMoreFoo", some "spec.missingEnvSelectorLabel", some "Optional", none⟩]⟩
    rfl rfl rfl rfl rfl (fun _ => Iff.rfl)⟩

/-! ## Claims on the algebra of `mergeMaps` -/

theorem mapStore_of_lookup {α : Type} (m : List (String × α)) (k : String) (w : α)
    (h : mapLookup m k = some w) : mapStore m k w = m := by
  induction m with
  | nil => simp [mapLookup] at h
  | cons e rest ih =>
    obtain ⟨k0, w0⟩ := e
    by_cases h0 : k0 = k
    · subst h0
      have hw : w0 = w := by simpa [mapLookup] using h
      subst hw
      simp [mapStore]
    · have hr : mapLookup rest k = some w := by simpa [mapLookup, h0] using h
      simp [mapStore, h0, ih hr]

/-- Overlaying entries with fresh, distinct keys appends them. -/
theorem mergeInto_of_disjoint (out b : Doc) (hb : UniqueKeys b)
    (hd : ∀ k, k ∈ keys b → k ∉ keys out) : mergeInto out b = out ++ b := by
  induction b generalizing out with
  | nil => simp [mergeInto]
  | cons e rest ih =>
    obtain ⟨k, v⟩ := e
    have hnd : k ∉ keys rest ∧ UniqueKeys rest := by
      simpa [UniqueKeys, keys] using hb
    have hk : k ∉ keys out := hd k (by simp [keys])
    have hl : mapLookup out k = none := (mapLookup_eq_none_iff out k).mpr hk
    rw [mergeInto, mergeEntry, hl, mergeValue_of_not_both none v (Or.inr (Or.inl rfl)),
      mapStore_of_not_mem out k v hk, ih _ hnd.2]
    · simp
    · intro k2 hk2 hmem
      simp only [keys, List.map_append, List.mem_append, List.map_cons, List.map_nil,
        List.mem_singleton] at hmem
      rcases hmem with h | h
      · exact hd k2 (by simp only [keys, List.map_cons, List.mem_cons]; exact Or.inr hk2) h
      · subst h
        exact hnd.1 hk2

theorem mergeInto_nil (b : Doc) (hb : UniqueKeys b) : mergeInto [] b = b := by
  rw [mergeInto_of_disjoint [] b hb (fun k _ h => by simp [keys] at h)]
  rfl

/-- Overlaying entries that the map already holds, merged, changes nothing. -/
theorem mergeInto_of_fixed (s m : Doc)
    (h : ∀ k v, (k, v) ∈ s → ∃ w, mapLookup m k = some w ∧ mergeValue (some w) v = w) :
    mergeInto m s = m := by
  induction s with
  | nil => simp [mergeInto]
  | cons e rest ih =>
    obtain ⟨k, v⟩ := e
    obtain ⟨w, hw, hv⟩ := h k v (List.mem_cons_self _ _)
    rw [mergeInto, mergeEntry, hw, hv, mapStore_of_lookup m k w hw]
    exact ih (fun k2 v2 h2 => h k2 v2 (List.mem_cons_of_mem _ h2))

theorem deepUniqueValue_of_mem (b : Doc) (k : String) (v : Value)
    (hb : deepUniqueEntries b = true) (hm : (k, v) ∈ b) : deepUniqueValue v = true := by
  induction b with
  | nil => cases hm
  | cons e rest ih =>
    rw [deepUniqueEntries, Bool.and_eq_true] at hb
    rcases List.mem_cons.mp hm with h | h
    · subst h
      have := hb.1
      rwa [deepUniqueEntry] at this
    · exact ih hb.2 h

theorem sizeOf_lt_of_mem_object (b vm : Doc) (k : String) (hm : (k, Value.object vm) ∈ b) :
    sizeOf vm < sizeOf b := by
  have h1 := List.sizeOf_lt_of_mem hm
  simp only [Prod.mk.sizeOf_spec, Value.object.sizeOf_spec] at h1
  omega

/-- Re-applying an overlay to the accumulator it was applied to changes
nothing, for an overlay whose objects have unique keys at every level. -/
theorem mergeInto_idempotent_of_size (n : Nat) :
    ∀ b : Doc, sizeOf b < n → UniqueKeys b → deepUniqueEntries b = true →
      ∀ out : Doc, mergeInto (mergeInto out b) b = mergeInto out b := by
  induction n with
  | zero => intro b hb; omega
  | succ n ih =>
    intro b hsize hu hdeep out
    apply mergeInto_of_fixed
    intro k v hm
    have hl := mapLookup_mergeInto_of_present out b k v hu (mapLookup_eq_some_of_mem b k v hu hm)
    refine ⟨_, hl, ?_⟩
    cases v with
    | object vm =>
      have hv := deepUniqueValue_of_mem b k _ hdeep hm
      rw [deepUniqueValue, Bool.and_eq_true, decide_eq_true_eq] at hv
      have hlt : sizeOf vm < n := by
        have := sizeOf_lt_of_mem_object b vm k hm
        omega
      have hrec := ih vm hlt hv.1 hv.2
      have hself : mergeMaps vm vm = vm := by
        unfold mergeMaps
        rw [copyMap_eq vm hv.1]
        have h2 := hrec []
        rwa [mergeInto_nil vm hv.1] at h2
      cases hout : mapLookup out k with
      | none =>
        rw [mergeValue_of_not_both none (.object vm) (Or.inr (Or.inl rfl)),
          mergeValue_object, hself]
      | some w =>
        cases w with
        | object am =>
          rw [mergeValue_object, mergeValue_object]
          unfold mergeMaps
          rw [copyMap_eq _ (uniqueKeys_mergeInto _ _ (uniqueKeys_copyMap am)), hrec]
        | null =>
          rw [mergeValue_of_not_both (some .null) (.object vm)
            (Or.inr (Or.inr ⟨_, rfl, rfl⟩)), mergeValue_object, hself]
        | bool x =>
          rw [mergeValue_of_not_both (some (.bool x)) (.object vm)
            (Or.inr (Or.inr ⟨_, rfl, rfl⟩)), mergeValue_object, hself]
        | str x =>
          rw [mergeValue_of_not_both (some (.str x)) (.object vm)
            (Or.inr (Or.inr ⟨_, rfl, rfl⟩)), mergeValue_object, hself]
        | int x y =>
          rw [mergeValue_of_not_both (some (.int x y)) (.object vm)
            (Or.inr (Or.inr ⟨_, rfl, rfl⟩)), mergeValue_object, hself]
        | uint x y =>
          rw [mergeValue_of_not_both (some (.uint x y)) (.object vm)
            (Or.inr (Or.inr ⟨_, rfl, rfl⟩)), mergeValue_object, hself]
        | float32 x =>
          rw [mergeValue_of_not_both (some (.float32 x)) (.object vm)
            (Or.inr (Or.inr ⟨_, rfl, rfl⟩)), mergeValue_object, hself]
        | float64 x =>
          rw [mergeValue_of_not_both (some (.float64 x)) (.object vm)
            (Or.inr (Or.inr ⟨_, rfl, rfl⟩)), mergeValue_object, hself]
        | array x =>
          rw [mergeValue_of_not_both (some (.array x)) (.object vm)
            (Or.inr (Or.inr ⟨_, rfl, rfl⟩)), mergeValue_object, hself]
    | _ => simp [mergeValue]

theorem mergeInto_idempotent (b : Doc) (hb : DeepUniqueKeys b) (out : Doc) :
    mergeInto (mergeInto out b) b = mergeInto out b := by
  unfold DeepUniqueKeys at hb
  rw [deepUniqueValue, Bool.and_eq_true, decide_eq_true_eq] at hb
  exact mergeInto_idempotent_of_size (sizeOf b + 1) b (by omega) hb.1 hb.2 out

/-- The accessor `fieldpathPave` at the path `data`: the value of the entry
`data`, a not-found error when there is none. -/
theorem fieldpathPave_data (c : Doc) :
    fieldpathPave c "data" =
      match mapLookup c "data" with
      | some v => .ok v
      | none => .error (.notFound "no such field") := by
  have hp : parsePath "data" = .ok [.field "data"] := rfl
  unfold fieldpathPave
  rw [hp]
  cases h : mapLookup c "data" <;> simp [getValueFromInterface, getSegment, h]

/-- A config whose data cannot be read makes the loop of
`mergeEnvConfigsData` fail, at that config or before. -/
theorem mergeEnvConfigsDataFrom_error_of_data (pave : Pave) (configs : List Doc)
    (merged : Doc) (h : ∃ c ∈ configs, ∃ e, GetValueInto pave c "data" = .error e) :
    ∃ err, mergeEnvConfigsDataFrom pave configs merged = .error err := by
  induction configs generalizing merged with
  | nil =>
    obtain ⟨c, hc, _⟩ := h
    cases hc
  | cons c0 rest ih =>
    unfold mergeEnvConfigsDataFrom
    cases hg : GetValueInto pave c0 "data" with
    | error e => exact ⟨_, rfl⟩
    | ok data =>
      simp only
      apply ih
      obtain ⟨c, hc, e, he⟩ := h
      rcases List.mem_cons.mp hc with h1 | h1
      · subst h1
        rw [he] at hg
        cases hg
      · exact ⟨c, h1, e, he⟩

theorem getValueInto_of_lookup_error (pave : Pave) (c : Doc) (fe : FieldPathError)
    (h : pave c "data" = .error fe) : GetValueInto pave c "data" = .error (.fieldPath fe) := by
  simp [GetValueInto, h]

theorem forall₂_mem_right {α β : Type} (R : α → β → Prop) (l1 : List α) (l2 : List β)
    (h : List.Forall₂ R l1 l2) (b : β) (hb : b ∈ l2) : ∃ a ∈ l1, R a b := by
  induction h with
  | nil => cases hb
  | cons hab _ ih =>
    rcases List.mem_cons.mp hb with h1 | h1
    · subst h1
      exact ⟨_, List.mem_cons_self _ _, hab⟩
    · obtain ⟨a, ha, hr⟩ := ih h1
      exact ⟨a, List.mem_cons_of_mem _ ha, hr⟩

theorem forall₂_self_of_normal (raws : List Doc)
    (h : ∀ r ∈ raws, jsonNormalEntries r = true) :
    List.Forall₂ (fun r d => jsonRoundTripEntries r = some d) raws raws := by
  induction raws with
  | nil => exact List.Forall₂.nil
  | cons r rest ih =>
    exact List.Forall₂.cons (jsonRoundTripEntries_of_normal r (h r (List.mem_cons_self _ _)))
      (ih (fun r2 h2 => h r2 (List.mem_cons_of_mem _ h2)))

/-- C31, counterexample: the second config of the first list holds a NaN in its
data, an object; `mergeEnvConfigsData` fails. The config of the second list
holds the `float64` 2 under `f`; `mergeEnvConfigsData` returns the `int64` 2
under `f`, which is not the fold of `mergeMaps` over the data object. -/
theorem mergeEnvConfigsData_data_counterexample :
    mapLookup exampleNaNDataConfig "data"
      = some (.object [("f", .float64 9221120237041090560)]) ∧
    mergeEnvConfigsData fieldpathPave [exampleEnvConfig, exampleNaNDataConfig]
      = .error (.wrap "cannot get data from environment config %q" .cannotMarshal) ∧
    mapLookup exampleFloatDataConfig "data"
      = some (.object [("f", .float64 4611686018427387904)]) ∧
    mergeEnvConfigsData fieldpathPave [exampleFloatDataConfig]
      = .ok [("f", .int .int64 2)] ∧
    [[("f", Value.float64 4611686018427387904)]].foldl mergeMaps []
      = [("f", .float64 4611686018427387904)] ∧
    ([("f", .int .int64 2)] : Doc) ≠ [("f", .float64 4611686018427387904)] :=
  ⟨rfl, rfl, rfl, rfl, rfl, by simp⟩

/-- C31, amended: for every list of selected configs and every accessor: when
the lookup of `data` fails in some config, or finds an object that cannot be
marshalled to JSON (one that holds a NaN or an infinity), `mergeEnvConfigsData`
returns an error and no document; when the lookup finds in every config an
object that can be marshalled, it returns the left fold of `mergeMaps`, from
the empty document and in list order, over the JSON round trips of these
objects. The round trip of an object is the object itself when its values are
as the JSON decoder returns them; for such data the result is the fold over the
data objects. With the accessor `fieldpathPave` the lookup fails in a config
that has no `data` entry, and finds the object of a config whose `data` entry
is an object. For the empty list the result is the empty document. -/
theorem mergeEnvConfigsData_data (pave : Pave) (configs : List Doc) :
    ((∃ c ∈ configs, ∃ fe, pave c "data" = .error fe) →
      ∃ err, mergeEnvConfigsData pave configs = .error err) ∧
    (∀ raws, List.Forall₂ (fun c r => pave c "data" = .ok (.object r)) configs raws →
      (∃ r ∈ raws, jsonRoundTripEntries r = none) →
      ∃ err, mergeEnvConfigsData pave configs = .error err) ∧
    (∀ raws datas,
      List.Forall₂ (fun c r => pave c "data" = .ok (.object r)) configs raws →
      List.Forall₂ (fun r d => jsonRoundTripEntries r = some d) raws datas →
      mergeEnvConfigsData pave configs = .ok (datas.foldl mergeMaps [])) ∧
    (∀ raws, List.Forall₂ (fun c r => pave c "data" = .ok (.object r)) configs raws →
      (∀ r ∈ raws, jsonNormalEntries r = true) →
      mergeEnvConfigsData pave configs = .ok (raws.foldl mergeMaps [])) ∧
    ((∃ c ∈ configs, mapLookup c "data" = none) →
      ∃ err, mergeEnvConfigsData fieldpathPave configs = .error err) ∧
    (∀ raws, List.Forall₂ (fun c r => mapLookup c "data" = some (.object r)) configs raws →
      (∀ r ∈ raws, jsonNormalEntries r = true) →
      mergeEnvConfigsData fieldpathPave configs = .ok (raws.foldl mergeMaps [])) ∧
    mergeEnvConfigsData pave [] = .ok [] := by
  have hfold : ∀ (p : Pave) raws datas,
      List.Forall₂ (fun c r => p c "data" = .ok (.object r)) configs raws →
      List.Forall₂ (fun r d => jsonRoundTripEntries r = some d) raws datas →
      mergeEnvConfigsData p configs = .ok (datas.foldl mergeMaps []) := by
    intro p raws datas h1 h2
    unfold mergeEnvConfigsData
    exact mergeEnvConfigsDataFrom_eq_foldl p configs datas
      (getValueInto_forall₂ p configs raws datas h1 h2) []
  refine ⟨?_, ?_, hfold pave, ?_, ?_, ?_, rfl⟩
  · rintro ⟨c, hc, fe, hfe⟩
    exact mergeEnvConfigsDataFrom_error_of_data pave configs []
      ⟨c, hc, _, getValueInto_of_lookup_error pave c fe hfe⟩
  · rintro raws hraw ⟨r, hr, hnone⟩
    obtain ⟨c, hc, hcr⟩ := forall₂_mem_right _ configs raws hraw r hr
    exact mergeEnvConfigsDataFrom_error_of_data pave configs []
      ⟨c, hc, _, getValueInto_of_unmarshallable pave c r hcr hnone⟩
  · intro raws hraw hnorm
    exact hfold pave raws raws hraw (forall₂_self_of_normal raws hnorm)
  · rintro ⟨c, hc, hnone⟩
    apply mergeEnvConfigsDataFrom_error_of_data fieldpathPave configs []
    refine ⟨c, hc, _, getValueInto_of_lookup_error fieldpathPave c
      (.notFound "no such field") ?_⟩
    rw [fieldpathPave_data, hnone]
  · intro raws hraw hnorm
    apply hfold fieldpathPave raws raws _ (forall₂_self_of_normal raws hnorm)
    refine List.Forall₂.imp ?_ hraw
    intro c d hcd
    rw [fieldpathPave_data, hcd]

/-- Witness of C31 (amended): a list whose second config has no `data` entry
fails; a list of two configs with data gives the merge of the two data
objects. -/
theorem mergeEnvConfigsData_data_witness :
    (∃ err, mergeEnvConfigsData fieldpathPave [exampleEnvConfig, exampleDatalessEnvConfig]
      = .error err) ∧
    mergeEnvConfigsData fieldpathPave [exampleEnvConfig, exampleSecondEnvConfig]
      = .ok [("c", .str "s0"), ("d", .str "s1")] :=
  ⟨(mergeEnvConfigsData_data fieldpathPave
      [exampleEnvConfig, exampleDatalessEnvConfig]).2.2.2.2.1
      ⟨exampleDatalessEnvConfig, by simp, rfl⟩,
    ((mergeEnvConfigsData_data fieldpathPave
      [exampleEnvConfig, exampleSecondEnvConfig]).2.2.2.2.2.1
      [[("c", .str "s0")], [("d", .str "s1")]]
      (List.Forall₂.cons rfl (List.Forall₂.cons rfl List.Forall₂.nil))
      (by
        intro r hr
        simp only [List.mem_cons, List.mem_singleton, List.not_mem_nil, or_false] at hr
        rcases hr with h | h <;> subst h <;> rfl)).trans rfl⟩

/-- C32: for documents `a` and `b`, where `b` stands for a Go map (no key
occurs twice, at any level of object nesting): merging `b` into
`mergeMaps a b` gives `mergeMaps a b` again; merging `b` into the empty
document gives `b`, and merging `b` into itself gives `b`. -/
theorem mergeMaps_idempotent (a b : Doc) (hb : DeepUniqueKeys b) :
    mergeMaps (mergeMaps a b) b = mergeMaps a b ∧ mergeMaps [] b = b ∧
    mergeMaps b b = b := by
  have hu : UniqueKeys b := by
    unfold DeepUniqueKeys at hb
    rw [deepUniqueValue, Bool.and_eq_true, decide_eq_true_eq] at hb
    exact hb.1
  have hnil : mergeMaps [] b = b := by
    unfold mergeMaps
    rw [copyMap_eq [] uniqueKeys_nil]
    exact mergeInto_nil b hu
  refine ⟨?_, hnil, ?_⟩
  · unfold mergeMaps
    rw [copyMap_eq _ (uniqueKeys_mergeInto _ _ (uniqueKeys_copyMap a))]
    exact mergeInto_idempotent b hb _
  · unfold mergeMaps
    rw [copyMap_eq b hu]
    have h := mergeInto_idempotent b hb []
    rwa [mergeInto_nil b hu] at h

/-- Witness of C32: an overlay with nested objects, applied twice to a base
that shares the key `k` with it. -/
theorem mergeMaps_idempotent_witness :
    mergeMaps (mergeMaps exampleNestedBase exampleNestedOverlay) exampleNestedOverlay
      = mergeMaps exampleNestedBase exampleNestedOverlay ∧
    mergeMaps exampleNestedOverlay exampleNestedOverlay = exampleNestedOverlay :=
  ⟨(mergeMaps_idempotent exampleNestedBase exampleNestedOverlay (by decide)).1,
    (mergeMaps_idempotent exampleNestedBase exampleNestedOverlay (by decide)).2.2⟩

/-- The nesting of the layers: in a run with candidates, an input environment
and default data that reports no fatal result, the environment is the stamped
merge of the source data into the input environment, merged into the default
data. -/
theorem RunFunction_nesting (pave : Pave) (req : RunFunctionRequest) (inp : Input)
    (cfgs : List EnvironmentSource) (extra : List (String × List Extra))
    (rsp : RunFunctionResponse) (envConfigs datas : List Doc) (dd e : Doc)
    (hin : req.Input = .ok inp) (hcfg : inp.Spec.EnvironmentConfigs = some cfgs)
    (hextra : req.ExtraResources = some (.ok extra))
    (hrun : RunFunction pave req = .ok rsp) (hok : rsp.Results = [])
    (hsel : getSelectedEnvConfigs pave inp extra = .ok envConfigs)
    (hdata : List.Forall₂ (fun c d => GetValueInto pave c "data" = .ok d) envConfigs datas)
    (henv : loadInputEnv req = .ok (some e)) (hdd : inp.Spec.DefaultData = some dd) :
    mapLookup rsp.Context FunctionContextKeyEnvironment = some (.object
      (stampEnvironment (mergeMaps dd (mergeMaps e (datas.foldl mergeMaps []))))) := by
  obtain ⟨inputEnv2, envConfigs2, mergedData, h1, h2, h3, h4⟩ :=
    RunFunction_environment pave req inp cfgs extra rsp hin hcfg hextra hrun hok
  rw [henv] at h1
  rw [hsel] at h2
  have hi : inputEnv2 = some e := (Except.ok.inj h1).symm
  have hc : envConfigs2 = envConfigs := (Except.ok.inj h2).symm
  subst hi hc
  have hm : mergedData = datas.foldl mergeMaps [] := by
    have := mergeEnvConfigsDataFrom_eq_foldl pave envConfigs2 datas hdata []
    rw [mergeEnvConfigsData, this] at h3
    exact (Except.ok.inj h3).symm
  subst hm
  rw [h4, hdd]
  rfl

/-- C33: `mergeMaps` is not associative: for `a = k: (x: 1)`, `b = k: 2` and
`c = k: (y: 3)`, merging `c` into `mergeMaps a b` gives `k: (y: 3)`, and
merging `mergeMaps b c` into `a` gives `k: (x: 1, y: 3)`. `RunFunction` nests
the layers as `mergeMaps defaultData (mergeMaps inputEnv (foldl mergeMaps []
sourceData))`, and this nesting shows in its result: with default data `a`,
input environment `b` and one source with data `c`, the environment holds
`(x: 1, y: 3)` under `k`, where the other nesting of the same layers in the
same order gives `(y: 3)`. -/
theorem mergeMaps_not_associative :
    (DeepUniqueKeys exampleObjectAtK ∧ DeepUniqueKeys exampleScalarAtK ∧
      DeepUniqueKeys exampleOtherObjectAtK ∧
      mergeMaps (mergeMaps exampleObjectAtK exampleScalarAtK) exampleOtherObjectAtK
        = [("k", .object [("y", .int .int64 3)])] ∧
      mergeMaps exampleObjectAtK (mergeMaps exampleScalarAtK exampleOtherObjectAtK)
        = [("k", .object [("x", .int .int64 1), ("y", .int .int64 3)])] ∧
      mergeMaps (mergeMaps exampleObjectAtK exampleScalarAtK) exampleOtherObjectAtK
        ≠ mergeMaps exampleObjectAtK (mergeMaps exampleScalarAtK exampleOtherObjectAtK)) ∧
    (∀ (pave : Pave) (req : RunFunctionRequest) (inp : Input)
      (cfgs : List EnvironmentSource) (extra : List (String × List Extra))
      (rsp : RunFunctionResponse) (envConfigs datas : List Doc) (dd e : Doc),
      req.Input = .ok inp → inp.Spec.EnvironmentConfigs = some cfgs →
      req.ExtraResources = some (.ok extra) →
      RunFunction pave req = .ok rsp → rsp.Results = [] →
      getSelectedEnvConfigs pave inp extra = .ok envConfigs →
      List.Forall₂ (fun c d => GetValueInto pave c "data" = .ok d) envConfigs datas →
      loadInputEnv req = .ok (some e) → inp.Spec.DefaultData = some dd →
      mapLookup rsp.Context FunctionContextKeyEnvironment = some (.object
        (stampEnvironment (mergeMaps dd (mergeMaps e (datas.foldl mergeMaps [])))))) ∧
    (∃ rsp env, RunFunction fieldpathPave exampleLayersRequest = .ok rsp ∧
      rsp.Results = [] ∧
      mapLookup rsp.Context FunctionContextKeyEnvironment = some (.object env) ∧
      env = stampEnvironment (mergeMaps exampleObjectAtK
        (mergeMaps exampleScalarAtK ([exampleOtherObjectAtK].foldl mergeMaps []))) ∧
      mapLookup env "k" = some (.object [("x", .int .int64 1), ("y", .int .int64 3)]) ∧
      mapLookup (stampEnvironment (mergeMaps (mergeMaps exampleObjectAtK exampleScalarAtK)
        ([exampleOtherObjectAtK].foldl mergeMaps []))) "k"
        = some (.object [("y", .int .int64 3)]) ∧
      env ≠ stampEnvironment (mergeMaps (mergeMaps exampleObjectAtK exampleScalarAtK)
        ([exampleOtherObjectAtK].foldl mergeMaps []))) := by
  refine ⟨⟨by decide, by decide, by decide, rfl, rfl, ?_⟩, ?_, ?_⟩
  · intro h
    have h1 : mergeMaps (mergeMaps exampleObjectAtK exampleScalarAtK) exampleOtherObjectAtK
        = [("k", .object [("y", .int .int64 3)])] := rfl
    have h2 : mergeMaps exampleObjectAtK (mergeMaps exampleScalarAtK exampleOtherObjectAtK)
        = [("k", .object [("x", .int .int64 1), ("y", .int .int64 3)])] := rfl
    rw [h1, h2] at h
    simp at h
  · intro pave req inp cfgs extra rsp envConfigs datas dd e hin hcfg hextra hrun hok hsel
      hdata henv hdd
    exact RunFunction_nesting pave req inp cfgs extra rsp envConfigs datas dd e hin hcfg
      hextra hrun hok hsel hdata henv hdd
  · refine ⟨_, [("k", .object [("x", .int .int64 1), ("y", .int .int64 3)]),
      ("apiVersion", .str "internal.crossplane.io/v1alpha1"),
      ("kind", .str "Environment")], rfl, rfl, rfl, rfl, rfl, rfl, ?_⟩
    intro h
    have h2 : stampEnvironment (mergeMaps (mergeMaps exampleObjectAtK exampleScalarAtK)
        ([exampleOtherObjectAtK].foldl mergeMaps []))
        = [("k", .object [("y", .int .int64 3)]),
            ("apiVersion", .str "internal.crossplane.io/v1alpha1"),
            ("kind", .str "Environment")] := rfl
    rw [h2] at h
    simp at h

/-- Witness of C33: the nesting of the layers in the run of
`exampleLayersRequest`. -/
theorem mergeMaps_not_associative_witness :
    ∃ rsp, RunFunction fieldpathPave exampleLayersRequest = .ok rsp ∧
      mapLookup rsp.Context FunctionContextKeyEnvironment = some (.object
        (stampEnvironment (mergeMaps exampleObjectAtK
          (mergeMaps exampleScalarAtK ([exampleOtherObjectAtK].foldl mergeMaps []))))) :=
  ⟨_, rfl, mergeMaps_not_associative.2.1 fieldpathPave exampleLayersRequest
    ⟨⟨some exampleObjectAtK, some [⟨"Reference", some ⟨"my-env-config"⟩, none⟩],
      none, none⟩⟩
    [⟨"Reference", some ⟨"my-env-config"⟩, none⟩]
    [("environment-config-0", [exampleObjectAtKEnvConfig])] _
    [exampleObjectAtKEnvConfig] [exampleOtherObjectAtK] exampleObjectAtK exampleScalarAtK
    rfl rfl rfl rfl rfl rfl (List.Forall₂.cons rfl List.Forall₂.nil) rfl rfl⟩

end EnvConfigs
